import Mathlib

/-!
# Tasks: task-space measurements and their QP wrappers

A shallow embedding of `src/Tasks.cpp` and `src/QPTasks.h`.

Conventions of the embedding.

* `double` is embedded as `ℚ`: the statements below are about the exact arithmetic the
  code writes down, not about rounding.
* Where the rounding of `double` matters, a function is embedded a second time with the
  suffix `Rounded`: it takes the rounding `fl` that every arithmetic result goes through,
  and `Double.round` is the rounding of IEEE 754 binary64.
* `Eigen::Vector3d`, `Vector2d`, `Vector6d` are functions on `Fin 3`, `Fin 2`, `Fin 6`;
  a dynamic matrix with a fixed number `r` of rows (`MatrixXd(r, n)`) is the list of its
  columns; a dynamic vector is a list of scalars.
* `std::vector::operator[]` is embedded as a lookup that fails (`none`) outside the range
  of the vector, for an `int` index also when the index is negative.
* SpaceVecAlg (`sva`) and RBDyn (`rbd`) are libraries outside this repository.  Their
  plain data (`PTransformd`, `MotionVecd`, `MultiBody`, `MultiBodyConfig`) is embedded as
  structures; their algorithms (Jacobians, centre of mass, rotation logarithm) are taken
  as parameters, bundled in the structures `sva.Lib` and `rbd.Lib`.
-/

/-! ## Eigen -/

/-- The type `Eigen::Vector2d`. -/
abbrev Vector2d := Fin 2 → ℚ

/-- The type `Eigen::Vector3d`. -/
abbrev Vector3d := Fin 3 → ℚ

/-- The type `Eigen::Vector6d`. -/
abbrev Vector6d := Fin 6 → ℚ

/-- The type `Eigen::Matrix3d`. -/
abbrev Matrix3d := Matrix (Fin 3) (Fin 3) ℚ

/-- The type `Eigen::VectorXd`: a vector of dynamic size. -/
abbrev VectorXd := List ℚ

/-- A matrix with `r` rows and a dynamic number of columns, as the list of its columns. -/
abbrev MatrixNXd (r : Nat) := List (Fin r → ℚ)

/-- A matrix with two rows. -/
abbrev Matrix2Xd := MatrixNXd 2

/-- A matrix with three rows. -/
abbrev Matrix3Xd := MatrixNXd 3

/-- A matrix with six rows. -/
abbrev Matrix6Xd := MatrixNXd 6

/-- The element `v[i]` of a `std::vector` for an `int` index; `none` outside the range. -/
def stdAt {α : Type} (v : List α) (i : Int) : Option α :=
  if 0 ≤ i then v[i.toNat]? else none

/-- The cross product `a.cross(b)` of `Eigen::Vector3d`. -/
def cross3 (a b : Vector3d) : Vector3d :=
  ![a 1 * b 2 - a 2 * b 1, a 2 * b 0 - a 0 * b 2, a 0 * b 1 - a 1 * b 0]

/-- The block `m.block(0, 0, 3, n)`: the first three rows of the first `n` columns. -/
def MatrixNXd.topRows (m : Matrix6Xd) (n : Nat) : Matrix3Xd :=
  (m.take n).map fun c => ![c 0, c 1, c 2]

/-- The block `m.block(3, 0, 3, n)`: the last three rows of the first `n` columns. -/
def MatrixNXd.bottomRows (m : Matrix6Xd) (n : Nat) : Matrix3Xd :=
  (m.take n).map fun c => ![c 3, c 4, c 5]

namespace Eigen

/-- The functions of Eigen's geometry module that take a square root. -/
structure Lib where
  /-- The vector `v` after `v.normalize()`. -/
  normalized : Vector3d → Vector3d
  /-- The rotation matrix `Quaterniond::FromTwoVectors(a, b).inverse().matrix()`. -/
  fromTwoVectorsInverse : Vector3d → Vector3d → Matrix3d

end Eigen

/-! ## Rounding to `double` -/

namespace Double

/-- The number `⌊log₂ n⌋` of a positive natural number `n`, found by halving `n` at most
`fuel` times; `fuel = n` is enough. -/
def floorLog2 : Nat → Nat → Nat
  | 0, _ => 0
  | fuel + 1, n => if 2 ≤ n then floorLog2 fuel (n / 2) + 1 else 0

/-- The binary exponent of a positive rational `a`: the integer `e` with
`2 ^ e ≤ a < 2 ^ (e + 1)`. -/
def exponent (a : ℚ) : Int :=
  let e0 : Int := (floorLog2 a.num.natAbs a.num.natAbs : Int) - (floorLog2 a.den a.den : Int)
  if (2 : ℚ) ^ e0 ≤ a then e0 else e0 - 1

/-- The integer nearest to a rational `s ≥ 0`, a tie going to the even one. -/
def roundHalfEven (s : ℚ) : Int :=
  let f := ⌊s⌋
  let r := s - f
  if r < 1 / 2 then f else if 1 / 2 < r then f + 1 else if f % 2 = 0 then f else f + 1

/-- The `double` nearest to the rational `x` (IEEE 754 binary64, 53 significant bits,
rounding to nearest with ties to even), which is the result the processor stores for an
operation whose exact result is `x`.  Overflow and subnormal numbers are not modelled. -/
def round (x : ℚ) : ℚ :=
  if x = 0 then 0
  else
    let e := exponent |x|
    (if x < 0 then -1 else 1) * (roundHalfEven (|x| * (2 : ℚ) ^ (52 - e)) : ℚ) *
      (2 : ℚ) ^ (e - 52)

end Double

/-! ## SpaceVecAlg -/

namespace sva

/-- The Plücker transform `sva::PTransformd`: a rotation and a translation. -/
structure PTransformd where
  /-- The rotation matrix `E`. -/
  rotation : Matrix3d
  /-- The translation `r`. -/
  translation : Vector3d
deriving DecidableEq

/-- The transform `sva::PTransformd(const Vector3d& trans)`: identity rotation. -/
def PTransformd.ofTranslation (r : Vector3d) : PTransformd :=
  ⟨1, r⟩

/-- The transform `sva::PTransformd(const Matrix3d& rot)`: zero translation. -/
def PTransformd.ofRotation (E : Matrix3d) : PTransformd :=
  ⟨E, 0⟩

/-- The product `X1 * X2` of `sva::PTransformd`: `(E1 E2, r2 + E2ᵀ r1)`. -/
instance : Mul PTransformd :=
  ⟨fun X1 X2 => ⟨X1.rotation * X2.rotation,
    X2.translation + X2.rotation.transpose.mulVec X1.translation⟩⟩

/-- The inverse `X.inv()` of `sva::PTransformd`: `(Eᵀ, -E r)`. -/
def PTransformd.inv (X : PTransformd) : PTransformd :=
  ⟨X.rotation.transpose, -(X.rotation.mulVec X.translation)⟩

/-- The spatial motion vector `sva::MotionVecd`: an angular and a linear part. -/
structure MotionVecd where
  /-- The angular part. -/
  angular : Vector3d
  /-- The linear part. -/
  linear : Vector3d
deriving DecidableEq

/-- The motion vector `sva::MotionVecd(const Vector6d&)`: angular part first. -/
def MotionVecd.ofVector (v : Vector6d) : MotionVecd :=
  ⟨![v 0, v 1, v 2], ![v 3, v 4, v 5]⟩

/-- The six coordinates `mv.vector()`: angular part first. -/
def MotionVecd.vector (m : MotionVecd) : Vector6d :=
  ![m.angular 0, m.angular 1, m.angular 2, m.linear 0, m.linear 1, m.linear 2]

instance : Add MotionVecd :=
  ⟨fun a b => ⟨a.angular + b.angular, a.linear + b.linear⟩⟩

instance : Sub MotionVecd :=
  ⟨fun a b => ⟨a.angular - b.angular, a.linear - b.linear⟩⟩

instance : Neg MotionVecd :=
  ⟨fun a => ⟨-a.angular, -a.linear⟩⟩

/-- The spatial cross product `mv1.cross(mv2)` of two motion vectors. -/
def MotionVecd.cross (a b : MotionVecd) : MotionVecd :=
  ⟨cross3 a.angular b.angular, cross3 a.angular b.linear + cross3 a.linear b.angular⟩

/-- The functions of SpaceVecAlg that take a logarithm of a rotation. -/
structure Lib where
  /-- The rotation vector `sva::rotationVelocity(E, prec)`. -/
  rotationVelocity : Matrix3d → Vector3d
  /-- The rotation error `sva::rotationError(E_a_b, E_a_c, prec)`. -/
  rotationError : Matrix3d → Matrix3d → Vector3d

/-- The velocity `sva::transformVelocity(X, prec)` that carries the identity to `X` in
unit time: `MotionVecd(rotationVelocity(X.rotation()), X.translation())`. -/
def Lib.transformVelocity (S : Lib) (X : PTransformd) : MotionVecd :=
  ⟨S.rotationVelocity X.rotation, X.translation⟩

end sva

/-! ## RBDyn -/

namespace rbd

/-- The kinds of joint of `rbd::Joint::Type`. -/
inductive JointType where
  | Rev
  | Prism
  | Spherical
  | Planar
  | Cylindrical
  | Free
  | Fixed
deriving DecidableEq, Repr

/-- The joint `rbd::Joint` as far as the tasks read it: its kind, its identifier and
`dof()`, the number of its degrees of freedom (the size of its velocity). -/
structure Joint where
  /-- The kind `type()`. -/
  type : JointType
  /-- The number `dof()` of degrees of freedom. -/
  dof : Nat
  /-- The identifier `id()`. -/
  id : Int
deriving DecidableEq, Repr

/-- The number of degrees of freedom RBDyn gives to each kind of joint. -/
def JointType.dof : JointType → Nat
  | .Rev => 1
  | .Prism => 1
  | .Spherical => 3
  | .Planar => 3
  | .Cylindrical => 2
  | .Free => 6
  | .Fixed => 0

/-- The joint of a given kind, with the number of degrees of freedom of that kind. -/
def Joint.ofType (t : JointType) (id : Int) : Joint :=
  ⟨t, t.dof, id⟩

/-- The body `rbd::Body` as far as the tasks read it: its identifier and
`inertia().mass()`. -/
structure Body where
  /-- The identifier `id()`. -/
  id : Int
  /-- The mass `inertia().mass()`. -/
  mass : ℚ
deriving DecidableEq

/-- The kinematic tree `rbd::MultiBody`: its bodies and its joints, in index order. -/
structure MultiBody where
  /-- The bodies `bodies()`. -/
  bodies : List Body
  /-- The joints `joints()`. -/
  joints : List Joint
deriving DecidableEq

/-- The number `mb.nrBodies()`. -/
def MultiBody.nrBodies (mb : MultiBody) : Nat :=
  mb.bodies.length

/-- The number `mb.nrJoints()`. -/
def MultiBody.nrJoints (mb : MultiBody) : Nat :=
  mb.joints.length

/-- The number `mb.nrDof()`: the sum of the degrees of freedom of all joints. -/
def MultiBody.nrDof (mb : MultiBody) : Nat :=
  (mb.joints.map Joint.dof).sum

/-- The joint `mb.joint(i)`. -/
def MultiBody.joint (mb : MultiBody) (i : Int) : Option Joint :=
  stdAt mb.joints i

/-- The position `mb.jointPosInDof(i)` of joint `i` in the velocity vector: the sum of the
degrees of freedom of the joints before it. -/
def MultiBody.jointPosInDof (mb : MultiBody) (i : Int) : Option Nat :=
  if 0 ≤ i ∧ i.toNat < mb.nrJoints then some ((mb.joints.take i.toNat).map Joint.dof).sum
  else none

/-- The index `mb.bodyIndexById(id)` of the body with the given identifier. -/
def MultiBody.bodyIndexById (mb : MultiBody) (id : Int) : Option Int :=
  let i := mb.bodies.findIdx fun b => b.id = id
  if i < mb.bodies.length then some i else none

/-- The index `mb.jointIndexById(id)` of the joint with the given identifier. -/
def MultiBody.jointIndexById (mb : MultiBody) (id : Int) : Option Int :=
  let i := mb.joints.findIdx fun j => j.id = id
  if i < mb.joints.length then some i else none

/-- The configuration `rbd::MultiBodyConfig` of a kinematic tree. -/
structure MultiBodyConfig where
  /-- The generalised position `q`, one vector per joint. -/
  q : List (List ℚ)
  /-- The generalised velocity `alpha`, one vector per joint. -/
  alpha : List (List ℚ)
  /-- The joint transforms `jointConfig`. -/
  jointConfig : List sva.PTransformd
  /-- The body poses `bodyPosW` in the world frame. -/
  bodyPosW : List sva.PTransformd
  /-- The body velocities `bodyVelB` in the body frames. -/
  bodyVelB : List sva.MotionVecd
deriving DecidableEq

/-- The object `rbd::Jacobian`: the path of joints from the root to a body, a point of
that body, and `dof()`, the number of columns of its Jacobian matrix. -/
structure Jacobian where
  /-- The joint indexes `jointsPath()`. -/
  jointsPath : List Int
  /-- The body point `point_`, kept as a transform. -/
  point_ : sva.PTransformd
  /-- The number `dof()` of columns. -/
  dof : Nat
deriving DecidableEq

/-- The setter `jac.point(p)`. -/
def Jacobian.setPoint (j : Jacobian) (p : Vector3d) : Jacobian :=
  { j with point_ := sva.PTransformd.ofTranslation p }

/-- The getter `jac.point()`. -/
def Jacobian.point (j : Jacobian) : Vector3d :=
  j.point_.translation

/-- The object `rbd::CoMJacobian`: the per-body weights and the body masses it was built
or last refreshed with. -/
structure CoMJacobian where
  /-- The per-body weights `weight()`. -/
  weight : List ℚ
  /-- The masses of the bodies read at construction or by `updateInertialParameters`. -/
  masses : List ℚ
deriving DecidableEq

/-- The default object `rbd::CoMJacobian()`. -/
def CoMJacobian.empty : CoMJacobian :=
  ⟨[], []⟩

/-- The object `rbd::CoMJacobian(mb, weight)`. -/
def CoMJacobian.new (mb : MultiBody) (weight : List ℚ) : CoMJacobian :=
  ⟨weight, mb.bodies.map Body.mass⟩

/-- The object `rbd::CoMJacobian(mb)`: every body has weight one. -/
def CoMJacobian.ofMultiBody (mb : MultiBody) : CoMJacobian :=
  CoMJacobian.new mb (List.replicate mb.nrBodies 1)

/-- The setter `jac.weight(mb, w)`. -/
def CoMJacobian.setWeight (_j : CoMJacobian) (mb : MultiBody) (w : List ℚ) : CoMJacobian :=
  ⟨w, mb.bodies.map Body.mass⟩

/-- The refresh `jac.updateInertialParameters(mb)`. -/
def CoMJacobian.updateInertialParameters (j : CoMJacobian) (mb : MultiBody) : CoMJacobian :=
  ⟨j.weight, mb.bodies.map Body.mass⟩

/-- The algorithms of RBDyn the tasks call.  Each is a function of its arguments and of
the receiving object. -/
structure Lib where
  /-- The path of joints from the root to the body with the given identifier, and the
  number of columns, as computed by the constructor `rbd::Jacobian(mb, bodyId)`. -/
  jointsPath : MultiBody → Int → List Int
  /-- The method `jac.velocity(mb, mbc)`. -/
  velocity : Jacobian → MultiBody → MultiBodyConfig → sva.MotionVecd
  /-- The method `jac.velocity(mb, mbc, X_b_p)`. -/
  velocityAt : Jacobian → MultiBody → MultiBodyConfig → sva.PTransformd → sva.MotionVecd
  /-- The method `jac.normalAcceleration(mb, mbc)`. -/
  normalAcceleration : Jacobian → MultiBody → MultiBodyConfig → sva.MotionVecd
  /-- The method `jac.normalAcceleration(mb, mbc, normalAccB)`. -/
  normalAccelerationB : Jacobian → MultiBody → MultiBodyConfig → List sva.MotionVecd →
    sva.MotionVecd
  /-- The method `jac.normalAcceleration(mb, mbc, X_b_p, V_b_p)`. -/
  normalAccelerationAt : Jacobian → MultiBody → MultiBodyConfig → sva.PTransformd →
    sva.MotionVecd → sva.MotionVecd
  /-- The method `jac.normalAcceleration(mb, mbc, normalAccB, X_b_p, V_b_p)`. -/
  normalAccelerationBAt : Jacobian → MultiBody → MultiBodyConfig → List sva.MotionVecd →
    sva.PTransformd → sva.MotionVecd → sva.MotionVecd
  /-- The method `jac.jacobian(mb, mbc)`: six rows, `dof()` columns. -/
  jacobian : Jacobian → MultiBody → MultiBodyConfig → Matrix6Xd
  /-- The method `jac.jacobian(mb, mbc, X_0_p)`: six rows, `dof()` columns. -/
  jacobianAt : Jacobian → MultiBody → MultiBodyConfig → sva.PTransformd → Matrix6Xd
  /-- The method `jac.jacobianDot(mb, mbc)`. -/
  jacobianDot : Jacobian → MultiBody → MultiBodyConfig → Matrix6Xd
  /-- The method `jac.bodyJacobianDot(mb, mbc)`. -/
  bodyJacobianDot : Jacobian → MultiBody → MultiBodyConfig → Matrix6Xd
  /-- The method `jac.fullJacobian(mb, jac, res)`: the short Jacobian `jac` mapped to the
  full layout of the robot, written into `res`; the result is the new value of `res`. -/
  fullJacobian : (r : Nat) → Jacobian → MultiBody → MatrixNXd r → MatrixNXd r → MatrixNXd r
  /-- The function `rbd::computeCoM(mb, mbc)`. -/
  computeCoM : MultiBody → MultiBodyConfig → Vector3d
  /-- The method `comJac.velocity(mb, mbc)`. -/
  comVelocity : CoMJacobian → MultiBody → MultiBodyConfig → Vector3d
  /-- The method `comJac.normalAcceleration(mb, mbc)`. -/
  comNormalAcceleration : CoMJacobian → MultiBody → MultiBodyConfig → Vector3d
  /-- The method `comJac.normalAcceleration(mb, mbc, normalAccB)`. -/
  comNormalAccelerationB : CoMJacobian → MultiBody → MultiBodyConfig →
    List sva.MotionVecd → Vector3d
  /-- The method `comJac.jacobian(mb, mbc)`: three rows, `nrDof()` columns. -/
  comJacobian : CoMJacobian → MultiBody → MultiBodyConfig → Matrix3Xd
  /-- The method `comJac.jacobianDot(mb, mbc)`. -/
  comJacobianDot : CoMJacobian → MultiBody → MultiBodyConfig → Matrix3Xd
  /-- The function `rbd::interactionMatrix(point2d, depthEstimate)`: two rows, six
  columns. -/
  interactionMatrix : Vector2d → ℚ → Matrix (Fin 2) (Fin 6) ℚ

/-- The object `rbd::Jacobian(mb, bodyId, point)`. -/
def Lib.newJacobian (R : Lib) (mb : MultiBody) (bodyId : Int) (point : Vector3d) : Jacobian :=
  let path := R.jointsPath mb bodyId
  ⟨path, sva.PTransformd.ofTranslation point, (path.filterMap mb.joint).map Joint.dof |>.sum⟩

end rbd

/-! ## Tasks.cpp -/

namespace tasks

/-- The state of `tasks::PositionTask`.  The vectors `eval_`, `speed_`, `normalAcc_` are
built with size three and only ever assigned three-vectors. -/
structure PositionTask where
  /-- The target position `pos_`. -/
  pos_ : Vector3d
  /-- The body point `point_`, kept as a transform. -/
  point_ : sva.PTransformd
  /-- The index `bodyIndex_` of the controlled body. -/
  bodyIndex_ : Int
  /-- The Jacobian object `jac_`. -/
  jac_ : rbd.Jacobian
  /-- The error `eval_`. -/
  eval_ : Vector3d
  /-- The velocity `speed_`. -/
  speed_ : Vector3d
  /-- The normal acceleration `normalAcc_`. -/
  normalAcc_ : Vector3d
  /-- The Jacobian `jacMat_` in the full layout. -/
  jacMat_ : Matrix3Xd
  /-- The Jacobian derivative `jacDotMat_` in the full layout. -/
  jacDotMat_ : Matrix3Xd
deriving DecidableEq

namespace PositionTask

/-- The matrix `m` after construction as `MatrixXd(3, n)`: `n` columns, whose contents
are whatever the storage held. -/
def sizedCols (m : Matrix3Xd) (n : Nat) : Matrix3Xd :=
  List.ofFn fun i : Fin n => m.getD i 0

/-- The constructor `PositionTask::PositionTask(mb, bodyId, pos, bodyPoint)`.  The
argument `mem` is the content of the storage before the construction: it gives the
members the constructor sizes without initialising them. -/
def new (R : rbd.Lib) (mem : PositionTask) (mb : rbd.MultiBody) (bodyId : Int)
    (pos bodyPoint : Vector3d) : Option PositionTask := do
  let bodyIndex ← mb.bodyIndexById bodyId
  some
    { pos_ := pos
      point_ := sva.PTransformd.ofTranslation bodyPoint
      bodyIndex_ := bodyIndex
      jac_ := R.newJacobian mb bodyId bodyPoint
      eval_ := mem.eval_
      speed_ := mem.speed_
      normalAcc_ := mem.normalAcc_
      jacMat_ := sizedCols mem.jacMat_ mb.nrDof
      jacDotMat_ := sizedCols mem.jacDotMat_ mb.nrDof }

/-- The setter `PositionTask::position(pos)`. -/
def setPosition (s : PositionTask) (pos : Vector3d) : PositionTask :=
  { s with pos_ := pos }

/-- The getter `PositionTask::position()`. -/
def position (s : PositionTask) : Vector3d :=
  s.pos_

/-- The setter `PositionTask::bodyPoint(point)`: its body is `jac_.point(point)`. -/
def setBodyPoint (s : PositionTask) (point : Vector3d) : PositionTask :=
  { s with jac_ := s.jac_.setPoint point }

/-- The getter `PositionTask::bodyPoint()`: it returns `jac_.point()`. -/
def bodyPoint (s : PositionTask) : Vector3d :=
  s.jac_.point

/-- The method `PositionTask::update(mb, mbc)`. -/
def update (R : rbd.Lib) (s : PositionTask) (mb : rbd.MultiBody)
    (mbc : rbd.MultiBodyConfig) : Option PositionTask := do
  let X_0_b ← stdAt mbc.bodyPosW s.bodyIndex_
  let eval := s.pos_ - (s.point_ * X_0_b).translation
  let speed := (R.velocity s.jac_ mb mbc).linear
  let normalAcc := (R.normalAcceleration s.jac_ mb mbc).linear
  let shortJacMat := MatrixNXd.bottomRows (R.jacobian s.jac_ mb mbc) s.jac_.dof
  some { s with
    eval_ := eval
    speed_ := speed
    normalAcc_ := normalAcc
    jacMat_ := R.fullJacobian 3 s.jac_ mb shortJacMat s.jacMat_ }

/-- The method `PositionTask::update(mb, mbc, normalAccB)`. -/
def updateB (R : rbd.Lib) (s : PositionTask) (mb : rbd.MultiBody)
    (mbc : rbd.MultiBodyConfig) (normalAccB : List sva.MotionVecd) : Option PositionTask := do
  let X_0_b ← stdAt mbc.bodyPosW s.bodyIndex_
  let eval := s.pos_ - (s.point_ * X_0_b).translation
  let speed := (R.velocity s.jac_ mb mbc).linear
  let normalAcc := (R.normalAccelerationB s.jac_ mb mbc normalAccB).linear
  let shortJacMat := MatrixNXd.bottomRows (R.jacobian s.jac_ mb mbc) s.jac_.dof
  some { s with
    eval_ := eval
    speed_ := speed
    normalAcc_ := normalAcc
    jacMat_ := R.fullJacobian 3 s.jac_ mb shortJacMat s.jacMat_ }

/-- The method `PositionTask::updateDot(mb, mbc)`. -/
def updateDot (R : rbd.Lib) (s : PositionTask) (mb : rbd.MultiBody)
    (mbc : rbd.MultiBodyConfig) : PositionTask :=
  let shortJacMat := MatrixNXd.bottomRows (R.jacobianDot s.jac_ mb mbc) s.jac_.dof
  { s with jacDotMat_ := R.fullJacobian 3 s.jac_ mb shortJacMat s.jacDotMat_ }

/-- The accessor `PositionTask::eval()`. -/
def eval (s : PositionTask) : Vector3d :=
  s.eval_

end PositionTask

/-- The state of `tasks::PostureTask`. -/
structure PostureTask where
  /-- The desired posture `q_`, one vector per joint. -/
  q_ : List (List ℚ)
  /-- The error `eval_`, of size `nrDof`. -/
  eval_ : VectorXd
  /-- The Jacobian `jacMat_`, as the list of its columns. -/
  jacMat_ : List VectorXd
  /-- The Jacobian derivative `jacDotMat_`, as the list of its columns. -/
  jacDotMat_ : List VectorXd
deriving DecidableEq

namespace PostureTask

/-- The assignment `v(pos) = x` of a coefficient of a dynamic vector; `none` outside the
range. -/
def setCoeff (v : VectorXd) (pos : Nat) (x : ℚ) : Option VectorXd :=
  if pos < v.length then some (v.set pos x) else none

/-- The assignment `v.segment(pos, 3) = err`; `none` when the segment leaves the range. -/
def setSegment3 (v : VectorXd) (pos : Nat) (err : Vector3d) : Option VectorXd :=
  if pos + 3 ≤ v.length then
    some (((v.set pos (err 0)).set (pos + 1) (err 1)).set (pos + 2) (err 2))
  else none

/-- The rotation matrix `Eigen::Quaterniond(w, x, y, z).matrix()`. -/
def quaternionMatrix (w x y z : ℚ) : Matrix3d :=
  !![1 - (2 * y * y + 2 * z * z), 2 * x * y - 2 * w * z, 2 * x * z + 2 * w * y;
     2 * x * y + 2 * w * z, 1 - (2 * x * x + 2 * z * z), 2 * y * z - 2 * w * x;
     2 * x * z - 2 * w * y, 2 * y * z + 2 * w * x, 1 - (2 * x * x + 2 * y * y)]

/-- The identity matrix of size `n`, as the list of its columns, with the first `k`
diagonal entries set to zero. -/
def identityFrom (n k : Nat) : List VectorXd :=
  List.ofFn fun j : Fin n => List.ofFn fun i : Fin n =>
    if i = j ∧ k ≤ (i : Nat) then (1 : ℚ) else 0

/-- The constructor `PostureTask::PostureTask(mb, q)`.  The loop that clears the first six
diagonal entries for a free-flyer root needs six rows. -/
def new (mb : rbd.MultiBody) (q : List (List ℚ)) : Option PostureTask := do
  let n := mb.nrDof
  if 0 < n then
    let j0 ← mb.joint 0
    if j0.type = rbd.JointType.Free then
      if 6 ≤ n then
        some ⟨q, List.replicate n 0, identityFrom n 6, List.replicate n (List.replicate n 0)⟩
      else none
    else
      some ⟨q, List.replicate n 0, identityFrom n 0, List.replicate n (List.replicate n 0)⟩
  else
    some ⟨q, List.replicate n 0, identityFrom n 0, List.replicate n (List.replicate n 0)⟩

/-- The setter `PostureTask::posture(q)`. -/
def posture (s : PostureTask) (q : List (List ℚ)) : PostureTask :=
  { s with q_ := q }

/-- The body of the loop of `PostureTask::update`, run for the joint indexes `is` in
order, from the position `pos` in the velocity vector; the result is the new `eval_`. -/
def updateLoop (S : sva.Lib) (mb : rbd.MultiBody) (mbc : rbd.MultiBodyConfig)
    (q_ : List (List ℚ)) : List Nat → Nat → VectorXd → Option VectorXd
  | [], _, eval => some eval
  | i :: is, pos, eval => do
    let joint ← mb.joint i
    -- if dof == 1 is a prismatic/revolute joint
    -- else if dof == 4 is a spherical one
    -- else is a fixed one
    if joint.dof = 1 then
      let qi ← q_[i]?
      let qi0 ← qi[0]?
      let ci ← mbc.q[i]?
      let ci0 ← ci[0]?
      let eval1 ← setCoeff eval pos (qi0 - ci0)
      updateLoop S mb mbc q_ is (pos + 1) eval1
    else if joint.dof = 4 then
      let qi ← q_[i]?
      let w ← qi[0]?
      let x ← qi[1]?
      let y ← qi[2]?
      let z ← qi[3]?
      let orid := quaternionMatrix w x y z
      let Xj ← mbc.jointConfig[i]?
      let err := S.rotationError Xj.rotation orid
      let eval1 ← setSegment3 eval pos err
      updateLoop S mb mbc q_ is (pos + 3) eval1
    else
      updateLoop S mb mbc q_ is pos eval

/-- The method `PostureTask::update(mb, mbc)`: the first joint is dropped. -/
def update (S : sva.Lib) (s : PostureTask) (mb : rbd.MultiBody)
    (mbc : rbd.MultiBodyConfig) : Option PostureTask := do
  let pos ← mb.jointPosInDof 1
  let eval ← updateLoop S mb mbc s.q_ (List.range' 1 (mb.nrJoints - 1)) pos s.eval_
  some { s with eval_ := eval }

/-- The accessor `PostureTask::eval()`. -/
def eval (s : PostureTask) : VectorXd :=
  s.eval_

/-- The accessor `PostureTask::jac()`. -/
def jac (s : PostureTask) : List VectorXd :=
  s.jacMat_

/-- The accessor `PostureTask::jacDot()`. -/
def jacDot (s : PostureTask) : List VectorXd :=
  s.jacDotMat_

/-- The coefficient `m(i, j)` of a dynamic matrix given as the list of its columns; `none`
outside the matrix. -/
def coeff (m : List VectorXd) (i j : Nat) : Option ℚ :=
  (m[j]?).bind fun col => col[i]?

/-- The states of a `PostureTask` of the robot `mb` that the constructor, `posture(q)` and
`update` reach. -/
inductive Reachable (S : sva.Lib) (mb : rbd.MultiBody) : PostureTask → Prop where
  | new (q : List (List ℚ)) (s : PostureTask) (h : PostureTask.new mb q = some s) :
      Reachable S mb s
  | posture (s : PostureTask) (q : List (List ℚ)) (h : Reachable S mb s) :
      Reachable S mb (s.posture q)
  | update (s s1 : PostureTask) (mbc : rbd.MultiBodyConfig) (h : Reachable S mb s)
      (hu : PostureTask.update S s mb mbc = some s1) : Reachable S mb s1

end PostureTask

/-- The state of `tasks::CoMTask`. -/
structure CoMTask where
  /-- The target `com_`. -/
  com_ : Vector3d
  /-- The centre-of-mass Jacobian object `jac_`. -/
  jac_ : rbd.CoMJacobian
  /-- The error `eval_`. -/
  eval_ : Vector3d
  /-- The velocity `speed_`. -/
  speed_ : Vector3d
  /-- The normal acceleration `normalAcc_`. -/
  normalAcc_ : Vector3d
  /-- The Jacobian `jacMat_`. -/
  jacMat_ : Matrix3Xd
  /-- The Jacobian derivative `jacDotMat_`. -/
  jacDotMat_ : Matrix3Xd
deriving DecidableEq

namespace CoMTask

/-- The matrix `m` after construction as `MatrixXd(3, n)`: `n` columns, whose contents
are whatever the storage held. -/
def sizedCols (m : Matrix3Xd) (n : Nat) : Matrix3Xd :=
  List.ofFn fun i : Fin n => m.getD i 0

/-- The constructor `CoMTask::CoMTask(mb, com)`.  The argument `mem` is the content of
the storage before the construction. -/
def new (mem : CoMTask) (mb : rbd.MultiBody) (com : Vector3d) : CoMTask :=
  { com_ := com
    jac_ := rbd.CoMJacobian.ofMultiBody mb
    eval_ := mem.eval_
    speed_ := mem.speed_
    normalAcc_ := mem.normalAcc_
    jacMat_ := sizedCols mem.jacMat_ mb.nrDof
    jacDotMat_ := sizedCols mem.jacDotMat_ mb.nrDof }

/-- The constructor `CoMTask::CoMTask(mb, com, weight)`. -/
def newWeighted (mem : CoMTask) (mb : rbd.MultiBody) (com : Vector3d) (weight : List ℚ) :
    CoMTask :=
  { com_ := com
    jac_ := rbd.CoMJacobian.new mb weight
    eval_ := mem.eval_
    speed_ := mem.speed_
    normalAcc_ := mem.normalAcc_
    jacMat_ := sizedCols mem.jacMat_ mb.nrDof
    jacDotMat_ := sizedCols mem.jacDotMat_ mb.nrDof }

/-- The setter `CoMTask::com(com)`. -/
def setCom (s : CoMTask) (com : Vector3d) : CoMTask :=
  { s with com_ := com }

/-- The getter `CoMTask::com()`. -/
def com (s : CoMTask) : Vector3d :=
  s.com_

/-- The method `CoMTask::updateInertialParameters(mb)`. -/
def updateInertialParameters (s : CoMTask) (mb : rbd.MultiBody) : CoMTask :=
  { s with jac_ := s.jac_.updateInertialParameters mb }

/-- The method `CoMTask::update(mb, mbc)`. -/
def update (R : rbd.Lib) (s : CoMTask) (mb : rbd.MultiBody) (mbc : rbd.MultiBodyConfig) :
    CoMTask :=
  { s with
    eval_ := s.com_ - R.computeCoM mb mbc
    speed_ := R.comVelocity s.jac_ mb mbc
    normalAcc_ := R.comNormalAcceleration s.jac_ mb mbc
    jacMat_ := R.comJacobian s.jac_ mb mbc }

/-- The method `CoMTask::update(mb, mbc, com, normalAccB)`. -/
def updateCom (R : rbd.Lib) (s : CoMTask) (mb : rbd.MultiBody) (mbc : rbd.MultiBodyConfig)
    (com : Vector3d) (normalAccB : List sva.MotionVecd) : CoMTask :=
  { s with
    eval_ := s.com_ - com
    speed_ := R.comVelocity s.jac_ mb mbc
    normalAcc_ := R.comNormalAccelerationB s.jac_ mb mbc normalAccB
    jacMat_ := R.comJacobian s.jac_ mb mbc }

/-- The accessor `CoMTask::eval()`. -/
def eval (s : CoMTask) : Vector3d :=
  s.eval_

end CoMTask

/-- The state of `tasks::MultiCoMTask`. -/
structure MultiCoMTask where
  /-- The target `com_`. -/
  com_ : Vector3d
  /-- The indexes `robotIndexes_` of the robots of the task. -/
  robotIndexes_ : List Int
  /-- The weights `robotsWeight_`, one per listed robot. -/
  robotsWeight_ : List ℚ
  /-- The centre-of-mass Jacobian objects `jac_`, one per listed robot. -/
  jac_ : List rbd.CoMJacobian
  /-- The error `eval_`. -/
  eval_ : Vector3d
  /-- The velocity `speed_`. -/
  speed_ : Vector3d
  /-- The normal acceleration `normalAcc_`. -/
  normalAcc_ : Vector3d
  /-- The Jacobians `jacMat_`, one per listed robot. -/
  jacMat_ : List Matrix3Xd
deriving DecidableEq

namespace MultiCoMTask

/-- The mass of a robot: `std::accumulate` of `b.inertia().mass()` over `mb.bodies()`,
from `0.`. -/
def robotMass (mb : rbd.MultiBody) : ℚ :=
  mb.bodies.foldl (fun ac b => ac + b.mass) 0

/-- The first loop of `computeRobotsWeight`, over the robot indexes `rs`: it pushes the
mass of each robot to `robotsWeight` and adds it to `totalMass`. -/
def massLoop (mbs : List rbd.MultiBody) : List Int → List ℚ → ℚ → Option (List ℚ × ℚ)
  | [], robotsWeight, totalMass => some (robotsWeight, totalMass)
  | r :: rs, robotsWeight, totalMass => do
    let mb ← stdAt mbs r
    let rm := robotMass mb
    massLoop mbs rs (robotsWeight ++ [rm]) (totalMass + rm)

/-- The method `MultiCoMTask::computeRobotsWeight(mbs)`. -/
def computeRobotsWeight (s : MultiCoMTask) (mbs : List rbd.MultiBody) :
    Option MultiCoMTask := do
  -- compute the total mass and the weight of each robot
  let (robotsWeight, totalMass) ← massLoop mbs s.robotIndexes_ [] 0
  -- divide all robotsWeight values by the total mass
  some { s with robotsWeight_ := robotsWeight.map fun w => w / totalMass }

/-- The matrix `m` after `m.resize(3, n)`: `n` columns, whose contents are whatever the
storage held. -/
def resizeCols (m : Matrix3Xd) (n : Nat) : Matrix3Xd :=
  List.ofFn fun i : Fin n => m.getD i 0

/-- The step `i` of the loop of the constructor: it creates `jac_[i]` and sizes
`jacMat_[i]`. -/
def newStep (mbs : List rbd.MultiBody) (s : MultiCoMTask) (i : Nat) : Option MultiCoMTask := do
  let r ← s.robotIndexes_[i]?
  let mb ← stdAt mbs r
  let w ← s.robotsWeight_[i]?
  let _ ← s.jac_[i]?
  let m ← s.jacMat_[i]?
  some { s with
    jac_ := s.jac_.set i (rbd.CoMJacobian.new mb (List.replicate mb.nrBodies w))
    jacMat_ := s.jacMat_.set i (resizeCols m mb.nrDof) }

/-- The constructor `MultiCoMTask::MultiCoMTask(mbs, robotIndexes, com)`.  The argument
`mem` is the content of the storage before the construction: it gives the members the
constructor sizes without initialising them. -/
def new (mem : MultiCoMTask) (mbs : List rbd.MultiBody) (robotIndexes : List Int)
    (com : Vector3d) : Option MultiCoMTask := do
  let s0 : MultiCoMTask :=
    { com_ := com
      robotIndexes_ := robotIndexes
      robotsWeight_ := []
      jac_ := List.replicate robotIndexes.length rbd.CoMJacobian.empty
      eval_ := mem.eval_
      speed_ := mem.speed_
      normalAcc_ := mem.normalAcc_
      jacMat_ := List.ofFn fun i : Fin robotIndexes.length => mem.jacMat_.getD i [] }
  let s1 ← computeRobotsWeight s0 mbs
  -- create CoMJacobian and jacobian matrix
  (List.range s1.robotIndexes_.length).foldlM (newStep mbs) s1

/-- The setter `MultiCoMTask::com(com)`. -/
def setCom (s : MultiCoMTask) (com : Vector3d) : MultiCoMTask :=
  { s with com_ := com }

/-- The getter `MultiCoMTask::com()`. -/
def com (s : MultiCoMTask) : Vector3d :=
  s.com_

/-- The getter `MultiCoMTask::robotIndexes()`. -/
def robotIndexes (s : MultiCoMTask) : List Int :=
  s.robotIndexes_

/-- The step `i` of the loop of `updateInertialParameters`: it sets the per-body weight
of `jac_[i]`. -/
def inertialStep (mbs : List rbd.MultiBody) (s : MultiCoMTask) (i : Nat) :
    Option MultiCoMTask := do
  let r ← s.robotIndexes_[i]?
  let mb ← stdAt mbs r
  let w ← s.robotsWeight_[i]?
  let jac ← s.jac_[i]?
  some { s with jac_ := s.jac_.set i (jac.setWeight mb (List.replicate mb.nrBodies w)) }

/-- The method `MultiCoMTask::updateInertialParameters(mbs)`. -/
def updateInertialParameters (s : MultiCoMTask) (mbs : List rbd.MultiBody) :
    Option MultiCoMTask := do
  let s1 ← computeRobotsWeight s mbs
  (List.range s1.robotIndexes_.length).foldlM (inertialStep mbs) s1

/-- The step `i` of the loop shared by the three `update` methods.  They differ in the
centre of mass they subtract (`comOf r`) and in the normal acceleration they add
(`accOf jac r mb mbc`). -/
def updateStep (R : rbd.Lib) (mbs : List rbd.MultiBody) (mbcs : List rbd.MultiBodyConfig)
    (comOf : Int → rbd.MultiBody → rbd.MultiBodyConfig → Option Vector3d)
    (accOf : rbd.CoMJacobian → Int → rbd.MultiBody → rbd.MultiBodyConfig → Option Vector3d)
    (s : MultiCoMTask) (i : Nat) : Option MultiCoMTask := do
  let r ← s.robotIndexes_[i]?
  let mb ← stdAt mbs r
  let mbc ← stdAt mbcs r
  let c ← comOf r mb mbc
  let w ← s.robotsWeight_[i]?
  let jac ← s.jac_[i]?
  let acc ← accOf jac r mb mbc
  let _ ← s.jacMat_[i]?
  some { s with
    eval_ := s.eval_ - w • c
    speed_ := s.speed_ + R.comVelocity jac mb mbc
    normalAcc_ := s.normalAcc_ + acc
    jacMat_ := s.jacMat_.set i (R.comJacobian jac mb mbc) }

/-- The body shared by the three `update` methods: `eval_ = com_`, `speed_` and
`normalAcc_` set to zero, then the loop over the listed robots. -/
def updateWith (R : rbd.Lib) (mbs : List rbd.MultiBody) (mbcs : List rbd.MultiBodyConfig)
    (comOf : Int → rbd.MultiBody → rbd.MultiBodyConfig → Option Vector3d)
    (accOf : rbd.CoMJacobian → Int → rbd.MultiBody → rbd.MultiBodyConfig → Option Vector3d)
    (s : MultiCoMTask) : Option MultiCoMTask :=
  (List.range s.robotIndexes_.length).foldlM (updateStep R mbs mbcs comOf accOf)
    { s with eval_ := s.com_, speed_ := 0, normalAcc_ := 0 }

/-- The method `MultiCoMTask::update(mbs, mbcs)`. -/
def update (R : rbd.Lib) (s : MultiCoMTask) (mbs : List rbd.MultiBody)
    (mbcs : List rbd.MultiBodyConfig) : Option MultiCoMTask :=
  updateWith R mbs mbcs (fun _ mb mbc => some (R.computeCoM mb mbc))
    (fun jac _ mb mbc => some (R.comNormalAcceleration jac mb mbc)) s

/-- The method `MultiCoMTask::update(mbs, mbcs, normalAccB)`. -/
def updateB (R : rbd.Lib) (s : MultiCoMTask) (mbs : List rbd.MultiBody)
    (mbcs : List rbd.MultiBodyConfig) (normalAccB : List (List sva.MotionVecd)) :
    Option MultiCoMTask :=
  updateWith R mbs mbcs (fun _ mb mbc => some (R.computeCoM mb mbc))
    (fun jac r mb mbc => do
      let nB ← stdAt normalAccB r
      some (R.comNormalAccelerationB jac mb mbc nB)) s

/-- The method `MultiCoMTask::update(mbs, mbcs, coms, normalAccB)`. -/
def updateComs (R : rbd.Lib) (s : MultiCoMTask) (mbs : List rbd.MultiBody)
    (mbcs : List rbd.MultiBodyConfig) (coms : List Vector3d)
    (normalAccB : List (List sva.MotionVecd)) : Option MultiCoMTask :=
  updateWith R mbs mbcs (fun r _ _ => stdAt coms r)
    (fun jac r mb mbc => do
      let nB ← stdAt normalAccB r
      some (R.comNormalAccelerationB jac mb mbc nB)) s

/-- The accessor `MultiCoMTask::eval()`. -/
def eval (s : MultiCoMTask) : Vector3d :=
  s.eval_

/-- The accessor `MultiCoMTask::jac(index)`. -/
def jac (s : MultiCoMTask) (index : Int) : Option Matrix3Xd :=
  stdAt s.jacMat_ index

/-- The state of a `MultiCoMTask` is built from the robots `mbs`: it is as the
constructor and `updateInertialParameters`, called with `mbs`, leave it.  There is one
Jacobian matrix per listed robot, and the centre-of-mass Jacobian object of each listed
robot is the one made from that robot, with the weight of the robot on each body. -/
def BuiltFrom (mbs : List rbd.MultiBody) (s : MultiCoMTask) : Prop :=
  s.jacMat_.length = s.robotIndexes_.length ∧
  ∀ (i : Nat) (r : Int) (mb : rbd.MultiBody) (w : ℚ), s.robotIndexes_[i]? = some r →
    stdAt mbs r = some mb → s.robotsWeight_[i]? = some w →
    s.jac_[i]? = some (rbd.CoMJacobian.new mb (List.replicate mb.nrBodies w))

/-- The mass of a robot as in `robotMass`, in rounded arithmetic: the result of every
addition goes through `fl`. -/
def robotMassRounded (fl : ℚ → ℚ) (mb : rbd.MultiBody) : ℚ :=
  mb.bodies.foldl (fun ac b => fl (ac + b.mass)) 0

/-- The first loop of `computeRobotsWeight` as in `massLoop`, in rounded arithmetic. -/
def massLoopRounded (fl : ℚ → ℚ) (mbs : List rbd.MultiBody) :
    List Int → List ℚ → ℚ → Option (List ℚ × ℚ)
  | [], robotsWeight, totalMass => some (robotsWeight, totalMass)
  | r :: rs, robotsWeight, totalMass => do
    let mb ← stdAt mbs r
    let rm := robotMassRounded fl mb
    massLoopRounded fl mbs rs (robotsWeight ++ [rm]) (fl (totalMass + rm))

/-- The method `MultiCoMTask::computeRobotsWeight(mbs)` in rounded arithmetic: the
quotient `w/totalMass` goes through `fl`. -/
def computeRobotsWeightRounded (fl : ℚ → ℚ) (s : MultiCoMTask) (mbs : List rbd.MultiBody) :
    Option MultiCoMTask := do
  -- compute the total mass and the weight of each robot
  let (robotsWeight, totalMass) ← massLoopRounded fl mbs s.robotIndexes_ [] 0
  -- divide all robotsWeight values by the total mass
  some { s with robotsWeight_ := robotsWeight.map fun w => fl (w / totalMass) }

/-- The constructor `MultiCoMTask::MultiCoMTask(mbs, robotIndexes, com)` in rounded
arithmetic. -/
def newRounded (fl : ℚ → ℚ) (mem : MultiCoMTask) (mbs : List rbd.MultiBody)
    (robotIndexes : List Int) (com : Vector3d) : Option MultiCoMTask := do
  let s0 : MultiCoMTask :=
    { com_ := com
      robotIndexes_ := robotIndexes
      robotsWeight_ := []
      jac_ := List.replicate robotIndexes.length rbd.CoMJacobian.empty
      eval_ := mem.eval_
      speed_ := mem.speed_
      normalAcc_ := mem.normalAcc_
      jacMat_ := List.ofFn fun i : Fin robotIndexes.length => mem.jacMat_.getD i [] }
  let s1 ← computeRobotsWeightRounded fl s0 mbs
  -- create CoMJacobian and jacobian matrix
  (List.range s1.robotIndexes_.length).foldlM (newStep mbs) s1

/-- The step `i` of the loop of the `update` methods as in `updateStep`, in rounded
arithmetic: in `eval_ -= c*robotsWeight_[i]` each coefficient of the product and of the
difference goes through `fl`, and so does each coefficient of the sums added to `speed_`
and `normalAcc_`. -/
def updateStepRounded (fl : ℚ → ℚ) (R : rbd.Lib) (mbs : List rbd.MultiBody)
    (mbcs : List rbd.MultiBodyConfig)
    (comOf : Int → rbd.MultiBody → rbd.MultiBodyConfig → Option Vector3d)
    (accOf : rbd.CoMJacobian → Int → rbd.MultiBody → rbd.MultiBodyConfig → Option Vector3d)
    (s : MultiCoMTask) (i : Nat) : Option MultiCoMTask := do
  let r ← s.robotIndexes_[i]?
  let mb ← stdAt mbs r
  let mbc ← stdAt mbcs r
  let c ← comOf r mb mbc
  let w ← s.robotsWeight_[i]?
  let jac ← s.jac_[i]?
  let acc ← accOf jac r mb mbc
  let _ ← s.jacMat_[i]?
  some { s with
    eval_ := fun k => fl (s.eval_ k - fl (c k * w))
    speed_ := fun k => fl (s.speed_ k + R.comVelocity jac mb mbc k)
    normalAcc_ := fun k => fl (s.normalAcc_ k + acc k)
    jacMat_ := s.jacMat_.set i (R.comJacobian jac mb mbc) }

/-- The body shared by the `update` methods as in `updateWith`, in rounded arithmetic. -/
def updateWithRounded (fl : ℚ → ℚ) (R : rbd.Lib) (mbs : List rbd.MultiBody)
    (mbcs : List rbd.MultiBodyConfig)
    (comOf : Int → rbd.MultiBody → rbd.MultiBodyConfig → Option Vector3d)
    (accOf : rbd.CoMJacobian → Int → rbd.MultiBody → rbd.MultiBodyConfig → Option Vector3d)
    (s : MultiCoMTask) : Option MultiCoMTask :=
  (List.range s.robotIndexes_.length).foldlM (updateStepRounded fl R mbs mbcs comOf accOf)
    { s with eval_ := s.com_, speed_ := 0, normalAcc_ := 0 }

/-- The method `MultiCoMTask::update(mbs, mbcs, coms, normalAccB)` in rounded
arithmetic. -/
def updateComsRounded (fl : ℚ → ℚ) (R : rbd.Lib) (s : MultiCoMTask)
    (mbs : List rbd.MultiBody) (mbcs : List rbd.MultiBodyConfig) (coms : List Vector3d)
    (normalAccB : List (List sva.MotionVecd)) : Option MultiCoMTask :=
  updateWithRounded fl R mbs mbcs (fun r _ _ => stdAt coms r)
    (fun jac r mb mbc => do
      let nB ← stdAt normalAccB r
      some (R.comNormalAccelerationB jac mb mbc nB)) s

end MultiCoMTask

/-- The state of `tasks::GazeTask`. -/
structure GazeTask where
  /-- The current image point `point2d_`. -/
  point2d_ : Vector2d
  /-- The reference image point `point2d_ref_`. -/
  point2d_ref_ : Vector2d
  /-- The depth estimate `depthEstimate_`. -/
  depthEstimate_ : ℚ
  /-- The index `bodyIndex_` of the body that carries the camera. -/
  bodyIndex_ : Int
  /-- The Jacobian object `jac_`. -/
  jac_ : rbd.Jacobian
  /-- The transform `X_b_gaze_` from the body to the camera. -/
  X_b_gaze_ : sva.PTransformd
  /-- The interaction matrix `L_img_`. -/
  L_img_ : Matrix (Fin 2) (Fin 6) ℚ
  /-- The error `eval_`. -/
  eval_ : Vector2d
  /-- The velocity `speed_`. -/
  speed_ : Vector2d
  /-- The normal acceleration `normalAcc_`. -/
  normalAcc_ : Vector2d
  /-- The Jacobian `jacMat_` in the full layout. -/
  jacMat_ : Matrix2Xd
  /-- The Jacobian derivative `jacDotMat_` in the full layout. -/
  jacDotMat_ : Matrix2Xd
deriving DecidableEq

namespace GazeTask

/-- The matrix `m` after construction as `MatrixXd(2, n)`: `n` columns, whose contents
are whatever the storage held. -/
def sizedCols (m : Matrix2Xd) (n : Nat) : Matrix2Xd :=
  List.ofFn fun i : Fin n => m.getD i 0

/-- The constructor `GazeTask::GazeTask(mb, bodyId, point2d, depthEstimate, X_b_gaze,
point2d_ref)`.  The argument `mem` is the content of the storage before the construction:
it gives the members the constructor leaves uninitialised. -/
def new (R : rbd.Lib) (mem : GazeTask) (mb : rbd.MultiBody) (bodyId : Int)
    (point2d : Vector2d) (depthEstimate : ℚ) (X_b_gaze : sva.PTransformd)
    (point2d_ref : Vector2d) : Option GazeTask := do
  let bodyIndex ← mb.bodyIndexById bodyId
  some { mem with
    point2d_ := point2d
    point2d_ref_ := point2d_ref
    depthEstimate_ := depthEstimate
    bodyIndex_ := bodyIndex
    jac_ := R.newJacobian mb bodyId 0
    X_b_gaze_ := X_b_gaze
    jacMat_ := sizedCols mem.jacMat_ mb.nrDof
    jacDotMat_ := sizedCols mem.jacDotMat_ mb.nrDof }

/-- The constructor `GazeTask::GazeTask(mb, bodyId, point3d, X_b_gaze, point2d_ref)`. -/
def new3d (R : rbd.Lib) (mem : GazeTask) (mb : rbd.MultiBody) (bodyId : Int)
    (point3d : Vector3d) (X_b_gaze : sva.PTransformd) (point2d_ref : Vector2d) :
    Option GazeTask := do
  let bodyIndex ← mb.bodyIndexById bodyId
  some { mem with
    point2d_ref_ := point2d_ref
    bodyIndex_ := bodyIndex
    jac_ := R.newJacobian mb bodyId 0
    X_b_gaze_ := X_b_gaze
    jacMat_ := sizedCols mem.jacMat_ mb.nrDof
    jacDotMat_ := sizedCols mem.jacDotMat_ mb.nrDof
    point2d_ := ![point3d 0 / point3d 2, point3d 1 / point3d 2]
    depthEstimate_ := point3d 2 }

/-- The setter `GazeTask::error(point2d, point2d_ref)`. -/
def error (s : GazeTask) (point2d : Vector2d) (point2d_ref : Vector2d) : GazeTask :=
  { s with point2d_ := point2d, point2d_ref_ := point2d_ref }

/-- The setter `GazeTask::error(point3d, point2d_ref)`. -/
def error3d (s : GazeTask) (point3d : Vector3d) (point2d_ref : Vector2d) : GazeTask :=
  { s with
    point2d_ := ![point3d 0 / point3d 2, point3d 1 / point3d 2]
    depthEstimate_ := point3d 2
    point2d_ref_ := point2d_ref }

/-- The method `GazeTask::update(mb, mbc, normalAccB)`. -/
def update (R : rbd.Lib) (s : GazeTask) (mb : rbd.MultiBody) (mbc : rbd.MultiBodyConfig)
    (normalAccB : List sva.MotionVecd) : Option GazeTask := do
  let eval := s.point2d_ref_ - s.point2d_
  let X_0_b ← stdAt mbc.bodyPosW s.bodyIndex_
  let X_0_gaze := s.X_b_gaze_ * X_0_b
  let L_img := R.interactionMatrix s.point2d_ s.depthEstimate_
  let speed := L_img.mulVec (R.velocityAt s.jac_ mb mbc s.X_b_gaze_).vector
  let normalAcc := L_img.mulVec
    (R.normalAccelerationBAt s.jac_ mb mbc normalAccB s.X_b_gaze_
      (sva.MotionVecd.ofVector 0)).vector
  let shortJacMat : Matrix2Xd :=
    ((R.jacobianAt s.jac_ mb mbc X_0_gaze).take s.jac_.dof).map L_img.mulVec
  some { s with
    eval_ := eval
    L_img_ := L_img
    speed_ := speed
    normalAcc_ := normalAcc
    jacMat_ := R.fullJacobian 2 s.jac_ mb shortJacMat s.jacMat_ }

/-- The accessor `GazeTask::eval()`. -/
def eval (s : GazeTask) : Vector2d :=
  s.eval_

end GazeTask

/-- The state of `tasks::MultiRobotTransformTask`. -/
structure MultiRobotTransformTask where
  /-- The index `r1Index_` of the first robot. -/
  r1Index_ : Int
  /-- The index `r2Index_` of the second robot. -/
  r2Index_ : Int
  /-- The index `r1BodyIndex_` of the body of the first robot. -/
  r1BodyIndex_ : Int
  /-- The index `r2BodyIndex_` of the body of the second robot. -/
  r2BodyIndex_ : Int
  /-- The surface frame `X_r1b_r1s_` on the body of the first robot. -/
  X_r1b_r1s_ : sva.PTransformd
  /-- The surface frame `X_r2b_r2s_` on the body of the second robot. -/
  X_r2b_r2s_ : sva.PTransformd
  /-- The Jacobian object `jacR1B_` of the body of the first robot. -/
  jacR1B_ : rbd.Jacobian
  /-- The Jacobian object `jacR2B_` of the body of the second robot. -/
  jacR2B_ : rbd.Jacobian
  /-- The error `eval_`. -/
  eval_ : Vector6d
  /-- The velocity `speed_`. -/
  speed_ : Vector6d
  /-- The normal acceleration `normalAcc_`. -/
  normalAcc_ : Vector6d
  /-- The short Jacobian `jacMat1_` of the first robot. -/
  jacMat1_ : Matrix6Xd
  /-- The short Jacobian `jacMat2_` of the second robot. -/
  jacMat2_ : Matrix6Xd
  /-- The Jacobians `fullJacMat_` in the full layout of each robot. -/
  fullJacMat_ : List Matrix6Xd
deriving DecidableEq

namespace MultiRobotTransformTask

/-- The constructor `MultiRobotTransformTask::MultiRobotTransformTask(mbs, r1Index,
r2Index, r1BodyId, r2BodyId, X_r1b_r1s, X_r2b_r2s)`.  The argument `mem` is the content
of the storage before the construction. -/
def new (R : rbd.Lib) (mem : MultiRobotTransformTask) (mbs : List rbd.MultiBody)
    (r1Index r2Index r1BodyId r2BodyId : Int) (X_r1b_r1s X_r2b_r2s : sva.PTransformd) :
    Option MultiRobotTransformTask := do
  let mb1 ← stdAt mbs r1Index
  let mb2 ← stdAt mbs r2Index
  let r1BodyIndex ← mb1.bodyIndexById r1BodyId
  let r2BodyIndex ← mb2.bodyIndexById r2BodyId
  let jacR1B := R.newJacobian mb1 r1BodyId 0
  let jacR2B := R.newJacobian mb2 r2BodyId 0
  some
    { r1Index_ := r1Index
      r2Index_ := r2Index
      r1BodyIndex_ := r1BodyIndex
      r2BodyIndex_ := r2BodyIndex
      X_r1b_r1s_ := X_r1b_r1s
      X_r2b_r2s_ := X_r2b_r2s
      jacR1B_ := jacR1B
      jacR2B_ := jacR2B
      eval_ := mem.eval_
      speed_ := mem.speed_
      normalAcc_ := mem.normalAcc_
      jacMat1_ := List.ofFn fun i : Fin jacR1B.dof => mem.jacMat1_.getD i 0
      jacMat2_ := List.ofFn fun i : Fin jacR2B.dof => mem.jacMat2_.getD i 0
      fullJacMat_ := [List.replicate mb1.nrDof 0, List.replicate mb2.nrDof 0] }

/-- The column `c` of the short Jacobian of the first robot after the statement
`col.head<6>() -= err_r1s.cross(MotionVecd(col.head<3>(), Vector3d::Zero())).vector()`. -/
def correctCol (err_r1s : sva.MotionVecd) (c : Vector6d) : Vector6d :=
  c - (err_r1s.cross ⟨![c 0, c 1, c 2], 0⟩).vector

/-- The loop `for(int i = 0; i < dof; ++i)` over the columns of `jacMat1_`, run for the
column indexes `is` in order; `none` when a column is outside the matrix. -/
def correctLoop (err_r1s : sva.MotionVecd) : List Nat → Matrix6Xd → Option Matrix6Xd
  | [], jacMat1 => some jacMat1
  | i :: is, jacMat1 => do
    let c ← jacMat1[i]?
    correctLoop err_r1s is (jacMat1.set i (correctCol err_r1s c))

/-- The method `MultiRobotTransformTask::update(mbs, mbcs, normalAccB)`. -/
def update (S : sva.Lib) (R : rbd.Lib) (s : MultiRobotTransformTask)
    (mbs : List rbd.MultiBody) (mbcs : List rbd.MultiBodyConfig)
    (normalAccB : List (List sva.MotionVecd)) : Option MultiRobotTransformTask := do
  let mb1 ← stdAt mbs s.r1Index_
  let mb2 ← stdAt mbs s.r2Index_
  let mbc1 ← stdAt mbcs s.r1Index_
  let mbc2 ← stdAt mbcs s.r2Index_
  let X_0_r1b ← stdAt mbc1.bodyPosW s.r1BodyIndex_
  let X_0_r2b ← stdAt mbc2.bodyPosW s.r2BodyIndex_
  let normalAccBR1 ← stdAt normalAccB s.r1Index_
  let normalAccBR2 ← stdAt normalAccB s.r2Index_

  let X_0_r1s := s.X_r1b_r1s_ * X_0_r1b
  let X_0_r2s := s.X_r2b_r2s_ * X_0_r2b
  let X_r1s_r2s := X_0_r2s * X_0_r1s.inv

  let E_r2s_r1s := sva.PTransformd.ofRotation X_r1s_r2s.rotation.transpose
  let X_r2b_r2s_r1s := E_r2s_r1s * s.X_r2b_r2s_

  let err_r1s := S.transformVelocity X_r1s_r2s

  let V_r1s_r1s := R.velocityAt s.jacR1B_ mb1 mbc1 s.X_r1b_r1s_
  let V_r2s_r1s := R.velocityAt s.jacR2B_ mb2 mbc2 X_r2b_r2s_r1s

  let V_err_s := V_r2s_r1s - V_r1s_r1s
  let w_r1s : sva.MotionVecd := ⟨V_r1s_r1s.angular, 0⟩

  let V_err_r1s := err_r1s.cross w_r1s + V_err_s

  let AN_r1s_r1s := R.normalAccelerationBAt s.jacR1B_ mb1 mbc1 normalAccBR1 s.X_r1b_r1s_
    (sva.MotionVecd.ofVector 0)
  let wAN_r1s_r1s : sva.MotionVecd := ⟨AN_r1s_r1s.angular, 0⟩
  let AN_r2s_r1s := R.normalAccelerationBAt s.jacR2B_ mb2 mbc2 normalAccBR2 X_r2b_r2s_r1s
    ⟨V_err_s.angular, 0⟩
  let AN_err_s := AN_r2s_r1s - AN_r1s_r1s

  let AN_err_r1s := V_err_r1s.cross w_r1s + err_r1s.cross wAN_r1s_r1s + AN_err_s

  let eval := err_r1s.vector
  let speed := -V_err_r1s.vector
  let normalAcc := -AN_err_r1s.vector

  let jacMat1 ← correctLoop err_r1s (List.range s.jacR1B_.dof)
    (R.jacobianAt s.jacR1B_ mb1 mbc1 X_0_r1s)
  let jacMat2 : Matrix6Xd := (R.jacobianAt s.jacR2B_ mb2 mbc2 (E_r2s_r1s * X_0_r2s)).map
    fun c => -c

  let full0 ← s.fullJacMat_[0]?
  let full1 ← s.fullJacMat_[1]?
  some { s with
    eval_ := eval
    speed_ := speed
    normalAcc_ := normalAcc
    jacMat1_ := jacMat1
    jacMat2_ := jacMat2
    fullJacMat_ := (s.fullJacMat_.set 0 (R.fullJacobian 6 s.jacR1B_ mb1 jacMat1 full0)).set 1
      (R.fullJacobian 6 s.jacR2B_ mb2 jacMat2 full1) }

/-- The accessor `MultiRobotTransformTask::jac(index)`. -/
def jac (s : MultiRobotTransformTask) (index : Int) : Option Matrix6Xd :=
  stdAt s.fullJacMat_ index

end MultiRobotTransformTask

/-- The state of `tasks::LinVelocityTask`. -/
structure LinVelocityTask where
  /-- The target velocity `vel_`. -/
  vel_ : Vector3d
  /-- The body point `point_`, kept as a transform. -/
  point_ : sva.PTransformd
  /-- The index `bodyIndex_` of the controlled body. -/
  bodyIndex_ : Int
  /-- The Jacobian object `jac_`. -/
  jac_ : rbd.Jacobian
  /-- The error `eval_`. -/
  eval_ : Vector3d
  /-- The velocity `speed_`. -/
  speed_ : Vector3d
  /-- The normal acceleration `normalAcc_`. -/
  normalAcc_ : Vector3d
  /-- The Jacobian `jacMat_` in the full layout. -/
  jacMat_ : Matrix3Xd
  /-- The Jacobian derivative `jacDotMat_` in the full layout. -/
  jacDotMat_ : Matrix3Xd
deriving DecidableEq

namespace LinVelocityTask

/-- The matrix `m` after construction as `MatrixXd(3, n)`: `n` columns, whose contents
are whatever the storage held. -/
def sizedCols (m : Matrix3Xd) (n : Nat) : Matrix3Xd :=
  List.ofFn fun i : Fin n => m.getD i 0

/-- The constructor `LinVelocityTask::LinVelocityTask(mb, bodyId, v, bodyPoint)`.  The
argument `mem` is the content of the storage before the construction: it gives the
members the constructor sizes without initialising them. -/
def new (R : rbd.Lib) (mem : LinVelocityTask) (mb : rbd.MultiBody) (bodyId : Int)
    (v bodyPoint : Vector3d) : Option LinVelocityTask := do
  let bodyIndex ← mb.bodyIndexById bodyId
  some
    { vel_ := v
      point_ := sva.PTransformd.ofTranslation bodyPoint
      bodyIndex_ := bodyIndex
      jac_ := R.newJacobian mb bodyId bodyPoint
      eval_ := mem.eval_
      -- this task don't have any derivative
      speed_ := 0
      normalAcc_ := mem.normalAcc_
      jacMat_ := sizedCols mem.jacMat_ mb.nrDof
      jacDotMat_ := sizedCols mem.jacDotMat_ mb.nrDof }

/-- The setter `LinVelocityTask::velocity(v)`. -/
def setVelocity (s : LinVelocityTask) (v : Vector3d) : LinVelocityTask :=
  { s with vel_ := v }

/-- The getter `LinVelocityTask::velocity()`. -/
def velocity (s : LinVelocityTask) : Vector3d :=
  s.vel_

/-- The setter `LinVelocityTask::bodyPoint(point)`: its body is `jac_.point(point)`. -/
def setBodyPoint (s : LinVelocityTask) (point : Vector3d) : LinVelocityTask :=
  { s with jac_ := s.jac_.setPoint point }

/-- The getter `LinVelocityTask::bodyPoint()`: it returns `jac_.point()`. -/
def bodyPoint (s : LinVelocityTask) : Vector3d :=
  s.jac_.point

/-- The method `LinVelocityTask::update(mb, mbc)`. -/
def update (R : rbd.Lib) (s : LinVelocityTask) (mb : rbd.MultiBody)
    (mbc : rbd.MultiBodyConfig) : LinVelocityTask :=
  let shortJacMat := MatrixNXd.bottomRows (R.jacobian s.jac_ mb mbc) s.jac_.dof
  { s with
    eval_ := s.vel_ - (R.velocity s.jac_ mb mbc).linear
    normalAcc_ := (R.normalAcceleration s.jac_ mb mbc).linear
    jacMat_ := R.fullJacobian 3 s.jac_ mb shortJacMat s.jacMat_ }

/-- The method `LinVelocityTask::update(mb, mbc, normalAccB)`. -/
def updateB (R : rbd.Lib) (s : LinVelocityTask) (mb : rbd.MultiBody)
    (mbc : rbd.MultiBodyConfig) (normalAccB : List sva.MotionVecd) : LinVelocityTask :=
  let shortJacMat := MatrixNXd.bottomRows (R.jacobian s.jac_ mb mbc) s.jac_.dof
  { s with
    eval_ := s.vel_ - (R.velocity s.jac_ mb mbc).linear
    normalAcc_ := (R.normalAccelerationB s.jac_ mb mbc normalAccB).linear
    jacMat_ := R.fullJacobian 3 s.jac_ mb shortJacMat s.jacMat_ }

/-- The method `LinVelocityTask::updateDot(mb, mbc)`. -/
def updateDot (R : rbd.Lib) (s : LinVelocityTask) (mb : rbd.MultiBody)
    (mbc : rbd.MultiBodyConfig) : LinVelocityTask :=
  let shortJacMat := MatrixNXd.bottomRows (R.jacobianDot s.jac_ mb mbc) s.jac_.dof
  { s with jacDotMat_ := R.fullJacobian 3 s.jac_ mb shortJacMat s.jacDotMat_ }

/-- The accessor `LinVelocityTask::eval()`. -/
def eval (s : LinVelocityTask) : Vector3d :=
  s.eval_

/-- The accessor `LinVelocityTask::speed()`. -/
def speed (s : LinVelocityTask) : Vector3d :=
  s.speed_

/-- The accessor `LinVelocityTask::normalAcc()`. -/
def normalAcc (s : LinVelocityTask) : Vector3d :=
  s.normalAcc_

/-- The states of a `LinVelocityTask` that the constructor, `velocity(v)`,
`bodyPoint(p)`, both overloads of `update` and `updateDot` reach. -/
inductive Reachable (R : rbd.Lib) : LinVelocityTask → Prop where
  | new (mem : LinVelocityTask) (mb : rbd.MultiBody) (bodyId : Int) (v bodyPoint : Vector3d)
      (s : LinVelocityTask) (h : LinVelocityTask.new R mem mb bodyId v bodyPoint = some s) :
      Reachable R s
  | velocity (s : LinVelocityTask) (v : Vector3d) (h : Reachable R s) :
      Reachable R (s.setVelocity v)
  | bodyPoint (s : LinVelocityTask) (p : Vector3d) (h : Reachable R s) :
      Reachable R (s.setBodyPoint p)
  | update (s : LinVelocityTask) (mb : rbd.MultiBody) (mbc : rbd.MultiBodyConfig)
      (h : Reachable R s) : Reachable R (s.update R mb mbc)
  | updateB (s : LinVelocityTask) (mb : rbd.MultiBody) (mbc : rbd.MultiBodyConfig)
      (normalAccB : List sva.MotionVecd) (h : Reachable R s) :
      Reachable R (s.updateB R mb mbc normalAccB)
  | updateDot (s : LinVelocityTask) (mb : rbd.MultiBody) (mbc : rbd.MultiBodyConfig)
      (h : Reachable R s) : Reachable R (s.updateDot R mb mbc)

end LinVelocityTask

/-- The state of `tasks::OrientationTrackingTask`. -/
structure OrientationTrackingTask where
  /-- The index `bodyIndex_` of the controlled body. -/
  bodyIndex_ : Int
  /-- The body point `bodyPoint_`, kept as a transform. -/
  bodyPoint_ : sva.PTransformd
  /-- The body axis `bodyAxis_`. -/
  bodyAxis_ : Vector3d
  /-- The columns `zeroJacIndex_` of the short Jacobian that are set to zero. -/
  zeroJacIndex_ : List Int
  /-- The tracked point `trackedPoint_`. -/
  trackedPoint_ : Vector3d
  /-- The Jacobian object `jac_`. -/
  jac_ : rbd.Jacobian
  /-- The error `eval_`. -/
  eval_ : Vector3d
  /-- The short Jacobian `shortJacMat_`: three rows, one column per degree of freedom of
  the path. -/
  shortJacMat_ : Matrix3Xd
  /-- The Jacobian `jacMat_` in the full layout. -/
  jacMat_ : Matrix3Xd
  /-- The Jacobian derivative `jacDotMat_` in the full layout. -/
  jacDotMat_ : Matrix3Xd
deriving DecidableEq

namespace OrientationTrackingTask

/-- The matrix `m` after construction as `MatrixXd(3, n)`: `n` columns, whose contents
are whatever the storage held. -/
def sizedCols (m : Matrix3Xd) (n : Nat) : Matrix3Xd :=
  List.ofFn fun i : Fin n => m.getD i 0

/-- The first loop of the constructor: the index `mb.jointIndexById(id)` of every tracking
joint is inserted in the set `trackingJointsIndex`, of which only membership is read. -/
def trackingLoop (mb : rbd.MultiBody) : List Int → List Int → Option (List Int)
  | [], trackingJointsIndex => some trackingJointsIndex
  | id :: ids, trackingJointsIndex => do
    let i ← mb.jointIndexById id
    trackingLoop mb ids (if i ∈ trackingJointsIndex then trackingJointsIndex
      else trackingJointsIndex ++ [i])

/-- The second loop of the constructor, over the joints `is` of `jac_.jointsPath()` in
order, from the column `jacPos`: the columns of a joint that is not a tracking joint are
pushed to `zeroJacIndex`. -/
def zeroLoop (mb : rbd.MultiBody) (trackingJointsIndex : List Int) :
    List Int → Int → List Int → Option (List Int)
  | [], _, zeroJacIndex => some zeroJacIndex
  | i :: is, jacPos, zeroJacIndex => do
    let curJoint ← mb.joint i
    let zeroJacIndex1 :=
      if i ∈ trackingJointsIndex then zeroJacIndex
      else zeroJacIndex ++ List.map (fun j : Nat => jacPos + (j : Int))
        (List.range curJoint.dof)
    zeroLoop mb trackingJointsIndex is (jacPos + curJoint.dof) zeroJacIndex1

/-- The constructor `OrientationTrackingTask::OrientationTrackingTask(mb, bodyId,
bodyPoint, bodyAxis, trackingJointsId, trackedPoint)`.  The argument `mem` is the content
of the storage before the construction: it gives the members the constructor sizes
without initialising them. -/
def new (R : rbd.Lib) (mem : OrientationTrackingTask) (mb : rbd.MultiBody) (bodyId : Int)
    (bodyPoint bodyAxis : Vector3d) (trackingJointsId : List Int)
    (trackedPoint : Vector3d) : Option OrientationTrackingTask := do
  let bodyIndex ← mb.bodyIndexById bodyId
  let jac := R.newJacobian mb bodyId 0
  let trackingJointsIndex ← trackingLoop mb trackingJointsId []
  let zeroJacIndex ← zeroLoop mb trackingJointsIndex jac.jointsPath 0 []
  some
    { bodyIndex_ := bodyIndex
      bodyPoint_ := sva.PTransformd.ofTranslation bodyPoint
      bodyAxis_ := bodyAxis
      zeroJacIndex_ := zeroJacIndex
      trackedPoint_ := trackedPoint
      jac_ := jac
      eval_ := mem.eval_
      shortJacMat_ := sizedCols mem.shortJacMat_ jac.dof
      jacMat_ := sizedCols mem.jacMat_ mb.nrDof
      jacDotMat_ := sizedCols mem.jacDotMat_ mb.nrDof }

/-- The setter `OrientationTrackingTask::trackedPoint(tp)`. -/
def setTrackedPoint (s : OrientationTrackingTask) (tp : Vector3d) : OrientationTrackingTask :=
  { s with trackedPoint_ := tp }

/-- The getter `OrientationTrackingTask::trackedPoint()`. -/
def trackedPoint (s : OrientationTrackingTask) : Vector3d :=
  s.trackedPoint_

/-- The setter `OrientationTrackingTask::bodyPoint(bp)`. -/
def setBodyPoint (s : OrientationTrackingTask) (bp : Vector3d) : OrientationTrackingTask :=
  { s with bodyPoint_ := sva.PTransformd.ofTranslation bp }

/-- The getter `OrientationTrackingTask::bodyPoint()`. -/
def bodyPoint (s : OrientationTrackingTask) : Vector3d :=
  s.bodyPoint_.translation

/-- The setter `OrientationTrackingTask::bodyAxis(ba)`. -/
def setBodyAxis (s : OrientationTrackingTask) (ba : Vector3d) : OrientationTrackingTask :=
  { s with bodyAxis_ := ba }

/-- The getter `OrientationTrackingTask::bodyAxis()`. -/
def bodyAxis (s : OrientationTrackingTask) : Vector3d :=
  s.bodyAxis_

/-- The statement `jac.col(i).setZero()` for an `int` index; `none` when the matrix has no
column `i`. -/
def setColZero {r : Nat} (jac : MatrixNXd r) (i : Int) : Option (MatrixNXd r) :=
  if 0 ≤ i ∧ i.toNat < jac.length then some (jac.set i.toNat 0) else none

/-- The method `OrientationTrackingTask::zeroJacobian(jac)`: the result is the new value
of `jac`. -/
def zeroJacobian {r : Nat} (s : OrientationTrackingTask) (jac : MatrixNXd r) :
    Option (MatrixNXd r) :=
  s.zeroJacIndex_.foldlM setColZero jac

/-- The method `OrientationTrackingTask::update(mb, mbc)`. -/
def update (S : sva.Lib) (E : Eigen.Lib) (R : rbd.Lib) (s : OrientationTrackingTask)
    (mb : rbd.MultiBody) (mbc : rbd.MultiBodyConfig) : Option OrientationTrackingTask := do
  let bodyTf ← stdAt mbc.bodyPosW s.bodyIndex_
  let desDir := E.normalized (s.trackedPoint_ - (s.bodyPoint_ * bodyTf).translation)
  let curDir := E.normalized (bodyTf.rotation.transpose.mulVec s.bodyAxis_)
  let targetOri := E.fromTwoVectorsInverse curDir desDir
  let eval := S.rotationError bodyTf.rotation (targetOri * bodyTf.rotation)
  let shortJacMat ← s.zeroJacobian
    (MatrixNXd.topRows (R.jacobian s.jac_ mb mbc) s.shortJacMat_.length)
  some { s with
    eval_ := eval
    shortJacMat_ := shortJacMat
    jacMat_ := R.fullJacobian 3 s.jac_ mb shortJacMat s.jacMat_ }

/-- The method `OrientationTrackingTask::updateDot(mb, mbc)`. -/
def updateDot (R : rbd.Lib) (s : OrientationTrackingTask) (mb : rbd.MultiBody)
    (mbc : rbd.MultiBodyConfig) : Option OrientationTrackingTask := do
  let shortJacMat ← s.zeroJacobian
    (MatrixNXd.topRows (R.jacobianDot s.jac_ mb mbc) s.shortJacMat_.length)
  some { s with
    shortJacMat_ := shortJacMat
    jacDotMat_ := R.fullJacobian 3 s.jac_ mb shortJacMat s.jacDotMat_ }

/-- The accessor `OrientationTrackingTask::jac()`. -/
def jac (s : OrientationTrackingTask) : Matrix3Xd :=
  s.jacMat_

/-- The accessor `OrientationTrackingTask::jacDot()`. -/
def jacDot (s : OrientationTrackingTask) : Matrix3Xd :=
  s.jacDotMat_

/-- The accessor `OrientationTrackingTask::eval()`. -/
def eval (s : OrientationTrackingTask) : Vector3d :=
  s.eval_

end OrientationTrackingTask

end tasks

/-! ## QPTasks.h -/

namespace tasks.qp

/-- The conditions a call can raise instead of returning.  The methods defined in
`QPTasks.h` contain no `throw`: they return on every argument. -/
inductive Condition where
  | InvalidArgument
deriving DecidableEq, Repr

/-- The values a `HighLevelTask` reports through its virtual accessors. -/
structure HighLevelTask where
  /-- The dimension `dim()`. -/
  dim : Int
  /-- The Jacobian `jac()`, as the list of its columns. -/
  jac : List VectorXd
  /-- The error `eval()`. -/
  eval : VectorXd
  /-- The velocity `speed()`. -/
  speed : VectorXd
  /-- The normal acceleration `normalAcc()`. -/
  normalAcc : VectorXd
deriving DecidableEq

/-- The state of `qp::TargetObjectiveTask`. -/
structure TargetObjectiveTask where
  /-- The weight `weight_` of the base class `Task`. -/
  weight_ : ℚ
  /-- The measurement `hlTask_` the task points to. -/
  hlTask_ : HighLevelTask
  /-- The step index `iter_`. -/
  iter_ : Int
  /-- The horizon length `nrIter_`. -/
  nrIter_ : Int
  /-- The time step `dt_`. -/
  dt_ : ℚ
  /-- The target derivative `objDot_`. -/
  objDot_ : VectorXd
  /-- The dimension weight `dimWeight_`. -/
  dimWeight_ : VectorXd
  /-- The index `robotIndex_`. -/
  robotIndex_ : Int
  /-- The offset `alphaDBegin_`. -/
  alphaDBegin_ : Int
  /-- The coefficients `phi_`. -/
  phi_ : VectorXd
  /-- The coefficients `psi_`. -/
  psi_ : VectorXd
  /-- The quadratic term `Q_`, as the list of its columns. -/
  Q_ : List VectorXd
  /-- The linear term `C_`. -/
  C_ : VectorXd
  /-- The cache `preQ_`. -/
  preQ_ : List VectorXd
  /-- The cache `CVecSum_`. -/
  CVecSum_ : VectorXd
  /-- The cache `preC_`. -/
  preC_ : VectorXd
deriving DecidableEq

namespace TargetObjectiveTask

/-- The getter `iter()`. -/
def iter (s : TargetObjectiveTask) : Int :=
  s.iter_

/-- The setter `iter(i)`. -/
def setIter (s : TargetObjectiveTask) (i : Int) : TargetObjectiveTask :=
  { s with iter_ := i }

/-- The getter `nrIter()`. -/
def nrIter (s : TargetObjectiveTask) : Int :=
  s.nrIter_

/-- The setter `nrIter(i)`. -/
def setNrIter (s : TargetObjectiveTask) (i : Int) : TargetObjectiveTask :=
  { s with nrIter_ := i }

/-- The getter `objDot()`. -/
def objDot (s : TargetObjectiveTask) : VectorXd :=
  s.objDot_

/-- The setter `objDot(o)`. -/
def setObjDot (s : TargetObjectiveTask) (o : VectorXd) : TargetObjectiveTask :=
  { s with objDot_ := o }

/-- The getter `dimWeight()`. -/
def dimWeight (s : TargetObjectiveTask) : VectorXd :=
  s.dimWeight_

/-- The setter `dimWeight(o)`: its body is the assignment `dimWeight_ = o`. -/
def setDimWeight (s : TargetObjectiveTask) (o : VectorXd) :
    Except Condition TargetObjectiveTask :=
  .ok { s with dimWeight_ := o }

/-- The getter `phi()`. -/
def phi (s : TargetObjectiveTask) : VectorXd :=
  s.phi_

/-- The getter `psi()`. -/
def psi (s : TargetObjectiveTask) : VectorXd :=
  s.psi_

/-- The method `begin()`. -/
def begin (s : TargetObjectiveTask) : Int × Int :=
  (s.alphaDBegin_, s.alphaDBegin_)

end TargetObjectiveTask

/-- The state of `qp::ContactTask`.  The type `ContactId` of contact identifiers is
declared outside `QPTasks.h`. -/
structure ContactTask (ContactId : Type) where
  /-- The weight `weight_` of the base class `Task`. -/
  weight_ : ℚ
  /-- The contact `contactId_`. -/
  contactId_ : ContactId
  /-- The offset `begin_`. -/
  begin_ : Int
  /-- The stiffness `stiffness_`. -/
  stiffness_ : ℚ
  /-- The damping `stiffnessSqrt_`. -/
  stiffnessSqrt_ : ℚ
  /-- The matrix `conesJac_`, as the list of its columns. -/
  conesJac_ : List VectorXd
  /-- The error `error_`. -/
  error_ : Vector3d
  /-- The error derivative `errorD_`. -/
  errorD_ : Vector3d
  /-- The quadratic term `Q_`, as the list of its columns. -/
  Q_ : List VectorXd
  /-- The linear term `C_`. -/
  C_ : VectorXd

namespace ContactTask

/-- The constructor `ContactTask(contactId, stiffness, weight)`; `sqrt` stands for
`std::sqrt`. -/
def new {ContactId : Type} (sqrt : ℚ → ℚ) (contactId : ContactId) (stiffness weight : ℚ) :
    Except Condition (ContactTask ContactId) :=
  .ok
    { weight_ := weight
      contactId_ := contactId
      begin_ := 0
      stiffness_ := stiffness
      stiffnessSqrt_ := 2 * sqrt stiffness
      conesJac_ := []
      error_ := 0
      errorD_ := 0
      Q_ := []
      C_ := [] }

/-- The method `begin()`. -/
def begin {ContactId : Type} (s : ContactTask ContactId) : Int × Int :=
  (s.begin_, s.begin_)

end ContactTask

namespace SetPointTaskCommon

/-- Modelled from the spec: the body of `SetPointTaskCommon::computeQC` is in
`QPTasks.cpp`, which is not among the sources.  The quadratic term of the cost assembly
kernel (spec, section 4.2, step 2) is `Q = τ² · Jᵗ W J`, for the task weight `τ`, the
dimension weight `W` taken as a diagonal, and the Jacobian `J` of the measurement. -/
def Q {d n : Nat} (τ : ℚ) (W : Fin d → ℚ) (J : Matrix (Fin d) (Fin n) ℚ) :
    Matrix (Fin n) (Fin n) ℚ :=
  τ ^ 2 • (J.transpose * Matrix.diagonal W * J)

/-- Modelled from the spec: the body of `SetPointTaskCommon::computeQC` is in
`QPTasks.cpp`, which is not among the sources.  The linear term of the cost assembly
kernel (spec, section 4.2, step 2) is `C = τ² · Jᵗ W (normalAcceleration − a_target)`. -/
def C {d n : Nat} (τ : ℚ) (W : Fin d → ℚ) (J : Matrix (Fin d) (Fin n) ℚ)
    (normalAcceleration aTarget : Fin d → ℚ) : Fin n → ℚ :=
  τ ^ 2 • J.transpose.mulVec ((Matrix.diagonal W).mulVec (normalAcceleration - aTarget))

end SetPointTaskCommon

namespace SetPointTask

/-- Modelled from the spec: the body of `SetPointTask::update` is in `QPTasks.cpp`, which
is not among the sources.  The driving acceleration target of the set-point law (spec,
section 4.3) is `a_target = k·error − 2√k·speed`, for the stiffness `k`; `sqrt` stands
for `std::sqrt`. -/
def aTarget {d : Nat} (sqrt : ℚ → ℚ) (k : ℚ) (error speed : Fin d → ℚ) : Fin d → ℚ :=
  k • error - (2 * sqrt k) • speed

end SetPointTask

/-- The structure `qp::JointStiffness`. -/
structure JointStiffness where
  /-- The joint identifier `jointId`. -/
  jointId : Int
  /-- The stiffness `stiffness`. -/
  stiffness : ℚ
deriving DecidableEq

/-- The constructor `JointStiffness()`: both members are value-initialised. -/
def JointStiffness.default : JointStiffness :=
  ⟨0, 0⟩

/-- The constructor `JointStiffness(jId, stif)`. -/
def JointStiffness.new (jId : Int) (stif : ℚ) : JointStiffness :=
  ⟨jId, stif⟩

/-- The structure `qp::JointGains`. -/
structure JointGains where
  /-- The joint identifier `jointId`. -/
  jointId : Int
  /-- The stiffness `stiffness`. -/
  stiffness : ℚ
  /-- The damping `damping`. -/
  damping : ℚ
deriving DecidableEq

namespace JointGains

/-- The constructor `JointGains()`: the three members are value-initialised. -/
def default : JointGains :=
  ⟨0, 0, 0⟩

/-- The constructor `JointGains(jId, stif)`: the damping is `2.*std::sqrt(stif)`; `sqrt`
stands for `std::sqrt`. -/
def new (sqrt : ℚ → ℚ) (jId : Int) (stif : ℚ) : JointGains :=
  { jointId := jId
    stiffness := stif
    damping := 2 * sqrt stif }

/-- The constructor `JointGains(jId, stif, damp)`. -/
def newDamped (jId : Int) (stif damp : ℚ) : JointGains :=
  { jointId := jId
    stiffness := stif
    damping := damp }

end JointGains

namespace TargetObjectiveTask

/-- The public methods of `TargetObjectiveTask` whose bodies are in `QPTasks.h` and
assign a member: `iter(i)`, `nrIter(i)`, `objDot(o)` and `dimWeight(o)`. -/
inductive Op where
  | iter (i : Int)
  | nrIter (i : Int)
  | objDot (o : VectorXd)
  | dimWeight (o : VectorXd)

/-- The state after a call of one of these methods. -/
def Op.apply (s : TargetObjectiveTask) : Op → TargetObjectiveTask
  | .iter i => s.setIter i
  | .nrIter i => s.setNrIter i
  | .objDot o => s.setObjDot o
  | .dimWeight o =>
    match s.setDimWeight o with
    | .ok t => t
    | .error _ => s

end TargetObjectiveTask

/-- The structure `JointsSelector::SelectedData`: the position of a selected joint in the
velocity vector and the number of its degrees of freedom. -/
structure SelectedData where
  /-- The position `posInDof`. -/
  posInDof : Int
  /-- The number `dof` of degrees of freedom. -/
  dof : Int
deriving DecidableEq

/-- The state of `qp::JointsSelector`. -/
structure JointsSelector where
  /-- The masked Jacobian `jac_`, as the list of its columns. -/
  jac_ : List VectorXd
  /-- The selected joints `selectedJoints_`. -/
  selectedJoints_ : List SelectedData
  /-- The wrapped measurement `hl_` the selector points to. -/
  hl_ : HighLevelTask
deriving DecidableEq

namespace JointsSelector

/-- Modelled from the spec: the constructor of `JointsSelector` is in `QPTasks.cpp`, which
is not among the sources.  A joint identifier of the selection set is resolved against the
joint table of the robot (spec, section 4.6): it gives the position of the joint in the
velocity vector and the number of its degrees of freedom; an identifier that no joint of
the robot carries is an `InvalidArgument` (spec, section 7). -/
def resolve (mb : rbd.MultiBody) (id : Int) : Except Condition SelectedData :=
  match mb.jointIndexById id with
  | none => .error .InvalidArgument
  | some i =>
    match mb.joint i, mb.jointPosInDof i with
    | some joint, some pos => .ok ⟨pos, joint.dof⟩
    | _, _ => .error .InvalidArgument

/-- Modelled from the spec: the constructor of `JointsSelector` is in `QPTasks.cpp`.  The
identifiers of the selection set are resolved one after the other, once, at
construction (spec, section 4.6). -/
def resolveAll (mb : rbd.MultiBody) : List Int → Except Condition (List SelectedData)
  | [] => .ok []
  | id :: ids =>
    match resolve mb id with
    | .error e => .error e
    | .ok sd =>
      match resolveAll mb ids with
      | .error e => .error e
      | .ok rest => .ok (sd :: rest)

/-- Modelled from the spec: the constructor `JointsSelector(mbs, robotIndex, hl,
selectedJointsId)` is in `QPTasks.cpp`.  It wraps the measurement `hl` and resolves the
selected joints of the robot `mbs[robotIndex]` (spec, section 4.6); the Jacobian starts as
the zero matrix with the dimension of the measurement as number of rows and one column
per degree of freedom of the robot. -/
def new (mbs : List rbd.MultiBody) (robotIndex : Int) (hl : HighLevelTask)
    (selectedJointsId : List Int) : Option (Except Condition JointsSelector) := do
  let mb ← stdAt mbs robotIndex
  match resolveAll mb selectedJointsId with
  | .error e => some (.error e)
  | .ok sel => some (.ok ⟨List.replicate mb.nrDof (List.replicate hl.dim.toNat 0), sel, hl⟩)

/-- Modelled from the spec: the function `JointsSelector::ActiveJoints` is in
`QPTasks.cpp`.  The selection set is the explicit set of active joints (spec,
section 4.6). -/
def ActiveJoints (mbs : List rbd.MultiBody) (robotIndex : Int) (hl : HighLevelTask)
    (activeJointsId : List Int) : Option (Except Condition JointsSelector) :=
  new mbs robotIndex hl activeJointsId

/-- Modelled from the spec: the function `JointsSelector::UnactiveJoints` is in
`QPTasks.cpp`.  The selection set is the complement of the set of inactive joints (spec,
section 4.6): the identifiers of the joints of the robot that are not in
`unactiveJointsId`. -/
def UnactiveJoints (mbs : List rbd.MultiBody) (robotIndex : Int) (hl : HighLevelTask)
    (unactiveJointsId : List Int) : Option (Except Condition JointsSelector) := do
  let mb ← stdAt mbs robotIndex
  new mbs robotIndex hl
    ((mb.joints.map fun joint => joint.id).filter fun id => id ∉ unactiveJointsId)

/-- The getter `selectedJoints()`. -/
def selectedJoints (s : JointsSelector) : List SelectedData :=
  s.selectedJoints_

/-- Modelled from the spec: a degree of freedom, given by its column, belongs to the
selected set when it is one of the degrees of freedom of a selected joint. -/
def selected (sel : List SelectedData) (col : Nat) : Bool :=
  sel.any fun sd => decide (sd.posInDof ≤ (col : Int) ∧ (col : Int) < sd.posInDof + sd.dof)

/-- Modelled from the spec: the method `JointsSelector::update` is in `QPTasks.cpp`.  It
delegates to the wrapped provider, whose state after its own update is `hl1`, then zeroes
every Jacobian column whose degree of freedom does not belong to the selected set (spec,
section 4.6). -/
def update (s : JointsSelector) (hl1 : HighLevelTask) : JointsSelector :=
  { s with
    hl_ := hl1
    jac_ := hl1.jac.mapIdx fun col v =>
      if selected s.selectedJoints_ col then v else List.replicate v.length 0 }

/-- Modelled from the spec: the accessors of `JointsSelector` are in `QPTasks.cpp`.  The
dimension mirrors the dimension of the wrapped provider (spec, section 4.1). -/
def dim (s : JointsSelector) : Int :=
  s.hl_.dim

/-- Modelled from the spec: the accessor `jac()` returns the masked Jacobian. -/
def jac (s : JointsSelector) : List VectorXd :=
  s.jac_

/-- Modelled from the spec: the error passes through unchanged (spec, section 4.6). -/
def eval (s : JointsSelector) : VectorXd :=
  s.hl_.eval

/-- Modelled from the spec: the speed passes through unchanged (spec, section 4.6). -/
def speed (s : JointsSelector) : VectorXd :=
  s.hl_.speed

/-- Modelled from the spec: the normal acceleration passes through unchanged (spec,
section 4.6). -/
def normalAcc (s : JointsSelector) : VectorXd :=
  s.hl_.normalAcc

end JointsSelector

end tasks.qp

/-! ## Sample data

Concrete libraries, robots and configurations, on which the statements below are
evaluated. -/

namespace sample

/-- A SpaceVecAlg whose rotation logarithm is constantly zero. -/
def svaLib : sva.Lib :=
  ⟨fun _ => 0, fun _ _ => 0⟩

/-- An RBDyn whose Jacobians have all entries one and whose centre of mass is the
translation of the first body pose. -/
def rbdLib : rbd.Lib where
  jointsPath := fun mb _ => (List.range mb.nrJoints).map Int.ofNat
  velocity := fun _ _ _ => ⟨0, 0⟩
  velocityAt := fun _ _ _ _ => ⟨0, 0⟩
  normalAcceleration := fun _ _ _ => ⟨0, 0⟩
  normalAccelerationB := fun _ _ _ _ => ⟨0, 0⟩
  normalAccelerationAt := fun _ _ _ _ _ => ⟨0, 0⟩
  normalAccelerationBAt := fun _ _ _ _ _ _ => ⟨0, 0⟩
  jacobian := fun j _ _ => List.replicate j.dof 1
  jacobianAt := fun j _ _ _ => List.replicate j.dof 1
  jacobianDot := fun j _ _ => List.replicate j.dof 0
  bodyJacobianDot := fun j _ _ => List.replicate j.dof 0
  fullJacobian := fun _ _ _ jac _ => jac
  computeCoM := fun _ mbc => (mbc.bodyPosW.headD ⟨1, 0⟩).translation
  comVelocity := fun _ _ _ => 0
  comNormalAcceleration := fun _ _ _ => 0
  comNormalAccelerationB := fun _ _ _ _ => 0
  comJacobian := fun _ mb _ => List.replicate mb.nrDof 0
  comJacobianDot := fun _ mb _ => List.replicate mb.nrDof 0
  interactionMatrix := fun _ _ => 0

/-- An arm: a fixed root, a spherical joint, then a revolute joint; three bodies of
masses 1, 2 and 1. -/
def arm : rbd.MultiBody :=
  ⟨[⟨0, 1⟩, ⟨1, 2⟩, ⟨2, 1⟩],
    [rbd.Joint.ofType .Fixed 0, rbd.Joint.ofType .Spherical 1, rbd.Joint.ofType .Rev 2]⟩

/-- A slider: a fixed root and a prismatic joint; two bodies of masses 3 and 5. -/
def slider : rbd.MultiBody :=
  ⟨[⟨0, 3⟩, ⟨1, 5⟩], [rbd.Joint.ofType .Fixed 0, rbd.Joint.ofType .Prism 1]⟩

/-- The identity transform. -/
def identity : sva.PTransformd :=
  ⟨1, 0⟩

/-- The translation by `(1, 2, 3)`. -/
def shift : sva.PTransformd :=
  sva.PTransformd.ofTranslation ![1, 2, 3]

/-- A configuration of the arm: the spherical joint at the identity, the revolute joint
at 2. -/
def armConfig : rbd.MultiBodyConfig :=
  { q := [[], [1, 0, 0, 0], [2]]
    alpha := [[], [0, 0, 0], [0]]
    jointConfig := [identity, identity, identity]
    bodyPosW := [identity, shift, shift]
    bodyVelB := [⟨0, 0⟩, ⟨0, 0⟩, ⟨0, 0⟩] }

/-- A configuration of the slider. -/
def sliderConfig : rbd.MultiBodyConfig :=
  { q := [[], [1]]
    alpha := [[], [0]]
    jointConfig := [identity, shift]
    bodyPosW := [identity, shift]
    bodyVelB := [⟨0, 0⟩, ⟨0, 0⟩] }

/-- A position task on the last body of the arm, with target `(4, 4, 4)` and body point
`(0, 0, 1)`. -/
def positionTask : tasks.PositionTask :=
  { pos_ := ![4, 4, 4]
    point_ := sva.PTransformd.ofTranslation ![0, 0, 1]
    bodyIndex_ := 2
    jac_ := rbdLib.newJacobian arm 2 ![0, 0, 1]
    eval_ := 0
    speed_ := 0
    normalAcc_ := 0
    jacMat_ := List.replicate 4 0
    jacDotMat_ := List.replicate 4 0 }

/-- A posture task on the arm, as built by the constructor, with the revolute joint
wanted at 5. -/
def postureTask : tasks.PostureTask :=
  ⟨[[], [1, 0, 0, 0], [5]], List.replicate 4 0, tasks.PostureTask.identityFrom 4 0,
    List.replicate 4 (List.replicate 4 0)⟩

/-- A centre-of-mass task on the arm followed by the slider, with target `(1, 1, 1)`, in
the state the constructor leaves it in. -/
def multiCoMTask : tasks.MultiCoMTask :=
  { com_ := ![1, 1, 1]
    robotIndexes_ := [0, 1]
    robotsWeight_ := [1 / 3, 2 / 3]
    jac_ := [rbd.CoMJacobian.new arm [1 / 3, 1 / 3, 1 / 3],
      rbd.CoMJacobian.new slider [2 / 3, 2 / 3]]
    eval_ := ![7, 7, 7]
    speed_ := ![7, 7, 7]
    normalAcc_ := ![7, 7, 7]
    jacMat_ := [List.replicate 4 0, List.replicate 1 0] }

/-- The task `multiCoMTask` after some use: the same target, robots, weights and
Jacobian objects, other values in the outputs. -/
def multiCoMTaskUsed : tasks.MultiCoMTask :=
  { multiCoMTask with
    eval_ := ![0, 1, 2]
    speed_ := ![3, 4, 5]
    normalAcc_ := ![6, 7, 8]
    jacMat_ := [List.replicate 4 1, List.replicate 1 1] }

/-- A gaze task on the last body of the arm. -/
def gazeTask : tasks.GazeTask :=
  { point2d_ := ![1, 2]
    point2d_ref_ := ![3, 5]
    depthEstimate_ := 1
    bodyIndex_ := 2
    jac_ := rbdLib.newJacobian arm 2 0
    X_b_gaze_ := identity
    L_img_ := 0
    eval_ := 0
    speed_ := 0
    normalAcc_ := 0
    jacMat_ := List.replicate 4 0
    jacDotMat_ := List.replicate 4 0 }

/-- A transform task between the last body of the arm and the last body of the slider. -/
def multiRobotTransformTask : tasks.MultiRobotTransformTask :=
  { r1Index_ := 0
    r2Index_ := 1
    r1BodyIndex_ := 2
    r2BodyIndex_ := 1
    X_r1b_r1s_ := identity
    X_r2b_r2s_ := identity
    jacR1B_ := ⟨[0, 1, 2], identity, 4⟩
    jacR2B_ := ⟨[0, 1], identity, 1⟩
    eval_ := 0
    speed_ := 0
    normalAcc_ := 0
    jacMat1_ := List.replicate 4 0
    jacMat2_ := List.replicate 1 0
    fullJacMat_ := [List.replicate 4 0, List.replicate 1 0] }

/-- A predictive task on a measurement of dimension three, with unit dimension weight. -/
def targetObjectiveTask : tasks.qp.TargetObjectiveTask :=
  { weight_ := 1
    hlTask_ := ⟨3, [], [0, 0, 0], [0, 0, 0], [0, 0, 0]⟩
    iter_ := 0
    nrIter_ := 10
    dt_ := 1 / 100
    objDot_ := [0, 0, 0]
    dimWeight_ := [1, 1, 1]
    robotIndex_ := 0
    alphaDBegin_ := 0
    phi_ := [0, 0, 0]
    psi_ := [0, 0, 0]
    Q_ := []
    C_ := []
    preQ_ := []
    CVecSum_ := [0, 0, 0]
    preC_ := [] }

/-- A linear-velocity task on the last body of the arm, as its constructor returns it. -/
def linVelocityTask : tasks.LinVelocityTask :=
  { vel_ := ![1, 0, 0]
    point_ := sva.PTransformd.ofTranslation 0
    bodyIndex_ := 2
    jac_ := rbdLib.newJacobian arm 2 0
    eval_ := ![7, 7, 7]
    speed_ := 0
    normalAcc_ := ![7, 7, 7]
    jacMat_ := List.replicate 4 0
    jacDotMat_ := List.replicate 4 0 }

/-- A square root that is exact on the squares of rationals: the integer square roots of
the numerator and of the denominator. -/
def sqrt (x : ℚ) : ℚ :=
  (Nat.sqrt x.num.toNat : ℚ) / (Nat.sqrt x.den : ℚ)

/-- A floating robot: a free-flyer root and a revolute joint; two bodies of masses 2
and 1. -/
def floater : rbd.MultiBody :=
  ⟨[⟨0, 2⟩, ⟨1, 1⟩], [rbd.Joint.ofType .Free 0, rbd.Joint.ofType .Rev 1]⟩

/-- A configuration of the floater: the revolute joint at 2. -/
def floaterConfig : rbd.MultiBodyConfig :=
  { q := [[1, 0, 0, 0, 0, 0, 0], [2]]
    alpha := [[0, 0, 0, 0, 0, 0], [0]]
    jointConfig := [identity, identity]
    bodyPosW := [identity, shift]
    bodyVelB := [⟨0, 0⟩, ⟨0, 0⟩] }

/-- A posture task on the floater, as built by the constructor, with the revolute joint
wanted at 5. -/
def floaterPosture : tasks.PostureTask :=
  ⟨[[1, 0, 0, 0, 0, 0, 0], [5]], List.replicate 7 0, tasks.PostureTask.identityFrom 7 6,
    List.replicate 7 (List.replicate 7 0)⟩

/-- The posture task on the floater after an `update` in the configuration
`floaterConfig`. -/
def floaterPostureUpdated : tasks.PostureTask :=
  { floaterPosture with eval_ := [0, 0, 0, 0, 0, 0, 3] }

/-- A measurement of dimension one on the arm, with Jacobian `[1 2 3 4]`. -/
def measurement : tasks.qp.HighLevelTask :=
  ⟨1, [[1], [2], [3], [4]], [0], [0], [0]⟩

/-- The column of the body Jacobian of a joint that turns about the world z axis through
the origin, seen from the frame `X = (E, r)`: the transform `X` applied to the motion
vector `(z, 0)`, that is `(E z, E (z × r))`. -/
def spinColumn (X : sva.PTransformd) : Vector6d :=
  sva.MotionVecd.vector
    ⟨X.rotation.mulVec ![0, 0, 1], X.rotation.mulVec (cross3 ![0, 0, 1] X.translation)⟩

/-- An RBDyn for robots in a configuration where every joint turns about the world z axis
through the origin: the body Jacobian seen from a frame has the column `spinColumn` of
that frame for each degree of freedom on the path. -/
def spinLib : rbd.Lib :=
  { rbdLib with jacobianAt := fun j _ _ X => List.replicate j.dof (spinColumn X) }

/-- A turret: a fixed root and a revolute joint; two bodies of mass 1. -/
def turret : rbd.MultiBody :=
  ⟨[⟨0, 1⟩, ⟨1, 1⟩], [rbd.Joint.ofType .Fixed 0, rbd.Joint.ofType .Rev 1]⟩

/-- A configuration of a turret whose second body sits at `r`. -/
def turretConfig (r : Vector3d) : rbd.MultiBodyConfig :=
  { q := [[], [0]]
    alpha := [[], [0]]
    jointConfig := [identity, identity]
    bodyPosW := [identity, sva.PTransformd.ofTranslation r]
    bodyVelB := [⟨0, 0⟩, ⟨0, 0⟩] }

/-- An Eigen whose normalisation keeps the vector and whose rotation between two vectors
is the identity. -/
def eigenLib : Eigen.Lib :=
  ⟨fun v => v, fun _ _ => 1⟩

/-- An RBDyn as `rbdLib`, whose Jacobian of a path has the column `(k, k, k, k, k, k)` at
the position `k - 1`. -/
def countLib : rbd.Lib :=
  { rbdLib with
    jacobian := fun j _ _ =>
      List.map (fun (k : Nat) (_ : Fin 6) => (k : ℚ) + 1) (List.range j.dof)
    jacobianDot := fun j _ _ =>
      List.map (fun (k : Nat) (_ : Fin 6) => -((k : ℚ) + 1)) (List.range j.dof) }

/-- A robot with the root joint only: a free flyer carrying one body of mass 1. -/
def rootOnly : rbd.MultiBody :=
  ⟨[⟨0, 1⟩], [rbd.Joint.ofType .Free 0]⟩

/-- A configuration of the robot `rootOnly`. -/
def rootOnlyConfig : rbd.MultiBodyConfig :=
  { q := [[1, 0, 0, 0, 0, 0, 0]]
    alpha := [[0, 0, 0, 0, 0, 0]]
    jointConfig := [identity]
    bodyPosW := [identity]
    bodyVelB := [⟨0, 0⟩] }

/-- An orientation tracking task, used as the content of the storage before a
construction. -/
def orientationTrackingTask : tasks.OrientationTrackingTask :=
  { bodyIndex_ := 0
    bodyPoint_ := identity
    bodyAxis_ := 0
    zeroJacIndex_ := []
    trackedPoint_ := 0
    jac_ := ⟨[], identity, 0⟩
    eval_ := ![7, 7, 7]
    shortJacMat_ := []
    jacMat_ := []
    jacDotMat_ := [] }

/-- The orientation tracking task on the last body of the arm, with the axis `z`, the
revolute joint as only tracking joint and the tracked point `(1, 1, 1)`, as the
constructor returns it. -/
def armTracking : tasks.OrientationTrackingTask :=
  { bodyIndex_ := 2
    bodyPoint_ := sva.PTransformd.ofTranslation 0
    bodyAxis_ := ![0, 0, 1]
    zeroJacIndex_ := [0, 1, 2]
    trackedPoint_ := ![1, 1, 1]
    jac_ := ⟨[0, 1, 2], sva.PTransformd.ofTranslation 0, 4⟩
    eval_ := ![7, 7, 7]
    shortJacMat_ := List.replicate 4 0
    jacMat_ := List.replicate 4 0
    jacDotMat_ := List.replicate 4 0 }

/-- A configuration of the arm whose first body sits at `(1, 2, 3)`. -/
def armConfigShifted : rbd.MultiBodyConfig :=
  { armConfig with bodyPosW := [shift, shift, shift] }

/-- A configuration of the slider whose first body sits at `(1, 2, 3)`. -/
def sliderConfigShifted : rbd.MultiBodyConfig :=
  { sliderConfig with bodyPosW := [shift, shift] }

/-- The centre-of-mass task on the arm (mass 4) followed by the slider (mass 8), with
target `(1, 1, 1)`, as the constructor leaves it in `double` arithmetic: the weights are
the doubles nearest to `1/3` and `2/3`. -/
def multiCoMTaskDouble : tasks.MultiCoMTask :=
  { com_ := ![1, 1, 1]
    robotIndexes_ := [0, 1]
    robotsWeight_ := [6004799503160661 / 2 ^ 54, 6004799503160661 / 2 ^ 53]
    jac_ := [rbd.CoMJacobian.new arm (List.replicate 3 (6004799503160661 / 2 ^ 54)),
      rbd.CoMJacobian.new slider (List.replicate 2 (6004799503160661 / 2 ^ 53))]
    eval_ := ![7, 7, 7]
    speed_ := ![7, 7, 7]
    normalAcc_ := ![7, 7, 7]
    jacMat_ := [List.replicate 4 0, List.replicate 1 0] }

end sample

/-! ## Theorems -/

/-! ### Lookups -/

theorem stdAt_natCast {α : Type} (v : List α) (i : Nat) : stdAt v (i : Int) = v[i]? := by
  simp [stdAt]

theorem stdAt_isSome {α : Type} (v : List α) (i : Int) (h0 : 0 ≤ i) (h1 : i.toNat < v.length) :
    ∃ x, stdAt v i = some x := by
  refine ⟨v[i.toNat], ?_⟩
  simp [stdAt, h0, List.getElem?_eq_getElem h1]

/-! ### PositionTask -/

/-- C1: when the controlled body index is in range, both overloads of
`PositionTask::update` return, and afterwards `eval()` is the target position minus the
world translation of the controlled body point, `pos_ - (point_ * bodyPosW[bodyIndex_])
.translation()`; it is the zero vector exactly when that translation is the target. -/
theorem tasks.PositionTask.positionTask_update_eval (R : rbd.Lib) (s : tasks.PositionTask)
    (mb : rbd.MultiBody) (mbc : rbd.MultiBodyConfig) (normalAccB : List sva.MotionVecd)
    (X_0_b : sva.PTransformd) (hX : stdAt mbc.bodyPosW s.bodyIndex_ = some X_0_b) :
    (∃ s1, tasks.PositionTask.update R s mb mbc = some s1 ∧
      s1.eval = s.pos_ - (s.point_ * X_0_b).translation ∧
      (s1.eval = 0 ↔ (s.point_ * X_0_b).translation = s.pos_)) ∧
    (∃ s2, tasks.PositionTask.updateB R s mb mbc normalAccB = some s2 ∧
      s2.eval = s.pos_ - (s.point_ * X_0_b).translation ∧
      (s2.eval = 0 ↔ (s.point_ * X_0_b).translation = s.pos_)) := by
  have h1 : tasks.PositionTask.update R s mb mbc = some
      { s with
        eval_ := s.pos_ - (s.point_ * X_0_b).translation
        speed_ := (R.velocity s.jac_ mb mbc).linear
        normalAcc_ := (R.normalAcceleration s.jac_ mb mbc).linear
        jacMat_ := R.fullJacobian 3 s.jac_ mb
          (MatrixNXd.bottomRows (R.jacobian s.jac_ mb mbc) s.jac_.dof) s.jacMat_ } := by
    simp [tasks.PositionTask.update, hX]
  have h2 : tasks.PositionTask.updateB R s mb mbc normalAccB = some
      { s with
        eval_ := s.pos_ - (s.point_ * X_0_b).translation
        speed_ := (R.velocity s.jac_ mb mbc).linear
        normalAcc_ := (R.normalAccelerationB s.jac_ mb mbc normalAccB).linear
        jacMat_ := R.fullJacobian 3 s.jac_ mb
          (MatrixNXd.bottomRows (R.jacobian s.jac_ mb mbc) s.jac_.dof) s.jacMat_ } := by
    simp [tasks.PositionTask.updateB, hX]
  refine ⟨⟨_, h1, rfl, ?_⟩, ⟨_, h2, rfl, ?_⟩⟩
  · simp only [tasks.PositionTask.eval, sub_eq_zero]
    exact eq_comm
  · simp only [tasks.PositionTask.eval, sub_eq_zero]
    exact eq_comm

/-- The statement of `tasks.PositionTask.positionTask_update_eval` on the sample arm: the body point
`(0, 0, 1)` of the last body, which sits at `(1, 2, 3)`, against the target `(4, 4, 4)`. -/
theorem tasks.PositionTask.positionTask_update_eval_witness :
    stdAt sample.armConfig.bodyPosW sample.positionTask.bodyIndex_ = some sample.shift ∧
    ((∃ s1, tasks.PositionTask.update sample.rbdLib sample.positionTask sample.arm
        sample.armConfig = some s1 ∧
      s1.eval = sample.positionTask.pos_ -
        (sample.positionTask.point_ * sample.shift).translation ∧
      (s1.eval = 0 ↔
        (sample.positionTask.point_ * sample.shift).translation = sample.positionTask.pos_)) ∧
    (∃ s2, tasks.PositionTask.updateB sample.rbdLib sample.positionTask sample.arm
        sample.armConfig [] = some s2 ∧
      s2.eval = sample.positionTask.pos_ -
        (sample.positionTask.point_ * sample.shift).translation ∧
      (s2.eval = 0 ↔
        (sample.positionTask.point_ * sample.shift).translation = sample.positionTask.pos_))) :=
  ⟨rfl, tasks.PositionTask.positionTask_update_eval sample.rbdLib sample.positionTask sample.arm
    sample.armConfig [] sample.shift rfl⟩

/-! ### CoMTask -/

/-- C4: after `CoMTask::update(mb, mbc, c, normalAccB)` the error `eval()` is `com_ - c`,
the target minus the supplied centre of mass; it is the zero vector if and only if `c` is
the target; `update(mb, mbc)` gives the same error as the call with
`c = computeCoM(mb, mbc)`. -/
theorem tasks.CoMTask.comTask_update_eval (R : rbd.Lib) (s : tasks.CoMTask) (mb : rbd.MultiBody)
    (mbc : rbd.MultiBodyConfig) (c : Vector3d) (normalAccB : List sva.MotionVecd) :
    (tasks.CoMTask.updateCom R s mb mbc c normalAccB).eval = s.com_ - c ∧
    ((tasks.CoMTask.updateCom R s mb mbc c normalAccB).eval = 0 ↔ c = s.com_) ∧
    (tasks.CoMTask.update R s mb mbc).eval = s.com_ - R.computeCoM mb mbc ∧
    (tasks.CoMTask.update R s mb mbc).eval =
      (tasks.CoMTask.updateCom R s mb mbc (R.computeCoM mb mbc) normalAccB).eval := by
  refine ⟨rfl, ?_, rfl, rfl⟩
  simp only [tasks.CoMTask.eval, tasks.CoMTask.updateCom, sub_eq_zero]
  exact eq_comm

/-! ### PostureTask -/

/-- C5, at the sample arm (fixed root, spherical joint, revolute joint at index 2), with
the task in the state its constructor returns: the revolute joint has one degree of
freedom and sits at position 3 of the velocity vector, the wanted and the current values
of the joint are 5 and 2, and `PostureTask::update` returns with
`eval() = (3, 0, 0, 0)`: the difference 3 is written at position 0, and the entry at
position 3 is 0. -/
theorem tasks.PostureTask.update_after_spherical :
    tasks.PostureTask.new sample.arm [[], [1, 0, 0, 0], [5]] = some sample.postureTask ∧
    (sample.arm.joint 2).map (fun j => j.dof) = some 1 ∧
    sample.arm.jointPosInDof 2 = some 3 ∧
    sample.postureTask.q_[2]? = some [5] ∧
    sample.armConfig.q[2]? = some [2] ∧
    (tasks.PostureTask.update sample.svaLib sample.postureTask sample.arm
      sample.armConfig).map (fun s => s.eval) = some [3, 0, 0, 0] := by
  refine ⟨by decide, by decide, by decide, rfl, rfl, ?_⟩
  simp [tasks.PostureTask.update, tasks.PostureTask.updateLoop, tasks.PostureTask.eval,
    tasks.PostureTask.setCoeff, rbd.MultiBody.jointPosInDof, rbd.MultiBody.joint, stdAt,
    rbd.MultiBody.nrJoints, sample.arm, sample.postureTask, sample.armConfig, rbd.Joint.ofType,
    rbd.JointType.dof, List.range']
  norm_num

/-! ### GazeTask -/

/-- C8: when the body index is in range, `GazeTask::update` returns, and afterwards
`eval()` is `point2d_ref_ - point2d_`, the reference image point minus the current one,
zero exactly when the two are equal.  The two points are the ones last set: by either
constructor, or by either overload of `error`. -/
theorem tasks.GazeTask.gazeTask_update_eval (R : rbd.Lib) (mem s : tasks.GazeTask) (mb : rbd.MultiBody)
    (mbc : rbd.MultiBodyConfig) (normalAccB : List sva.MotionVecd) (bodyId bodyIndex : Int)
    (X_0_b X_b_gaze : sva.PTransformd) (p r : Vector2d) (p3 : Vector3d) (depth : ℚ)
    (hId : mb.bodyIndexById bodyId = some bodyIndex) (hs : s.bodyIndex_ = bodyIndex)
    (hX : stdAt mbc.bodyPosW bodyIndex = some X_0_b) :
    (∃ s1, tasks.GazeTask.update R s mb mbc normalAccB = some s1 ∧
      s1.eval = s.point2d_ref_ - s.point2d_ ∧ (s1.eval = 0 ↔ s.point2d_ = s.point2d_ref_)) ∧
    (∃ s1, tasks.GazeTask.update R (s.error p r) mb mbc normalAccB = some s1 ∧
      s1.eval = r - p) ∧
    (∃ s1, tasks.GazeTask.update R (s.error3d p3 r) mb mbc normalAccB = some s1 ∧
      s1.eval = r - ![p3 0 / p3 2, p3 1 / p3 2]) ∧
    (∃ s0 s1, tasks.GazeTask.new R mem mb bodyId p depth X_b_gaze r = some s0 ∧
      tasks.GazeTask.update R s0 mb mbc normalAccB = some s1 ∧ s1.eval = r - p) ∧
    (∃ s0 s1, tasks.GazeTask.new3d R mem mb bodyId p3 X_b_gaze r = some s0 ∧
      tasks.GazeTask.update R s0 mb mbc normalAccB = some s1 ∧
      s1.eval = r - ![p3 0 / p3 2, p3 1 / p3 2]) := by
  have key : ∀ t : tasks.GazeTask, t.bodyIndex_ = bodyIndex →
      ∃ s1, tasks.GazeTask.update R t mb mbc normalAccB = some s1 ∧
        s1.eval = t.point2d_ref_ - t.point2d_ := by
    intro t ht
    simp [tasks.GazeTask.update, ht, hX, tasks.GazeTask.eval]
  refine ⟨?_, key _ hs, key _ hs, ?_, ?_⟩
  · obtain ⟨s1, h1, h2⟩ := key s hs
    refine ⟨s1, h1, h2, ?_⟩
    rw [h2, sub_eq_zero]
    exact eq_comm
  · obtain ⟨s1, h1, h2⟩ := key
      { mem with
        point2d_ := p
        point2d_ref_ := r
        depthEstimate_ := depth
        bodyIndex_ := bodyIndex
        jac_ := R.newJacobian mb bodyId 0
        X_b_gaze_ := X_b_gaze
        jacMat_ := tasks.GazeTask.sizedCols mem.jacMat_ mb.nrDof
        jacDotMat_ := tasks.GazeTask.sizedCols mem.jacDotMat_ mb.nrDof } rfl
    exact ⟨_, s1, by simp [tasks.GazeTask.new, hId], h1, h2⟩
  · obtain ⟨s1, h1, h2⟩ := key
      { mem with
        point2d_ref_ := r
        bodyIndex_ := bodyIndex
        jac_ := R.newJacobian mb bodyId 0
        X_b_gaze_ := X_b_gaze
        jacMat_ := tasks.GazeTask.sizedCols mem.jacMat_ mb.nrDof
        jacDotMat_ := tasks.GazeTask.sizedCols mem.jacDotMat_ mb.nrDof
        point2d_ := ![p3 0 / p3 2, p3 1 / p3 2]
        depthEstimate_ := p3 2 } rfl
    exact ⟨_, s1, by simp [tasks.GazeTask.new3d, hId], h1, h2⟩

/-- The statement of `tasks.GazeTask.gazeTask_update_eval` on the sample arm: the current image
point `(1, 2)` against the reference `(3, 5)`. -/
theorem tasks.GazeTask.gazeTask_update_eval_witness :
    sample.arm.bodyIndexById 2 = some 2 ∧ sample.gazeTask.bodyIndex_ = 2 ∧
    stdAt sample.armConfig.bodyPosW 2 = some sample.shift ∧
    ∃ s1, tasks.GazeTask.update sample.rbdLib sample.gazeTask sample.arm sample.armConfig [] =
        some s1 ∧
      s1.eval = sample.gazeTask.point2d_ref_ - sample.gazeTask.point2d_ :=
  ⟨by decide, rfl, rfl,
    (tasks.GazeTask.gazeTask_update_eval sample.rbdLib sample.gazeTask sample.gazeTask sample.arm
      sample.armConfig [] 2 2 sample.shift sample.identity 0 0 0 1 (by decide) rfl rfl).1.imp
      fun _ h => ⟨h.1, h.2.1⟩⟩

/-! ### ContactTask -/

/-- C9, as stated, fails: at the negative stiffness `-1` (contact `()`, weight 1) the
constructor of `ContactTask` does not raise `InvalidArgument`, whatever `std::sqrt`
returns there. -/
theorem tasks.qp.ContactTask.new_negative_not_rejected :
    (-1 : ℚ) < 0 ∧
    ¬ ∃ sqrt : ℚ → ℚ, tasks.qp.ContactTask.new sqrt () (-1) 1 =
        Except.error tasks.qp.Condition.InvalidArgument := by
  refine ⟨by norm_num, ?_⟩
  rintro ⟨sqrt, h⟩
  simp [tasks.qp.ContactTask.new] at h

/-- C9, amended: for every stiffness, negative ones included, the constructor of
`ContactTask` returns a task; the task stores the stiffness and the weight unchanged, and
`2 * sqrt(stiffness)` as its damping; no condition is raised. -/
theorem tasks.qp.ContactTask.new_returns {ContactId : Type} (sqrt : ℚ → ℚ)
    (contactId : ContactId) (stiffness weight : ℚ) :
    ∃ t, tasks.qp.ContactTask.new sqrt contactId stiffness weight = Except.ok t ∧
      t.stiffness_ = stiffness ∧ t.stiffnessSqrt_ = 2 * sqrt stiffness ∧
      t.weight_ = weight ∧ t.contactId_ = contactId ∧ t.begin = (0, 0) ∧
      t.error_ = 0 ∧ t.errorD_ = 0 :=
  ⟨_, rfl, rfl, rfl, rfl, rfl, rfl, rfl, rfl⟩

/-! ### TargetObjectiveTask -/

/-- C10, as stated, fails: on the sample task, whose measurement has dimension three and
whose dimension weight is `(1, 1, 1)`, the call `dimWeight(o)` with `o = (2)` of length
one raises nothing and stores `o`. -/
theorem tasks.qp.TargetObjectiveTask.dimWeight_mismatch_not_rejected :
    sample.targetObjectiveTask.hlTask_.dim = 3 ∧
    sample.targetObjectiveTask.dimWeight = [1, 1, 1] ∧
    tasks.qp.TargetObjectiveTask.setDimWeight sample.targetObjectiveTask [2] ≠
      Except.error tasks.qp.Condition.InvalidArgument ∧
    (tasks.qp.TargetObjectiveTask.setDimWeight sample.targetObjectiveTask [2]).map
      (fun t => t.dimWeight) = Except.ok [2] := by
  refine ⟨rfl, rfl, ?_, rfl⟩
  simp [tasks.qp.TargetObjectiveTask.setDimWeight]

/-- C10, amended: for every vector `o`, whatever its length, `dimWeight(o)` returns; the
stored dimension weight becomes `o` and every other member keeps its value; no condition
is raised. -/
theorem tasks.qp.TargetObjectiveTask.dimWeight_stores (s : tasks.qp.TargetObjectiveTask)
    (o : VectorXd) :
    tasks.qp.TargetObjectiveTask.setDimWeight s o = Except.ok { s with dimWeight_ := o } ∧
    ({ s with dimWeight_ := o } : tasks.qp.TargetObjectiveTask).dimWeight = o :=
  ⟨rfl, rfl⟩

/-! ### Loops -/

theorem foldlM_range_inv {σ : Type} (step : σ → Nat → Option σ) (P : Nat → σ → Prop)
    (n : Nat) (s0 : σ) (h0 : P 0 s0)
    (hstep : ∀ i s, i < n → P i s → ∃ s1, step s i = some s1 ∧ P (i + 1) s1) :
    ∃ s1, (List.range n).foldlM step s0 = some s1 ∧ P n s1 := by
  induction n with
  | zero => exact ⟨s0, rfl, h0⟩
  | succ k ih =>
    obtain ⟨sk, hk, hP⟩ := ih fun i s hi hp => hstep i s (Nat.lt_succ_of_lt hi) hp
    obtain ⟨s1, h1, hP1⟩ := hstep k sk (Nat.lt_succ_self k) hP
    refine ⟨s1, ?_, hP1⟩
    rw [List.range_succ, List.foldlM_append, hk]
    simp [h1]

theorem foldlM_range_rel {σ τ : Type} (f : σ → Nat → Option σ) (g : τ → Nat → Option τ)
    (Q : Nat → σ → τ → Prop) (n : Nat) (s0 : σ) (t0 : τ) (h0 : Q 0 s0 t0)
    (hstep : ∀ i s t, i < n → Q i s t → Option.Rel (Q (i + 1)) (f s i) (g t i)) :
    Option.Rel (Q n) ((List.range n).foldlM f s0) ((List.range n).foldlM g t0) := by
  induction n with
  | zero => exact Option.Rel.some h0
  | succ k ih =>
    have hk := ih fun i s t hi hq => hstep i s t (Nat.lt_succ_of_lt hi) hq
    rw [List.range_succ, List.foldlM_append, List.foldlM_append]
    generalize (List.range k).foldlM f s0 = a at hk
    generalize (List.range k).foldlM g t0 = b at hk
    cases hk with
    | none => exact Option.Rel.none
    | some hq =>
      simpa using hstep k _ _ (Nat.lt_succ_self k) hq

/-! ### MultiCoMTask -/

theorem tasks.MultiCoMTask.robotMass_eq_sum (mb : rbd.MultiBody) :
    tasks.MultiCoMTask.robotMass mb = (mb.bodies.map rbd.Body.mass).sum := by
  have h : ∀ (bs : List rbd.Body) (a : ℚ),
      bs.foldl (fun ac b => ac + b.mass) a = a + (bs.map rbd.Body.mass).sum := by
    intro bs
    induction bs with
    | nil => intro a; simp
    | cons b bs ih => intro a; simp [ih, add_assoc]
  simpa using h mb.bodies 0

theorem tasks.MultiCoMTask.massLoop_spec (mbs : List rbd.MultiBody) (rs : List Int)
    (ms : List rbd.MultiBody) (hms : List.Forall₂ (fun r mb => stdAt mbs r = some mb) rs ms)
    (w : List ℚ) (t : ℚ) :
    tasks.MultiCoMTask.massLoop mbs rs w t =
      some (w ++ ms.map tasks.MultiCoMTask.robotMass,
        t + (ms.map tasks.MultiCoMTask.robotMass).sum) := by
  induction hms generalizing w t with
  | nil => simp [tasks.MultiCoMTask.massLoop]
  | cons h _ ih => simp [tasks.MultiCoMTask.massLoop, h, ih, add_assoc]

theorem tasks.MultiCoMTask.computeRobotsWeight_spec (s : tasks.MultiCoMTask)
    (mbs : List rbd.MultiBody) (ms : List rbd.MultiBody)
    (hms : List.Forall₂ (fun r mb => stdAt mbs r = some mb) s.robotIndexes_ ms) :
    tasks.MultiCoMTask.computeRobotsWeight s mbs = some
      { s with robotsWeight_ := ms.map fun mb =>
          tasks.MultiCoMTask.robotMass mb / (ms.map tasks.MultiCoMTask.robotMass).sum } := by
  simp [tasks.MultiCoMTask.computeRobotsWeight, tasks.MultiCoMTask.massLoop_spec mbs _ ms hms,
    Function.comp_def]

theorem tasks.MultiCoMTask.forall₂_lookup {α : Type} (v : List α) (rs : List Int) (xs : List α)
    (h : List.Forall₂ (fun r x => stdAt v r = some x) rs xs) (i : Nat) (hi : i < rs.length) :
    ∃ r x, rs[i]? = some r ∧ xs[i]? = some x ∧ stdAt v r = some x := by
  have hlen := h.length_eq
  have hx : i < xs.length := hlen ▸ hi
  refine ⟨rs[i], xs[i], List.getElem?_eq_getElem hi, List.getElem?_eq_getElem hx, ?_⟩
  exact (List.forall₂_iff_get.1 h).2 i hi hx

theorem tasks.MultiCoMTask.jac_set_built (mbs : List rbd.MultiBody) (idx : List Int)
    (W : List ℚ) (jacs : List rbd.CoMJacobian) (i : Nat) (r0 : Int) (mb0 : rbd.MultiBody)
    (w0 : ℚ) (hr0 : idx[i]? = some r0) (hmb0 : stdAt mbs r0 = some mb0)
    (hw0 : W[i]? = some w0) (hi : i < jacs.length)
    (h : ∀ j, j < i → ∀ r mb w, idx[j]? = some r → stdAt mbs r = some mb → W[j]? = some w →
      jacs[j]? = some (rbd.CoMJacobian.new mb (List.replicate mb.nrBodies w))) :
    ∀ j, j < i + 1 → ∀ r mb w, idx[j]? = some r → stdAt mbs r = some mb → W[j]? = some w →
      (jacs.set i (rbd.CoMJacobian.new mb0 (List.replicate mb0.nrBodies w0)))[j]? =
        some (rbd.CoMJacobian.new mb (List.replicate mb.nrBodies w)) := by
  intro j hj r mb w hr hmb hw
  rcases Nat.lt_succ_iff_lt_or_eq.1 hj with hlt | rfl
  · rw [List.getElem?_set_ne (Nat.ne_of_gt hlt)]
    exact h j hlt r mb w hr hmb hw
  · rw [hr0] at hr
    cases hr
    rw [hmb0] at hmb
    cases hmb
    rw [hw0] at hw
    cases hw
    rw [List.getElem?_set_self hi]

theorem tasks.MultiCoMTask.new_spec (mem : tasks.MultiCoMTask) (mbs : List rbd.MultiBody)
    (robotIndexes : List Int) (com : Vector3d) (ms : List rbd.MultiBody)
    (hms : List.Forall₂ (fun r mb => stdAt mbs r = some mb) robotIndexes ms) :
    ∃ t, tasks.MultiCoMTask.new mem mbs robotIndexes com = some t ∧
      t.com_ = com ∧ t.robotIndexes_ = robotIndexes ∧
      t.robotsWeight_ = (ms.map fun mb =>
        tasks.MultiCoMTask.robotMass mb / (ms.map tasks.MultiCoMTask.robotMass).sum) ∧
      t.jac_.length = robotIndexes.length ∧ tasks.MultiCoMTask.BuiltFrom mbs t := by
  unfold tasks.MultiCoMTask.new
  simp only []
  rw [tasks.MultiCoMTask.computeRobotsWeight_spec _ mbs ms hms]
  simp only [Option.bind_eq_bind, Option.some_bind]
  obtain ⟨t, ht, h1, h2, h3, h4, h5, h6⟩ := foldlM_range_inv (tasks.MultiCoMTask.newStep mbs)
    (fun k t => t.com_ = com ∧ t.robotIndexes_ = robotIndexes ∧
      t.robotsWeight_ = (ms.map fun mb =>
        tasks.MultiCoMTask.robotMass mb / (ms.map tasks.MultiCoMTask.robotMass).sum) ∧
      t.jac_.length = robotIndexes.length ∧ t.jacMat_.length = robotIndexes.length ∧
      ∀ j, j < k → ∀ r mb w, t.robotIndexes_[j]? = some r → stdAt mbs r = some mb →
        t.robotsWeight_[j]? = some w →
        t.jac_[j]? = some (rbd.CoMJacobian.new mb (List.replicate mb.nrBodies w)))
    robotIndexes.length
    { com_ := com
      robotIndexes_ := robotIndexes
      robotsWeight_ := ms.map fun mb =>
        tasks.MultiCoMTask.robotMass mb / (ms.map tasks.MultiCoMTask.robotMass).sum
      jac_ := List.replicate robotIndexes.length rbd.CoMJacobian.empty
      eval_ := mem.eval_
      speed_ := mem.speed_
      normalAcc_ := mem.normalAcc_
      jacMat_ := List.ofFn fun i : Fin robotIndexes.length => mem.jacMat_.getD i [] }
    ⟨rfl, rfl, rfl, by simp, by simp, fun j hj => absurd hj (Nat.not_lt_zero j)⟩ (by
      rintro i t hi ⟨h1, h2, h3, h4, h5, h6⟩
      obtain ⟨r, mb, hr, -, hmb⟩ := tasks.MultiCoMTask.forall₂_lookup mbs _ _ hms i hi
      have hw : i < t.robotsWeight_.length := by
        rw [h3, List.length_map, ← hms.length_eq]; exact hi
      have hj : i < t.jac_.length := h4 ▸ hi
      have hm : i < t.jacMat_.length := h5 ▸ hi
      refine ⟨_, by
        simp only [tasks.MultiCoMTask.newStep, h2, hr, hmb, List.getElem?_eq_getElem hw,
          List.getElem?_eq_getElem hj, List.getElem?_eq_getElem hm, Option.bind_eq_bind,
          Option.some_bind]; rfl, ?_⟩
      refine ⟨h1, rfl, h3, by simp [h4], by simp [h5], ?_⟩
      exact tasks.MultiCoMTask.jac_set_built mbs _ _ _ i r mb _ hr hmb
        (List.getElem?_eq_getElem hw) hj (h2 ▸ h6))
  refine ⟨t, ht, h1, h2, h3, h4, by rw [h2]; exact h5, fun j r mb w hr hmb hw => ?_⟩
  have hj : j < robotIndexes.length := by
    rw [h2] at hr
    exact (List.getElem?_eq_some.1 hr).1
  exact h6 j hj r mb w hr hmb hw

theorem tasks.MultiCoMTask.updateInertialParameters_spec (s : tasks.MultiCoMTask)
    (mbs : List rbd.MultiBody) (ms : List rbd.MultiBody)
    (hms : List.Forall₂ (fun r mb => stdAt mbs r = some mb) s.robotIndexes_ ms)
    (hjac : s.jac_.length = s.robotIndexes_.length) :
    ∃ t, tasks.MultiCoMTask.updateInertialParameters s mbs = some t ∧
      t.com_ = s.com_ ∧ t.robotIndexes_ = s.robotIndexes_ ∧
      t.robotsWeight_ = (ms.map fun mb =>
        tasks.MultiCoMTask.robotMass mb / (ms.map tasks.MultiCoMTask.robotMass).sum) ∧
      t.jac_.length = s.robotIndexes_.length ∧ t.jacMat_ = s.jacMat_ ∧
      ∀ (j : Nat) r mb w, t.robotIndexes_[j]? = some r → stdAt mbs r = some mb →
        t.robotsWeight_[j]? = some w →
        t.jac_[j]? = some (rbd.CoMJacobian.new mb (List.replicate mb.nrBodies w)) := by
  unfold tasks.MultiCoMTask.updateInertialParameters
  rw [tasks.MultiCoMTask.computeRobotsWeight_spec _ mbs ms hms]
  simp only [Option.bind_eq_bind, Option.some_bind]
  obtain ⟨t, ht, h1, h2, h3, h4, h5, h6⟩ := foldlM_range_inv
    (tasks.MultiCoMTask.inertialStep mbs)
    (fun k t => t.com_ = s.com_ ∧ t.robotIndexes_ = s.robotIndexes_ ∧
      t.robotsWeight_ = (ms.map fun mb =>
        tasks.MultiCoMTask.robotMass mb / (ms.map tasks.MultiCoMTask.robotMass).sum) ∧
      t.jac_.length = s.robotIndexes_.length ∧ t.jacMat_ = s.jacMat_ ∧
      ∀ j, j < k → ∀ r mb w, t.robotIndexes_[j]? = some r → stdAt mbs r = some mb →
        t.robotsWeight_[j]? = some w →
        t.jac_[j]? = some (rbd.CoMJacobian.new mb (List.replicate mb.nrBodies w)))
    s.robotIndexes_.length
    { s with robotsWeight_ := ms.map fun mb =>
        tasks.MultiCoMTask.robotMass mb / (ms.map tasks.MultiCoMTask.robotMass).sum }
    ⟨rfl, rfl, rfl, hjac, rfl, fun j hj => absurd hj (Nat.not_lt_zero j)⟩ (by
      rintro i t hi ⟨h1, h2, h3, h4, h5, h6⟩
      obtain ⟨r, mb, hr, -, hmb⟩ := tasks.MultiCoMTask.forall₂_lookup mbs _ _ hms i hi
      have hw : i < t.robotsWeight_.length := by
        rw [h3, List.length_map, ← hms.length_eq]; exact hi
      have hj : i < t.jac_.length := h4 ▸ hi
      refine ⟨_, by
        simp only [tasks.MultiCoMTask.inertialStep, h2, hr, hmb, List.getElem?_eq_getElem hw,
          List.getElem?_eq_getElem hj, Option.bind_eq_bind, Option.some_bind]; rfl, ?_⟩
      refine ⟨h1, rfl, h3, by simp [h4], h5, ?_⟩
      exact tasks.MultiCoMTask.jac_set_built mbs _ _ _ i r mb _ hr hmb
        (List.getElem?_eq_getElem hw) hj (h2 ▸ h6))
  refine ⟨t, ht, h1, h2, h3, h4, h5, fun j r mb w hr hmb hw => ?_⟩
  have hj : j < s.robotIndexes_.length := by
    rw [h2] at hr
    exact (List.getElem?_eq_some.1 hr).1
  exact h6 j hj r mb w hr hmb hw

theorem tasks.MultiCoMTask.sum_div (l : List ℚ) (T : ℚ) :
    (l.map fun x => x / T).sum = l.sum / T := by
  induction l with
  | nil => simp
  | cons a l ih => simp [ih, add_div]

/-- C3: when every listed robot index is in range, with `ms` the listed robots in order,
the constructor of `MultiCoMTask` and `updateInertialParameters` return, and leave in
`robotsWeight_` one entry per element of `robotIndexes_`, in the same order, each the
total body mass of that robot divided by the total mass of all listed robots.  When that
total mass is not zero the weights sum to exactly one, and if moreover no body has a
negative mass each weight lies between zero and one. -/
theorem tasks.MultiCoMTask.robotsWeight_spec (mem s : tasks.MultiCoMTask)
    (mbs : List rbd.MultiBody) (robotIndexes : List Int) (com : Vector3d)
    (ms : List rbd.MultiBody)
    (hms : List.Forall₂ (fun r mb => stdAt mbs r = some mb) robotIndexes ms)
    (hs : s.robotIndexes_ = robotIndexes) (hjac : s.jac_.length = robotIndexes.length) :
    (∃ t, tasks.MultiCoMTask.new mem mbs robotIndexes com = some t ∧
      t.robotIndexes_ = robotIndexes ∧
      t.robotsWeight_ = ms.map fun mb =>
        (mb.bodies.map rbd.Body.mass).sum /
          (ms.map fun m => (m.bodies.map rbd.Body.mass).sum).sum) ∧
    (∃ t, tasks.MultiCoMTask.updateInertialParameters s mbs = some t ∧
      t.robotIndexes_ = robotIndexes ∧
      t.robotsWeight_ = ms.map fun mb =>
        (mb.bodies.map rbd.Body.mass).sum /
          (ms.map fun m => (m.bodies.map rbd.Body.mass).sum).sum) ∧
    (ms.map fun mb => (mb.bodies.map rbd.Body.mass).sum /
      (ms.map fun m => (m.bodies.map rbd.Body.mass).sum).sum).length = robotIndexes.length ∧
    ((ms.map fun m => (m.bodies.map rbd.Body.mass).sum).sum ≠ 0 →
      (ms.map fun mb => (mb.bodies.map rbd.Body.mass).sum /
        (ms.map fun m => (m.bodies.map rbd.Body.mass).sum).sum).sum = 1) ∧
    ((ms.map fun m => (m.bodies.map rbd.Body.mass).sum).sum ≠ 0 →
      (∀ mb ∈ ms, ∀ b ∈ mb.bodies, 0 ≤ b.mass) →
      ∀ w ∈ ms.map fun mb => (mb.bodies.map rbd.Body.mass).sum /
        (ms.map fun m => (m.bodies.map rbd.Body.mass).sum).sum, 0 ≤ w ∧ w ≤ 1) := by
  have hmass : tasks.MultiCoMTask.robotMass = fun m => (m.bodies.map rbd.Body.mass).sum :=
    funext tasks.MultiCoMTask.robotMass_eq_sum
  refine ⟨?_, ?_, ?_, ?_, ?_⟩
  · obtain ⟨t, h1, -, h2, h3, -, -⟩ :=
      tasks.MultiCoMTask.new_spec mem mbs robotIndexes com ms hms
    exact ⟨t, h1, h2, by rw [h3, hmass]⟩
  · subst hs
    obtain ⟨t, h1, -, h2, h3, -, -, -⟩ :=
      tasks.MultiCoMTask.updateInertialParameters_spec s mbs ms hms hjac
    exact ⟨t, h1, h2, by rw [h3, hmass]⟩
  · rw [List.length_map, hms.length_eq]
  · intro hT
    have h := tasks.MultiCoMTask.sum_div (ms.map fun m => (m.bodies.map rbd.Body.mass).sum)
      (ms.map fun m => (m.bodies.map rbd.Body.mass).sum).sum
    rw [List.map_map] at h
    rw [show (fun mb : rbd.MultiBody => (mb.bodies.map rbd.Body.mass).sum /
        (ms.map fun m => (m.bodies.map rbd.Body.mass).sum).sum) =
        (fun x => x / (ms.map fun m => (m.bodies.map rbd.Body.mass).sum).sum) ∘
          fun m => (m.bodies.map rbd.Body.mass).sum from rfl, h]
    exact div_self hT
  · intro hT hpos w hw
    obtain ⟨mb, hmb, rfl⟩ := List.mem_map.1 hw
    have hnn : ∀ x ∈ ms.map fun m : rbd.MultiBody => (m.bodies.map rbd.Body.mass).sum,
        (0 : ℚ) ≤ x := by
      intro x hx
      obtain ⟨m, hm, rfl⟩ := List.mem_map.1 hx
      exact List.sum_nonneg fun y hy => by
        obtain ⟨b, hb, rfl⟩ := List.mem_map.1 hy
        exact hpos m hm b hb
    have hle : (mb.bodies.map rbd.Body.mass).sum ≤
        (ms.map fun m => (m.bodies.map rbd.Body.mass).sum).sum :=
      List.single_le_sum hnn _ (List.mem_map.2 ⟨mb, hmb, rfl⟩)
    have h0 : 0 ≤ (mb.bodies.map rbd.Body.mass).sum :=
      hnn _ (List.mem_map.2 ⟨mb, hmb, rfl⟩)
    have hTpos : 0 < (ms.map fun m => (m.bodies.map rbd.Body.mass).sum).sum :=
      lt_of_le_of_ne (List.sum_nonneg hnn) (Ne.symm hT)
    exact ⟨div_nonneg h0 hTpos.le, (div_le_one hTpos).2 hle⟩

/-- The statement of `tasks.MultiCoMTask.robotsWeight_spec` on the sample arm (mass 4)
and slider (mass 8): the weights are one third and two thirds. -/
theorem tasks.MultiCoMTask.robotsWeight_spec_witness :
    List.Forall₂ (fun r mb => stdAt [sample.arm, sample.slider] r = some mb) [0, 1]
      [sample.arm, sample.slider] ∧
    sample.multiCoMTask.robotIndexes_ = [0, 1] ∧
    sample.multiCoMTask.jac_.length = [(0 : Int), 1].length ∧
    ∃ t, tasks.MultiCoMTask.new sample.multiCoMTask [sample.arm, sample.slider] [0, 1]
        ![1, 1, 1] = some t ∧ t.robotsWeight_ = [1 / 3, 2 / 3] :=
  ⟨.cons rfl (.cons rfl .nil), rfl, rfl,
    (tasks.MultiCoMTask.robotsWeight_spec sample.multiCoMTask sample.multiCoMTask
      [sample.arm, sample.slider] [0, 1] ![1, 1, 1] [sample.arm, sample.slider]
      (.cons rfl (.cons rfl .nil)) rfl rfl).1.imp
      fun _ h => ⟨h.1, h.2.2.trans (by norm_num [sample.arm, sample.slider])⟩⟩

theorem tasks.MultiCoMTask.updateWith_eval (R : rbd.Lib) (mbs : List rbd.MultiBody)
    (mbcs : List rbd.MultiBodyConfig)
    (comOf : Int → rbd.MultiBody → rbd.MultiBodyConfig → Option Vector3d)
    (accOf : rbd.CoMJacobian → Int → rbd.MultiBody → rbd.MultiBodyConfig → Option Vector3d)
    (s : tasks.MultiCoMTask) (cs : List Vector3d)
    (hw : s.robotsWeight_.length = s.robotIndexes_.length)
    (hjac : s.jac_.length = s.robotIndexes_.length)
    (hjacMat : s.jacMat_.length = s.robotIndexes_.length)
    (hlen : cs.length = s.robotIndexes_.length)
    (hcs : ∀ i, i < s.robotIndexes_.length → ∃ r mb mbc c, s.robotIndexes_[i]? = some r ∧
      stdAt mbs r = some mb ∧ stdAt mbcs r = some mbc ∧ comOf r mb mbc = some c ∧
      cs[i]? = some c ∧ ∀ jac, ∃ a, accOf jac r mb mbc = some a) :
    ∃ s1, tasks.MultiCoMTask.updateWith R mbs mbcs comOf accOf s = some s1 ∧
      s1.com_ = s.com_ ∧ s1.robotIndexes_ = s.robotIndexes_ ∧
      s1.robotsWeight_ = s.robotsWeight_ ∧ s1.jac_ = s.jac_ ∧
      s1.jacMat_.length = s.jacMat_.length ∧
      s1.eval_ = s.com_ - (List.zipWith (fun w c => w • c) s.robotsWeight_ cs).sum := by
  unfold tasks.MultiCoMTask.updateWith
  obtain ⟨s1, h1, hP⟩ := foldlM_range_inv (tasks.MultiCoMTask.updateStep R mbs mbcs comOf accOf)
    (fun k t => t.com_ = s.com_ ∧ t.robotIndexes_ = s.robotIndexes_ ∧
      t.robotsWeight_ = s.robotsWeight_ ∧ t.jac_ = s.jac_ ∧
      t.jacMat_.length = s.jacMat_.length ∧
      t.eval_ = s.com_ - ((List.zipWith (fun w c => w • c) s.robotsWeight_ cs).take k).sum)
    s.robotIndexes_.length { s with eval_ := s.com_, speed_ := 0, normalAcc_ := 0 }
    ⟨rfl, rfl, rfl, rfl, rfl, by simp⟩ (by
      rintro i t hi ⟨h1, h2, h3, h4, h5, h6⟩
      obtain ⟨r, mb, mbc, c, hr, hmb, hmbc, hc, hci, hacc⟩ := hcs i hi
      have hwi : i < s.robotsWeight_.length := hw ▸ hi
      have hji : i < s.jac_.length := hjac ▸ hi
      obtain ⟨a, ha⟩ := hacc s.jac_[i]
      have hmi : i < t.jacMat_.length := by rw [h5, hjacMat]; exact hi
      have hci' : i < cs.length := hlen ▸ hi
      have hcv : cs[i] = c := by
        rw [List.getElem?_eq_getElem hci'] at hci
        exact Option.some.inj hci
      refine ⟨_, by
        simp only [tasks.MultiCoMTask.updateStep, h2, h3, h4, hr, hmb, hmbc, hc, ha,
          List.getElem?_eq_getElem hwi, List.getElem?_eq_getElem hji,
          List.getElem?_eq_getElem hmi, Option.bind_eq_bind, Option.some_bind]; rfl, ?_⟩
      refine ⟨h1, rfl, rfl, rfl, by simp [h5], ?_⟩
      have hz : i < (List.zipWith (fun (w : ℚ) (c : Vector3d) => w • c)
          s.robotsWeight_ cs).length := by
        simp [hwi, hci']
      simp only []
      rw [h6, List.sum_take_succ _ i hz, List.getElem_zipWith, hcv, sub_sub])
  refine ⟨s1, h1, hP.1, hP.2.1, hP.2.2.1, hP.2.2.2.1, hP.2.2.2.2.1, ?_⟩
  rw [hP.2.2.2.2.2, List.take_of_length_le]
  simp [hw, hlen]

/-- C2: when the state is as the constructor leaves it (one weight, one Jacobian object
and one Jacobian matrix per listed robot) and every listed robot index is in range of
`mbs`, `mbcs`, `coms` and `normalAccB`, with `cs` the centres of mass `coms[r]` of the
listed robots in order, `MultiCoMTask::update(mbs, mbcs, coms, normalAccB)` returns, and
afterwards `eval()` is `com_` minus the sum over the listed robots of
`robotsWeight_[i] * coms[robotIndexes_[i]]`. -/
theorem tasks.MultiCoMTask.updateComs_eval (R : rbd.Lib) (s : tasks.MultiCoMTask)
    (mbs : List rbd.MultiBody) (mbcs : List rbd.MultiBodyConfig) (coms : List Vector3d)
    (normalAccB : List (List sva.MotionVecd)) (cs : List Vector3d)
    (hw : s.robotsWeight_.length = s.robotIndexes_.length)
    (hjac : s.jac_.length = s.robotIndexes_.length)
    (hjacMat : s.jacMat_.length = s.robotIndexes_.length)
    (hr : ∀ r ∈ s.robotIndexes_, 0 ≤ r ∧ r.toNat < mbs.length ∧ r.toNat < mbcs.length ∧
      r.toNat < normalAccB.length)
    (hcs : List.Forall₂ (fun r c => stdAt coms r = some c) s.robotIndexes_ cs) :
    ∃ s1, tasks.MultiCoMTask.updateComs R s mbs mbcs coms normalAccB = some s1 ∧
      s1.eval = s.com_ - (List.zipWith (fun w c => w • c) s.robotsWeight_ cs).sum := by
  obtain ⟨s1, h1, -, -, -, -, -, h2⟩ := tasks.MultiCoMTask.updateWith_eval R mbs mbcs
    (fun r _ _ => stdAt coms r)
    (fun jac r mb mbc => do
      let nB ← stdAt normalAccB r
      some (R.comNormalAccelerationB jac mb mbc nB)) s cs hw hjac hjacMat hcs.length_eq.symm (by
      intro i hi
      obtain ⟨r, c, hri, hci, hc⟩ := tasks.MultiCoMTask.forall₂_lookup coms _ _ hcs i hi
      have hmem : r ∈ s.robotIndexes_ := List.getElem?_mem hri
      obtain ⟨h0, hb1, hb2, hb3⟩ := hr r hmem
      obtain ⟨mb, hmb⟩ := stdAt_isSome mbs r h0 hb1
      obtain ⟨mbc, hmbc⟩ := stdAt_isSome mbcs r h0 hb2
      obtain ⟨nB, hnB⟩ := stdAt_isSome normalAccB r h0 hb3
      exact ⟨r, mb, mbc, c, hri, hmb, hmbc, hc, hci, fun jac =>
        ⟨R.comNormalAccelerationB jac mb mbc nB, by simp [hnB]⟩⟩)
  exact ⟨s1, h1, h2⟩

/-- The statement of `tasks.MultiCoMTask.updateComs_eval` on the sample arm and slider,
with centres of mass `(3, 0, 0)` and `(0, 3, 0)`. -/
theorem tasks.MultiCoMTask.updateComs_eval_witness :
    sample.multiCoMTask.robotsWeight_.length = sample.multiCoMTask.robotIndexes_.length ∧
    sample.multiCoMTask.jac_.length = sample.multiCoMTask.robotIndexes_.length ∧
    sample.multiCoMTask.jacMat_.length = sample.multiCoMTask.robotIndexes_.length ∧
    (∀ r ∈ sample.multiCoMTask.robotIndexes_, 0 ≤ r ∧
      r.toNat < [sample.arm, sample.slider].length ∧
      r.toNat < [sample.armConfig, sample.sliderConfig].length ∧
      r.toNat < [([] : List sva.MotionVecd), []].length) ∧
    List.Forall₂ (fun r c => stdAt [![3, 0, 0], ![0, 3, 0]] r = some c)
      sample.multiCoMTask.robotIndexes_ [![3, 0, 0], ![0, 3, 0]] ∧
    ∃ s1, tasks.MultiCoMTask.updateComs sample.rbdLib sample.multiCoMTask
        [sample.arm, sample.slider] [sample.armConfig, sample.sliderConfig]
        [![3, 0, 0], ![0, 3, 0]] [[], []] = some s1 ∧
      s1.eval = ![0, -1, 1] :=
  ⟨rfl, rfl, rfl, by decide, .cons rfl (.cons rfl .nil),
    (tasks.MultiCoMTask.updateComs_eval sample.rbdLib sample.multiCoMTask
      [sample.arm, sample.slider] [sample.armConfig, sample.sliderConfig]
      [![3, 0, 0], ![0, 3, 0]] [[], []] [![3, 0, 0], ![0, 3, 0]] rfl rfl rfl (by decide)
      (.cons rfl (.cons rfl .nil))).imp
      fun _ h => ⟨h.1, h.2.trans (by
        funext i
        fin_cases i <;> norm_num [sample.multiCoMTask])⟩⟩

theorem tasks.MultiCoMTask.updateStep_rel (R : rbd.Lib) (mbs : List rbd.MultiBody)
    (mbcs : List rbd.MultiBodyConfig)
    (comOf : Int → rbd.MultiBody → rbd.MultiBodyConfig → Option Vector3d)
    (accOf : rbd.CoMJacobian → Int → rbd.MultiBody → rbd.MultiBodyConfig → Option Vector3d)
    (a b : tasks.MultiCoMTask) (i : Nat)
    (hidx : b.robotIndexes_ = a.robotIndexes_) (hw : b.robotsWeight_ = a.robotsWeight_)
    (hjac : ∀ r mb w, a.robotIndexes_[i]? = some r → stdAt mbs r = some mb →
      a.robotsWeight_[i]? = some w → b.jac_[i]? = a.jac_[i]?)
    (heval : b.eval_ = a.eval_) (hspeed : b.speed_ = a.speed_)
    (hacc : b.normalAcc_ = a.normalAcc_) (hlen : b.jacMat_.length = a.jacMat_.length) :
    Option.Rel (fun a1 b1 => a1.com_ = a.com_ ∧ b1.com_ = b.com_ ∧
        a1.robotIndexes_ = a.robotIndexes_ ∧ b1.robotIndexes_ = a.robotIndexes_ ∧
        a1.robotsWeight_ = a.robotsWeight_ ∧ b1.robotsWeight_ = a.robotsWeight_ ∧
        a1.jac_ = a.jac_ ∧ b1.jac_ = b.jac_ ∧
        a1.eval_ = b1.eval_ ∧ a1.speed_ = b1.speed_ ∧ a1.normalAcc_ = b1.normalAcc_ ∧
        i < a.jacMat_.length ∧
        ∃ J, a1.jacMat_ = a.jacMat_.set i J ∧ b1.jacMat_ = b.jacMat_.set i J)
      (tasks.MultiCoMTask.updateStep R mbs mbcs comOf accOf a i)
      (tasks.MultiCoMTask.updateStep R mbs mbcs comOf accOf b i) := by
  simp only [tasks.MultiCoMTask.updateStep, hidx, hw, heval, hspeed, hacc]
  cases h1 : a.robotIndexes_[i]? with
  | none => exact Option.Rel.none
  | some r =>
    simp only [Option.bind_eq_bind, Option.some_bind]
    cases h2 : stdAt mbs r with
    | none => exact Option.Rel.none
    | some mb =>
      simp only [Option.some_bind]
      cases h3 : stdAt mbcs r with
      | none => exact Option.Rel.none
      | some mbc =>
        simp only [Option.some_bind]
        cases h4 : comOf r mb mbc with
        | none => exact Option.Rel.none
        | some c =>
          simp only [Option.some_bind]
          cases h5 : a.robotsWeight_[i]? with
          | none => exact Option.Rel.none
          | some w =>
            simp only [Option.some_bind]
            rw [hjac r mb w h1 h2 h5]
            cases h6 : a.jac_[i]? with
            | none => exact Option.Rel.none
            | some jac =>
              simp only [Option.some_bind]
              cases h7 : accOf jac r mb mbc with
              | none => exact Option.Rel.none
              | some acc =>
                simp only [Option.some_bind]
                by_cases hi : i < a.jacMat_.length
                · have hi2 : i < b.jacMat_.length := hlen ▸ hi
                  simp only [Option.some_bind,
                    List.getElem?_eq_getElem hi, List.getElem?_eq_getElem hi2]
                  exact Option.Rel.some ⟨rfl, rfl, rfl, rfl, rfl, rfl, rfl, rfl, rfl, rfl, rfl,
                    hi, _, rfl, rfl⟩
                · have hi2 : ¬ i < b.jacMat_.length := hlen ▸ hi
                  simp only [Option.some_bind,
                    List.getElem?_eq_none (Nat.le_of_not_lt hi),
                    List.getElem?_eq_none (Nat.le_of_not_lt hi2), Option.none_bind]
                  exact Option.Rel.none

theorem tasks.MultiCoMTask.updateWith_rel (R : rbd.Lib) (mbs : List rbd.MultiBody)
    (mbcs : List rbd.MultiBodyConfig)
    (comOf : Int → rbd.MultiBody → rbd.MultiBodyConfig → Option Vector3d)
    (accOf : rbd.CoMJacobian → Int → rbd.MultiBody → rbd.MultiBodyConfig → Option Vector3d)
    (s t : tasks.MultiCoMTask)
    (hcom : t.com_ = s.com_) (hidx : t.robotIndexes_ = s.robotIndexes_)
    (hw : t.robotsWeight_ = s.robotsWeight_)
    (hjac : ∀ (i : Nat) r mb w, s.robotIndexes_[i]? = some r → stdAt mbs r = some mb →
      s.robotsWeight_[i]? = some w → t.jac_[i]? = s.jac_[i]?)
    (hlen : t.jacMat_.length = s.jacMat_.length) :
    Option.Rel (fun s1 t1 =>
        s1.com_ = s.com_ ∧ t1.com_ = t.com_ ∧
        s1.robotIndexes_ = s.robotIndexes_ ∧ t1.robotIndexes_ = s.robotIndexes_ ∧
        s1.robotsWeight_ = s.robotsWeight_ ∧ t1.robotsWeight_ = s.robotsWeight_ ∧
        s1.jac_ = s.jac_ ∧ t1.jac_ = t.jac_ ∧
        s1.eval_ = t1.eval_ ∧ s1.speed_ = t1.speed_ ∧ s1.normalAcc_ = t1.normalAcc_ ∧
        s1.jacMat_.length = s.jacMat_.length ∧ t1.jacMat_.length = t.jacMat_.length ∧
        (∀ j, j < s.robotIndexes_.length → s1.jacMat_[j]? = t1.jacMat_[j]?) ∧
        (∀ j, s.robotIndexes_.length ≤ j →
          s1.jacMat_[j]? = s.jacMat_[j]? ∧ t1.jacMat_[j]? = t.jacMat_[j]?))
      (tasks.MultiCoMTask.updateWith R mbs mbcs comOf accOf s)
      (tasks.MultiCoMTask.updateWith R mbs mbcs comOf accOf t) := by
  unfold tasks.MultiCoMTask.updateWith
  rw [hidx]
  refine foldlM_range_rel (tasks.MultiCoMTask.updateStep R mbs mbcs comOf accOf)
    (tasks.MultiCoMTask.updateStep R mbs mbcs comOf accOf)
    (fun (k : Nat) (a b : tasks.MultiCoMTask) =>
        a.com_ = s.com_ ∧ b.com_ = t.com_ ∧
        a.robotIndexes_ = s.robotIndexes_ ∧ b.robotIndexes_ = s.robotIndexes_ ∧
        a.robotsWeight_ = s.robotsWeight_ ∧ b.robotsWeight_ = s.robotsWeight_ ∧
        a.jac_ = s.jac_ ∧ b.jac_ = t.jac_ ∧
        a.eval_ = b.eval_ ∧ a.speed_ = b.speed_ ∧ a.normalAcc_ = b.normalAcc_ ∧
        a.jacMat_.length = s.jacMat_.length ∧ b.jacMat_.length = t.jacMat_.length ∧
        (∀ j, j < k → a.jacMat_[j]? = b.jacMat_[j]?) ∧
        (∀ j, k ≤ j → a.jacMat_[j]? = s.jacMat_[j]? ∧ b.jacMat_[j]? = t.jacMat_[j]?))
    s.robotIndexes_.length _ _
    ⟨rfl, rfl, rfl, rfl, rfl, hw, rfl, rfl, hcom.symm, rfl, rfl, rfl, rfl,
      fun j hj => absurd hj (Nat.not_lt_zero j), fun j _ => ⟨rfl, rfl⟩⟩ ?_
  rintro i a b hi ⟨a1, a2, a3, a4, a5, a6, a7, a8, a9, a10, a11, a12, a13, a14, a15⟩
  have hstep := tasks.MultiCoMTask.updateStep_rel R mbs mbcs comOf accOf a b i
    (a4.trans a3.symm) (a6.trans a5.symm)
    (fun r mb w h1 h2 h3 => by
      rw [a7, a8]
      exact hjac i r mb w (a3 ▸ h1) h2 (a5 ▸ h3))
    a9.symm a10.symm a11.symm (by rw [a12, a13, hlen])
  generalize tasks.MultiCoMTask.updateStep R mbs mbcs comOf accOf a i = x at hstep
  generalize tasks.MultiCoMTask.updateStep R mbs mbcs comOf accOf b i = y at hstep
  cases hstep with
  | none => exact Option.Rel.none
  | some h =>
    obtain ⟨b1, b2, b3, b4, b5, b6, b7, b8, b9, b10, b11, b12, J, b13, b14⟩ := h
    have hib : i < b.jacMat_.length := by rw [a13, hlen, ← a12]; exact b12
    refine Option.Rel.some ⟨b1.trans a1, b2.trans a2, b3.trans a3, b4.trans a3,
      b5.trans a5, b6.trans a5, b7.trans a7, b8.trans a8, b9, b10, b11,
      by rw [b13, List.length_set, a12], by rw [b14, List.length_set, a13], ?_, ?_⟩
    · intro j hj
      rw [b13, b14]
      rcases Nat.lt_succ_iff_lt_or_eq.1 hj with hlt | rfl
      · rw [List.getElem?_set_ne (Nat.ne_of_gt hlt), List.getElem?_set_ne (Nat.ne_of_gt hlt)]
        exact a14 j hlt
      · rw [List.getElem?_set_self b12, List.getElem?_set_self hib]
    · intro j hj
      have hne : i ≠ j := Nat.ne_of_lt hj
      rw [b13, b14, List.getElem?_set_ne hne, List.getElem?_set_ne hne]
      exact a15 j (Nat.le_of_succ_le hj)

theorem tasks.MultiCoMTask.updateWith_no_history (R : rbd.Lib) (mbs : List rbd.MultiBody)
    (mbcs : List rbd.MultiBodyConfig)
    (comOf : Int → rbd.MultiBody → rbd.MultiBodyConfig → Option Vector3d)
    (accOf : rbd.CoMJacobian → Int → rbd.MultiBody → rbd.MultiBodyConfig → Option Vector3d)
    (s t : tasks.MultiCoMTask)
    (hcom : s.com_ = t.com_) (hidx : s.robotIndexes_ = t.robotIndexes_)
    (hw : s.robotsWeight_ = t.robotsWeight_)
    (hs : tasks.MultiCoMTask.BuiltFrom mbs s) (ht : tasks.MultiCoMTask.BuiltFrom mbs t) :
    (tasks.MultiCoMTask.updateWith R mbs mbcs comOf accOf s).map
        (fun u => (u.eval_, u.speed_, u.normalAcc_, u.jacMat_)) =
      (tasks.MultiCoMTask.updateWith R mbs mbcs comOf accOf t).map
        (fun u => (u.eval_, u.speed_, u.normalAcc_, u.jacMat_)) := by
  have h := tasks.MultiCoMTask.updateWith_rel R mbs mbcs comOf accOf s t hcom.symm hidx.symm
    hw.symm (fun i r mb w h1 h2 h3 => by
      rw [hs.2 i r mb w h1 h2 h3, ht.2 i r mb w (hidx ▸ h1) h2 (hw ▸ h3)])
    (by rw [hs.1, ht.1, hidx])
  generalize tasks.MultiCoMTask.updateWith R mbs mbcs comOf accOf s = x at h
  generalize tasks.MultiCoMTask.updateWith R mbs mbcs comOf accOf t = y at h
  cases h with
  | none => rfl
  | some h =>
    obtain ⟨-, -, -, -, -, -, -, -, h1, h2, h3, h4, h5, h6, h7⟩ := h
    simp only [Option.map_some', Option.some.injEq, Prod.mk.injEq]
    refine ⟨h1, h2, h3, List.ext_getElem? fun j => ?_⟩
    by_cases hj : j < s.robotIndexes_.length
    · exact h6 j hj
    · have hj1 := Nat.le_of_not_lt hj
      rw [List.getElem?_eq_none (by rw [h4, hs.1]; exact hj1),
        List.getElem?_eq_none (by rw [h5, ht.1, ← hidx]; exact hj1)]

theorem tasks.MultiCoMTask.updateWith_idempotent (R : rbd.Lib) (mbs : List rbd.MultiBody)
    (mbcs : List rbd.MultiBodyConfig)
    (comOf : Int → rbd.MultiBody → rbd.MultiBodyConfig → Option Vector3d)
    (accOf : rbd.CoMJacobian → Int → rbd.MultiBody → rbd.MultiBodyConfig → Option Vector3d)
    (s : tasks.MultiCoMTask) :
    (tasks.MultiCoMTask.updateWith R mbs mbcs comOf accOf s).bind
        (tasks.MultiCoMTask.updateWith R mbs mbcs comOf accOf) =
      tasks.MultiCoMTask.updateWith R mbs mbcs comOf accOf s := by
  have h0 := tasks.MultiCoMTask.updateWith_rel R mbs mbcs comOf accOf s s rfl rfl rfl
    (fun _ _ _ _ _ _ _ => rfl) rfl
  cases hu : tasks.MultiCoMTask.updateWith R mbs mbcs comOf accOf s with
  | none => rfl
  | some s1 =>
    rw [hu] at h0
    cases h0 with
    | some h0 =>
      obtain ⟨c1, -, c2, -, c3, -, c4, -, -, -, -, c5, -, -, -⟩ := h0
      have h := tasks.MultiCoMTask.updateWith_rel R mbs mbcs comOf accOf s s1 c1 c2 c3
        (fun _ _ _ _ _ _ _ => by rw [c4]) c5
      rw [hu] at h
      simp only [Option.some_bind]
      generalize tasks.MultiCoMTask.updateWith R mbs mbcs comOf accOf s1 = y at h
      cases h with
      | some h =>
        obtain ⟨-, d1, -, d2, -, d3, -, d4, d5, d6, d7, d8, d9, d10, d11⟩ := h
        rename_i t1
        have hm : t1.jacMat_ = s1.jacMat_ := List.ext_getElem? fun j => by
          by_cases hj : j < s.robotIndexes_.length
          · exact (d10 j hj).symm
          · exact (d11 j (Nat.le_of_not_lt hj)).2
        cases s1
        cases t1
        simp only [tasks.MultiCoMTask.mk.injEq, Option.some.injEq] at *
        exact ⟨d1, d2.trans c2.symm, d3.trans c3.symm, d4, d5.symm, d6.symm, d7.symm, hm⟩

/-- C7: `MultiCoMTask::update` retains no history.  For two states built from the robots
`mbs` that have the same `com_`, `robotIndexes_` and `robotsWeight_`, each of the three
overloads of `update`, called with the same arguments, either fails on both or returns on
both with the same `eval_`, `speed_`, `normalAcc_` and per-robot Jacobians `jacMat_`,
whatever these members held before.  In every state, calling an overload a second time
with the same arguments changes nothing. -/
theorem tasks.MultiCoMTask.update_no_history (R : rbd.Lib) (s t : tasks.MultiCoMTask)
    (mbs : List rbd.MultiBody) (mbcs : List rbd.MultiBodyConfig) (coms : List Vector3d)
    (normalAccB : List (List sva.MotionVecd))
    (hcom : s.com_ = t.com_) (hidx : s.robotIndexes_ = t.robotIndexes_)
    (hw : s.robotsWeight_ = t.robotsWeight_)
    (hs : tasks.MultiCoMTask.BuiltFrom mbs s) (ht : tasks.MultiCoMTask.BuiltFrom mbs t) :
    ((tasks.MultiCoMTask.update R s mbs mbcs).map
        (fun u => (u.eval_, u.speed_, u.normalAcc_, u.jacMat_)) =
      (tasks.MultiCoMTask.update R t mbs mbcs).map
        (fun u => (u.eval_, u.speed_, u.normalAcc_, u.jacMat_)) ∧
     (tasks.MultiCoMTask.updateB R s mbs mbcs normalAccB).map
        (fun u => (u.eval_, u.speed_, u.normalAcc_, u.jacMat_)) =
      (tasks.MultiCoMTask.updateB R t mbs mbcs normalAccB).map
        (fun u => (u.eval_, u.speed_, u.normalAcc_, u.jacMat_)) ∧
     (tasks.MultiCoMTask.updateComs R s mbs mbcs coms normalAccB).map
        (fun u => (u.eval_, u.speed_, u.normalAcc_, u.jacMat_)) =
      (tasks.MultiCoMTask.updateComs R t mbs mbcs coms normalAccB).map
        (fun u => (u.eval_, u.speed_, u.normalAcc_, u.jacMat_))) ∧
    ((tasks.MultiCoMTask.update R s mbs mbcs).bind
        (fun u => tasks.MultiCoMTask.update R u mbs mbcs) =
      tasks.MultiCoMTask.update R s mbs mbcs ∧
     (tasks.MultiCoMTask.updateB R s mbs mbcs normalAccB).bind
        (fun u => tasks.MultiCoMTask.updateB R u mbs mbcs normalAccB) =
      tasks.MultiCoMTask.updateB R s mbs mbcs normalAccB ∧
     (tasks.MultiCoMTask.updateComs R s mbs mbcs coms normalAccB).bind
        (fun u => tasks.MultiCoMTask.updateComs R u mbs mbcs coms normalAccB) =
      tasks.MultiCoMTask.updateComs R s mbs mbcs coms normalAccB) :=
  ⟨⟨tasks.MultiCoMTask.updateWith_no_history R mbs mbcs _ _ s t hcom hidx hw hs ht,
      tasks.MultiCoMTask.updateWith_no_history R mbs mbcs _ _ s t hcom hidx hw hs ht,
      tasks.MultiCoMTask.updateWith_no_history R mbs mbcs _ _ s t hcom hidx hw hs ht⟩,
    ⟨tasks.MultiCoMTask.updateWith_idempotent R mbs mbcs _ _ s,
      tasks.MultiCoMTask.updateWith_idempotent R mbs mbcs _ _ s,
      tasks.MultiCoMTask.updateWith_idempotent R mbs mbcs _ _ s⟩⟩

theorem sample.multiCoMTask_builtFrom (e sp na : Vector3d) (m : List Matrix3Xd)
    (hm : m.length = 2) :
    tasks.MultiCoMTask.BuiltFrom [sample.arm, sample.slider]
      { sample.multiCoMTask with eval_ := e, speed_ := sp, normalAcc_ := na, jacMat_ := m } := by
  refine ⟨hm, ?_⟩
  intro i r mb w h1 h2 h3
  match i with
  | 0 =>
    simp [sample.multiCoMTask] at h1 h3
    subst h1 h3
    simp [stdAt] at h2
    subst h2
    simp [sample.multiCoMTask, sample.arm, rbd.MultiBody.nrBodies]
  | 1 =>
    simp [sample.multiCoMTask] at h1 h3
    subst h1 h3
    simp [stdAt] at h2
    subst h2
    simp [sample.multiCoMTask, sample.slider, rbd.MultiBody.nrBodies]
  | n + 2 => simp [sample.multiCoMTask] at h1

/-- The statement of `tasks.MultiCoMTask.update_no_history` on the sample task, fresh and
after use. -/
theorem tasks.MultiCoMTask.update_no_history_witness :
    sample.multiCoMTask.com_ = sample.multiCoMTaskUsed.com_ ∧
    sample.multiCoMTask.robotIndexes_ = sample.multiCoMTaskUsed.robotIndexes_ ∧
    sample.multiCoMTask.robotsWeight_ = sample.multiCoMTaskUsed.robotsWeight_ ∧
    tasks.MultiCoMTask.BuiltFrom [sample.arm, sample.slider] sample.multiCoMTask ∧
    tasks.MultiCoMTask.BuiltFrom [sample.arm, sample.slider] sample.multiCoMTaskUsed ∧
    (tasks.MultiCoMTask.update sample.rbdLib sample.multiCoMTask [sample.arm, sample.slider]
        [sample.armConfig, sample.sliderConfig]).map
        (fun u => (u.eval_, u.speed_, u.normalAcc_, u.jacMat_)) =
      (tasks.MultiCoMTask.update sample.rbdLib sample.multiCoMTaskUsed
        [sample.arm, sample.slider] [sample.armConfig, sample.sliderConfig]).map
        (fun u => (u.eval_, u.speed_, u.normalAcc_, u.jacMat_)) :=
  ⟨rfl, rfl, rfl, sample.multiCoMTask_builtFrom _ _ _ _ rfl,
    sample.multiCoMTask_builtFrom _ _ _ _ rfl,
    (tasks.MultiCoMTask.update_no_history sample.rbdLib sample.multiCoMTask
      sample.multiCoMTaskUsed [sample.arm, sample.slider]
      [sample.armConfig, sample.sliderConfig] [] [] rfl rfl rfl
      (sample.multiCoMTask_builtFrom _ _ _ _ rfl)
      (sample.multiCoMTask_builtFrom _ _ _ _ rfl)).1.1⟩

/-! ### MultiRobotTransformTask -/

theorem tasks.MultiRobotTransformTask.correctLoop_append (err : sva.MotionVecd)
    (is js : List Nat) (J : Matrix6Xd) :
    tasks.MultiRobotTransformTask.correctLoop err (is ++ js) J =
      (tasks.MultiRobotTransformTask.correctLoop err is J).bind
        (tasks.MultiRobotTransformTask.correctLoop err js) := by
  induction is generalizing J with
  | nil => simp [tasks.MultiRobotTransformTask.correctLoop]
  | cons i is ih =>
    simp only [List.cons_append, tasks.MultiRobotTransformTask.correctLoop,
      Option.bind_eq_bind]
    cases J[i]? with
    | none => simp
    | some c => simp [ih]

theorem tasks.MultiRobotTransformTask.correctLoop_range (err : sva.MotionVecd) (k : Nat)
    (J : Matrix6Xd) (hk : k ≤ J.length) :
    ∃ J1, tasks.MultiRobotTransformTask.correctLoop err (List.range k) J = some J1 ∧
      J1.length = J.length ∧
      ∀ j, J1[j]? = if j < k then (J[j]?).map (tasks.MultiRobotTransformTask.correctCol err)
        else J[j]? := by
  induction k with
  | zero => exact ⟨J, by simp [tasks.MultiRobotTransformTask.correctLoop], rfl, by simp⟩
  | succ k ih =>
    obtain ⟨Jk, h1, h2, h3⟩ := ih (Nat.le_of_succ_le hk)
    have hkJ : k < J.length := hk
    have hkk : Jk[k]? = some J[k] := by
      rw [h3 k, if_neg (Nat.lt_irrefl k), List.getElem?_eq_getElem hkJ]
    refine ⟨Jk.set k (tasks.MultiRobotTransformTask.correctCol err J[k]), ?_, by simp [h2], ?_⟩
    · rw [List.range_succ, tasks.MultiRobotTransformTask.correctLoop_append, h1]
      simp [tasks.MultiRobotTransformTask.correctLoop, hkk]
    · intro j
      rcases Nat.lt_trichotomy j k with hlt | rfl | hgt
      · rw [List.getElem?_set_ne (Nat.ne_of_gt hlt), h3 j, if_pos hlt,
          if_pos (Nat.lt_succ_of_lt hlt)]
      · rw [List.getElem?_set_self (h2 ▸ hkJ), if_pos (Nat.lt_succ_self j),
          List.getElem?_eq_getElem hkJ]
        rfl
      · rw [List.getElem?_set_ne (Nat.ne_of_lt hgt), h3 j, if_neg (Nat.lt_asymm hgt),
          if_neg (by omega)]

theorem tasks.MultiRobotTransformTask.correctLoop_all (err : sva.MotionVecd) (J : Matrix6Xd) :
    tasks.MultiRobotTransformTask.correctLoop err (List.range J.length) J =
      some (J.map (tasks.MultiRobotTransformTask.correctCol err)) := by
  obtain ⟨J1, h1, h2, h3⟩ :=
    tasks.MultiRobotTransformTask.correctLoop_range err J.length J (Nat.le_refl _)
  rw [h1]
  congr 1
  refine List.ext_getElem? fun j => ?_
  rw [h3 j, List.getElem?_map]
  by_cases hj : j < J.length
  · rw [if_pos hj]
  · rw [if_neg hj, List.getElem?_eq_none (Nat.le_of_not_lt hj)]
    rfl

/-- C6: when the robot and body indexes are in range, the task holds its two full
Jacobians and the body Jacobian of robot 1 has `dof()` columns,
`MultiRobotTransformTask::update` returns, and afterwards `jac(1)` is the full-layout
mapping of the negated body Jacobian of robot 2,
`-jacobian(mb2, mbc2, E_r2s_r1s * X_0_r2s)`, while `jac(0)` is the full-layout mapping of
the body Jacobian of robot 1, `jacobian(mb1, mbc1, X_0_r1s)`, taken with positive sign,
each column `c` replaced by `c - err_r1s.cross(MotionVecd(c.head<3>(), 0)).vector()`. -/
theorem tasks.MultiRobotTransformTask.update_jac (S : sva.Lib) (R : rbd.Lib)
    (s : tasks.MultiRobotTransformTask) (mbs : List rbd.MultiBody)
    (mbcs : List rbd.MultiBodyConfig) (normalAccB : List (List sva.MotionVecd))
    (mb1 mb2 : rbd.MultiBody) (mbc1 mbc2 : rbd.MultiBodyConfig)
    (X_0_r1b X_0_r2b : sva.PTransformd) (nB1 nB2 : List sva.MotionVecd)
    (full0 full1 : Matrix6Xd)
    (hmb1 : stdAt mbs s.r1Index_ = some mb1) (hmb2 : stdAt mbs s.r2Index_ = some mb2)
    (hmbc1 : stdAt mbcs s.r1Index_ = some mbc1) (hmbc2 : stdAt mbcs s.r2Index_ = some mbc2)
    (hX1 : stdAt mbc1.bodyPosW s.r1BodyIndex_ = some X_0_r1b)
    (hX2 : stdAt mbc2.bodyPosW s.r2BodyIndex_ = some X_0_r2b)
    (hn1 : stdAt normalAccB s.r1Index_ = some nB1)
    (hn2 : stdAt normalAccB s.r2Index_ = some nB2)
    (hfull : s.fullJacMat_ = [full0, full1])
    (hdof : (R.jacobianAt s.jacR1B_ mb1 mbc1 (s.X_r1b_r1s_ * X_0_r1b)).length =
      s.jacR1B_.dof) :
    ∃ s1, tasks.MultiRobotTransformTask.update S R s mbs mbcs normalAccB = some s1 ∧
      s1.jac 1 = some (R.fullJacobian 6 s.jacR2B_ mb2
        ((R.jacobianAt s.jacR2B_ mb2 mbc2
          (sva.PTransformd.ofRotation
            ((s.X_r2b_r2s_ * X_0_r2b) * (s.X_r1b_r1s_ * X_0_r1b).inv).rotation.transpose *
            (s.X_r2b_r2s_ * X_0_r2b))).map fun c => -c) full1) ∧
      s1.jac 0 = some (R.fullJacobian 6 s.jacR1B_ mb1
        ((R.jacobianAt s.jacR1B_ mb1 mbc1 (s.X_r1b_r1s_ * X_0_r1b)).map
          fun c => c - ((S.transformVelocity
            ((s.X_r2b_r2s_ * X_0_r2b) * (s.X_r1b_r1s_ * X_0_r1b).inv)).cross
              ⟨![c 0, c 1, c 2], 0⟩).vector) full0) := by
  have hloop := tasks.MultiRobotTransformTask.correctLoop_all
    (S.transformVelocity ((s.X_r2b_r2s_ * X_0_r2b) * (s.X_r1b_r1s_ * X_0_r1b).inv))
    (R.jacobianAt s.jacR1B_ mb1 mbc1 (s.X_r1b_r1s_ * X_0_r1b))
  rw [hdof] at hloop
  refine ⟨_, by
    simp only [tasks.MultiRobotTransformTask.update, hmb1, hmb2, hmbc1, hmbc2, hX1, hX2, hn1,
      hn2, hfull, hloop, Option.bind_eq_bind, Option.some_bind, List.getElem?_cons_zero,
      List.getElem?_cons_succ]
    rfl, ?_, ?_⟩
  · simp [tasks.MultiRobotTransformTask.jac, stdAt]
  · simp [tasks.MultiRobotTransformTask.jac, stdAt]
    rfl

/-- The statement of `tasks.MultiRobotTransformTask.update_jac` on the sample arm and
slider: the block of the slider, listed second, is the negated Jacobian. -/
theorem tasks.MultiRobotTransformTask.update_jac_witness :
    stdAt [sample.arm, sample.slider] sample.multiRobotTransformTask.r1Index_ =
      some sample.arm ∧
    stdAt [sample.arm, sample.slider] sample.multiRobotTransformTask.r2Index_ =
      some sample.slider ∧
    stdAt [sample.armConfig, sample.sliderConfig] sample.multiRobotTransformTask.r1Index_ =
      some sample.armConfig ∧
    stdAt [sample.armConfig, sample.sliderConfig] sample.multiRobotTransformTask.r2Index_ =
      some sample.sliderConfig ∧
    stdAt sample.armConfig.bodyPosW sample.multiRobotTransformTask.r1BodyIndex_ =
      some sample.shift ∧
    stdAt sample.sliderConfig.bodyPosW sample.multiRobotTransformTask.r2BodyIndex_ =
      some sample.shift ∧
    stdAt [([] : List sva.MotionVecd), []] sample.multiRobotTransformTask.r1Index_ = some [] ∧
    stdAt [([] : List sva.MotionVecd), []] sample.multiRobotTransformTask.r2Index_ = some [] ∧
    sample.multiRobotTransformTask.fullJacMat_ = [List.replicate 4 0, List.replicate 1 0] ∧
    (sample.rbdLib.jacobianAt sample.multiRobotTransformTask.jacR1B_ sample.arm
      sample.armConfig (sample.multiRobotTransformTask.X_r1b_r1s_ * sample.shift)).length =
      sample.multiRobotTransformTask.jacR1B_.dof ∧
    ∃ s1, tasks.MultiRobotTransformTask.update sample.svaLib sample.rbdLib
        sample.multiRobotTransformTask [sample.arm, sample.slider]
        [sample.armConfig, sample.sliderConfig] [[], []] = some s1 ∧
      s1.jac 1 = some [-1] :=
  ⟨rfl, rfl, rfl, rfl, rfl, rfl, rfl, rfl, rfl, rfl,
    (tasks.MultiRobotTransformTask.update_jac sample.svaLib sample.rbdLib
      sample.multiRobotTransformTask [sample.arm, sample.slider]
      [sample.armConfig, sample.sliderConfig] [[], []] sample.arm sample.slider
      sample.armConfig sample.sliderConfig sample.shift sample.shift [] []
      (List.replicate 4 0) (List.replicate 1 0) rfl rfl rfl rfl rfl rfl rfl rfl rfl rfl).imp
      fun _ h => ⟨h.1, h.2.1.trans (by
        simp [sample.rbdLib, sample.multiRobotTransformTask])⟩⟩

/-! ### TargetObjectiveTask, LinVelocityTask, PositionTask, JointGains -/

/-- C19: for every integer `i`, `iter(i)` makes `iter()` return `i` and changes no other
member, so `nrIter()`, `objDot()`, `dimWeight()`, `phi()` and `psi()` return what they
returned before; for every vector `o`, `objDot(o)` makes `objDot()` return `o` and changes
no other member. -/
theorem tasks.qp.TargetObjectiveTask.setIter_setObjDot_frame
    (s : tasks.qp.TargetObjectiveTask) (i : Int) (o : VectorXd) :
    ((s.setIter i).iter = i ∧ s.setIter i = { s with iter_ := i } ∧
      (s.setIter i).nrIter = s.nrIter ∧ (s.setIter i).objDot = s.objDot ∧
      (s.setIter i).dimWeight = s.dimWeight ∧ (s.setIter i).phi = s.phi ∧
      (s.setIter i).psi = s.psi) ∧
    ((s.setObjDot o).objDot = o ∧ s.setObjDot o = { s with objDot_ := o } ∧
      (s.setObjDot o).iter = s.iter ∧ (s.setObjDot o).nrIter = s.nrIter ∧
      (s.setObjDot o).dimWeight = s.dimWeight ∧ (s.setObjDot o).phi = s.phi ∧
      (s.setObjDot o).psi = s.psi) :=
  ⟨⟨rfl, rfl, rfl, rfl, rfl, rfl, rfl⟩, ⟨rfl, rfl, rfl, rfl, rfl, rfl, rfl⟩⟩

/-- C12, as stated, fails: on the sample task `nrIter()` returns 10, and after the public
call `nrIter(5)`, which is neither a construction nor `duration(d)`, it returns 5. -/
theorem tasks.qp.TargetObjectiveTask.nrIter_not_fixed :
    sample.targetObjectiveTask.nrIter = 10 ∧
    (sample.targetObjectiveTask.setNrIter 5).nrIter = 5 :=
  ⟨rfl, rfl⟩

/-- C12, amended: the public setter `nrIter(i)` makes `nrIter()` return `i`; the other
methods of `QPTasks.h` that assign a member, `iter(i)`, `objDot(o)` and `dimWeight(o)`,
leave the value returned by `nrIter()` unchanged. -/
theorem tasks.qp.TargetObjectiveTask.nrIter_after_op (s : tasks.qp.TargetObjectiveTask)
    (op : tasks.qp.TargetObjectiveTask.Op) :
    (tasks.qp.TargetObjectiveTask.Op.apply s op).nrIter =
      match op with
      | .nrIter i => i
      | _ => s.nrIter := by
  cases op <;> rfl

/-- C13: in every state of a `LinVelocityTask` reached through the constructor,
`velocity(v)`, `bodyPoint(p)`, both overloads of `update` and `updateDot`, `speed()` is the
zero vector. -/
theorem tasks.LinVelocityTask.speed_zero (R : rbd.Lib) (s : tasks.LinVelocityTask)
    (h : tasks.LinVelocityTask.Reachable R s) : s.speed = 0 := by
  induction h with
  | new mem mb bodyId v bodyPoint s h =>
    simp only [tasks.LinVelocityTask.new, Option.bind_eq_bind] at h
    cases hb : mb.bodyIndexById bodyId with
    | none => simp [hb] at h
    | some b =>
      simp only [hb, Option.some_bind, Option.some.injEq] at h
      rw [← h]
      rfl
  | velocity s v _ ih => exact ih
  | bodyPoint s p _ ih => exact ih
  | update s mb mbc _ ih => exact ih
  | updateB s mb mbc normalAccB _ ih => exact ih
  | updateDot s mb mbc _ ih => exact ih

/-- The statement of `tasks.LinVelocityTask.speed_zero` on the sample task, after
`bodyPoint((0, 0, 1))`, an `update` and an `updateDot` on the sample arm. -/
theorem tasks.LinVelocityTask.speed_zero_witness :
    tasks.LinVelocityTask.Reachable sample.rbdLib
      (((sample.linVelocityTask.setBodyPoint ![0, 0, 1]).update sample.rbdLib sample.arm
        sample.armConfig).updateDot sample.rbdLib sample.arm sample.armConfig) ∧
    (((sample.linVelocityTask.setBodyPoint ![0, 0, 1]).update sample.rbdLib sample.arm
      sample.armConfig).updateDot sample.rbdLib sample.arm sample.armConfig).speed = 0 :=
  have hnew : tasks.LinVelocityTask.new sample.rbdLib sample.linVelocityTask sample.arm 2
      ![1, 0, 0] 0 = some sample.linVelocityTask := by
    simp [tasks.LinVelocityTask.new, rbd.MultiBody.bodyIndexById, sample.arm,
      sample.linVelocityTask, tasks.LinVelocityTask.sizedCols, rbd.MultiBody.nrDof,
      rbd.Joint.ofType, rbd.JointType.dof, List.findIdx_cons]
  have hr := tasks.LinVelocityTask.Reachable.updateDot _ sample.arm sample.armConfig
    (tasks.LinVelocityTask.Reachable.update _ sample.arm sample.armConfig
      (tasks.LinVelocityTask.Reachable.bodyPoint _ ![0, 0, 1]
        (tasks.LinVelocityTask.Reachable.new _ _ _ _ _ _ hnew)))
  ⟨hr, tasks.LinVelocityTask.speed_zero sample.rbdLib _ hr⟩

theorem sva.PTransformd.mul_translation (X1 X2 : sva.PTransformd) :
    (X1 * X2).translation = X2.translation + X2.rotation.transpose.mulVec X1.translation :=
  rfl

theorem sva.PTransformd.mul_rotation (X1 X2 : sva.PTransformd) :
    (X1 * X2).rotation = X1.rotation * X2.rotation :=
  rfl

theorem tasks.PositionTask.update_some (R : rbd.Lib) (s : tasks.PositionTask)
    (mb : rbd.MultiBody) (mbc : rbd.MultiBodyConfig) (X_0_b : sva.PTransformd)
    (hX : stdAt mbc.bodyPosW s.bodyIndex_ = some X_0_b) :
    tasks.PositionTask.update R s mb mbc = some
      { s with
        eval_ := s.pos_ - (s.point_ * X_0_b).translation
        speed_ := (R.velocity s.jac_ mb mbc).linear
        normalAcc_ := (R.normalAcceleration s.jac_ mb mbc).linear
        jacMat_ := R.fullJacobian 3 s.jac_ mb
          (MatrixNXd.bottomRows (R.jacobian s.jac_ mb mbc) s.jac_.dof) s.jacMat_ } := by
  simp [tasks.PositionTask.update, hX]

/-- C20, on the sample arm: a `PositionTask` is constructed on the last body with target
`(4, 4, 4)` and body point `(0, 0, 0)`, then `bodyPoint((0, 0, 1))` is called.  After that
`bodyPoint()` reports `(0, 0, 1)`, yet `update`, with the body at `(1, 2, 3)`, returns
`eval() = (3, 2, 1)`, the error of the body point `(0, 0, 0)`; the error of the reported
body point is `(3, 2, 0)`. -/
theorem tasks.PositionTask.bodyPoint_ignored_by_update :
    ∃ s0 s1, tasks.PositionTask.new sample.rbdLib sample.positionTask sample.arm 2
        ![4, 4, 4] 0 = some s0 ∧
      (s0.setBodyPoint ![0, 0, 1]).bodyPoint = ![0, 0, 1] ∧
      stdAt sample.armConfig.bodyPosW (s0.setBodyPoint ![0, 0, 1]).bodyIndex_ =
        some sample.shift ∧
      tasks.PositionTask.update sample.rbdLib (s0.setBodyPoint ![0, 0, 1]) sample.arm
        sample.armConfig = some s1 ∧
      s1.eval = ![3, 2, 1] ∧
      (s0.setBodyPoint ![0, 0, 1]).position -
        (sva.PTransformd.ofTranslation ![0, 0, 1] * sample.shift).translation = ![3, 2, 0] := by
  have hb : sample.arm.bodyIndexById 2 = some 2 := by decide
  have hnew : tasks.PositionTask.new sample.rbdLib sample.positionTask sample.arm 2
      ![4, 4, 4] 0 = some
      { pos_ := ![4, 4, 4]
        point_ := sva.PTransformd.ofTranslation 0
        bodyIndex_ := 2
        jac_ := sample.rbdLib.newJacobian sample.arm 2 0
        eval_ := sample.positionTask.eval_
        speed_ := sample.positionTask.speed_
        normalAcc_ := sample.positionTask.normalAcc_
        jacMat_ := tasks.PositionTask.sizedCols sample.positionTask.jacMat_ sample.arm.nrDof
        jacDotMat_ :=
          tasks.PositionTask.sizedCols sample.positionTask.jacDotMat_ sample.arm.nrDof } := by
    simp only [tasks.PositionTask.new, hb, Option.bind_eq_bind, Option.some_bind]
  refine ⟨_, _, hnew, ?_, rfl, tasks.PositionTask.update_some _ _ _ _ sample.shift rfl, ?_, ?_⟩
  · simp [tasks.PositionTask.setBodyPoint, tasks.PositionTask.bodyPoint, rbd.Jacobian.setPoint,
      rbd.Jacobian.point, sva.PTransformd.ofTranslation]
  · funext i
    fin_cases i <;>
      simp [tasks.PositionTask.eval, tasks.PositionTask.setBodyPoint, sample.shift,
        sva.PTransformd.ofTranslation, sva.PTransformd.mul_translation] <;>
      norm_num
  · funext i
    fin_cases i <;>
      simp [tasks.PositionTask.position, tasks.PositionTask.setBodyPoint, sample.shift,
        sva.PTransformd.ofTranslation, sva.PTransformd.mul_translation] <;>
      norm_num

/-- C11: for every stiffness `k >= 0`, `JointGains(jointId, k)` stores `k` as stiffness
and `2 * sqrt(k)` as damping, so that the square of the damping is `4 * k` wherever
`sqrt(k)` is the exact square root of `k`; the constructor of `ContactTask` stores the
same coefficient `2 * sqrt(stiffness)`; and `JointGains(jointId, k, d)` stores `d`
unchanged. -/
theorem tasks.qp.JointGains.critical_damping {ContactId : Type} (sqrt : ℚ → ℚ)
    (jointId : Int) (k d weight : ℚ) (contactId : ContactId) (_hk : 0 ≤ k) :
    (tasks.qp.JointGains.new sqrt jointId k).jointId = jointId ∧
    (tasks.qp.JointGains.new sqrt jointId k).stiffness = k ∧
    (tasks.qp.JointGains.new sqrt jointId k).damping = 2 * sqrt k ∧
    (sqrt k * sqrt k = k →
      (tasks.qp.JointGains.new sqrt jointId k).damping ^ 2 = 4 * k) ∧
    (∃ t, tasks.qp.ContactTask.new sqrt contactId k weight = Except.ok t ∧
      t.stiffness_ = k ∧
      t.stiffnessSqrt_ = (tasks.qp.JointGains.new sqrt jointId k).damping) ∧
    (tasks.qp.JointGains.newDamped jointId k d).jointId = jointId ∧
    (tasks.qp.JointGains.newDamped jointId k d).stiffness = k ∧
    (tasks.qp.JointGains.newDamped jointId k d).damping = d := by
  refine ⟨rfl, rfl, rfl, fun h => ?_, ⟨_, rfl, rfl, rfl⟩, rfl, rfl, rfl⟩
  simp only [tasks.qp.JointGains.new]
  rw [mul_pow, pow_two (sqrt k), h]
  norm_num

/-- The statement of `tasks.qp.JointGains.critical_damping` at stiffness 4, with a square
root that is exact there: the damping is 4 and its square is 16. -/
theorem tasks.qp.JointGains.critical_damping_witness :
    (0 : ℚ) ≤ 4 ∧ sample.sqrt 4 * sample.sqrt 4 = 4 ∧
    (tasks.qp.JointGains.new sample.sqrt 7 4).damping = 2 * sample.sqrt 4 ∧
    (tasks.qp.JointGains.new sample.sqrt 7 4).damping ^ 2 = 4 * 4 :=
  have h4 : sample.sqrt 4 * sample.sqrt 4 = 4 := by
    simp [sample.sqrt]
    norm_num [Nat.sqrt]
  have h := tasks.qp.JointGains.critical_damping sample.sqrt 7 4 0 1 () (by norm_num)
  ⟨by norm_num, h4, h.2.2.1, h.2.2.2.1 h4⟩

/-! ### PostureTask -/

theorem getElem?_ofFn_lt {α : Type} {n : Nat} (f : Fin n → α) (i : Nat) (h : i < n) :
    (List.ofFn f)[i]? = some (f ⟨i, h⟩) := by
  have hl : i < (List.ofFn f).length := by simpa using h
  rw [List.getElem?_eq_getElem hl, List.getElem_ofFn]

theorem tasks.PostureTask.coeff_identityFrom (n k i j : Nat) (hi : i < n) (hj : j < n) :
    tasks.PostureTask.coeff (tasks.PostureTask.identityFrom n k) i j =
      some (if i = j ∧ k ≤ i then 1 else 0) := by
  simp [tasks.PostureTask.coeff, tasks.PostureTask.identityFrom, getElem?_ofFn_lt _ j hj,
    getElem?_ofFn_lt _ i hi]

theorem tasks.PostureTask.coeff_zero (n i j : Nat) (hi : i < n) (hj : j < n) :
    tasks.PostureTask.coeff (List.replicate n (List.replicate n (0 : ℚ))) i j = some 0 := by
  simp [tasks.PostureTask.coeff, hi, hj]

theorem tasks.PostureTask.setCoeff_spec (v v1 : VectorXd) (pos : Nat) (x : ℚ)
    (h : tasks.PostureTask.setCoeff v pos x = some v1) :
    v1.length = v.length ∧ ∀ i, i < pos → v1[i]? = v[i]? := by
  unfold tasks.PostureTask.setCoeff at h
  split at h
  · cases h
    exact ⟨by simp, fun i hi => List.getElem?_set_ne (Nat.ne_of_gt hi)⟩
  · cases h

theorem tasks.PostureTask.setSegment3_spec (v v1 : VectorXd) (pos : Nat) (err : Vector3d)
    (h : tasks.PostureTask.setSegment3 v pos err = some v1) :
    v1.length = v.length ∧ ∀ i, i < pos → v1[i]? = v[i]? := by
  unfold tasks.PostureTask.setSegment3 at h
  split at h
  · cases h
    refine ⟨by simp, fun i hi => ?_⟩
    rw [List.getElem?_set_ne (by omega), List.getElem?_set_ne (by omega),
      List.getElem?_set_ne (by omega)]
  · cases h

theorem tasks.PostureTask.updateLoop_spec (S : sva.Lib) (mb : rbd.MultiBody)
    (mbc : rbd.MultiBodyConfig) (q_ : List (List ℚ)) (is : List Nat) :
    ∀ (pos : Nat) (eval eval1 : VectorXd),
      tasks.PostureTask.updateLoop S mb mbc q_ is pos eval = some eval1 →
      eval1.length = eval.length ∧ ∀ i, i < pos → eval1[i]? = eval[i]? := by
  induction is with
  | nil =>
    intro pos eval eval1 h
    simp only [tasks.PostureTask.updateLoop, Option.some.injEq] at h
    subst h
    exact ⟨rfl, fun _ _ => rfl⟩
  | cons i is ih =>
    intro pos eval eval1 h
    simp only [tasks.PostureTask.updateLoop, Option.bind_eq_bind] at h
    cases hj : mb.joint i with
    | none => simp [hj] at h
    | some joint =>
      simp only [hj, Option.some_bind] at h
      split at h
      · cases h1 : q_[i]? with
        | none => simp [h1] at h
        | some qi =>
          cases h2 : qi[0]? with
          | none => simp [h1, h2] at h
          | some qi0 =>
            cases h3 : mbc.q[i]? with
            | none => simp [h1, h2, h3] at h
            | some ci =>
              cases h4 : ci[0]? with
              | none => simp [h1, h2, h3, h4] at h
              | some ci0 =>
                cases h5 : tasks.PostureTask.setCoeff eval pos (qi0 - ci0) with
                | none => simp [h1, h2, h3, h4, h5] at h
                | some e1 =>
                  simp only [h1, h2, h3, h4, h5, Option.some_bind] at h
                  obtain ⟨a1, a2⟩ := tasks.PostureTask.setCoeff_spec _ _ _ _ h5
                  obtain ⟨b1, b2⟩ := ih _ _ _ h
                  exact ⟨b1.trans a1, fun k hk =>
                    (b2 k (Nat.lt_succ_of_lt hk)).trans (a2 k hk)⟩
      · split at h
        · cases h1 : q_[i]? with
          | none => simp [h1] at h
          | some qi =>
            cases h2 : qi[0]? with
            | none => simp [h1, h2] at h
            | some w =>
              cases h3 : qi[1]? with
              | none => simp [h1, h2, h3] at h
              | some x =>
                cases h4 : qi[2]? with
                | none => simp [h1, h2, h3, h4] at h
                | some y =>
                  cases h5 : qi[3]? with
                  | none => simp [h1, h2, h3, h4, h5] at h
                  | some z =>
                    cases h6 : mbc.jointConfig[i]? with
                    | none => simp [h1, h2, h3, h4, h5, h6] at h
                    | some Xj =>
                      simp only [h1, h2, h3, h4, h5, h6, Option.some_bind] at h
                      cases h7 : tasks.PostureTask.setSegment3 eval pos
                          (S.rotationError Xj.rotation
                            (tasks.PostureTask.quaternionMatrix w x y z)) with
                      | none => simp [h7] at h
                      | some e1 =>
                        simp only [h7, Option.some_bind] at h
                        obtain ⟨a1, a2⟩ := tasks.PostureTask.setSegment3_spec _ _ _ _ h7
                        obtain ⟨b1, b2⟩ := ih _ _ _ h
                        exact ⟨b1.trans a1, fun k hk =>
                          (b2 k (by omega)).trans (a2 k hk)⟩
        · exact ih _ _ _ h

theorem tasks.PostureTask.jointPosInDof_le (mb : rbd.MultiBody) (i : Int) (p : Nat)
    (h : mb.jointPosInDof i = some p) : p ≤ mb.nrDof := by
  unfold rbd.MultiBody.jointPosInDof at h
  split at h
  · cases h
    unfold rbd.MultiBody.nrDof
    conv_rhs => rw [← List.take_append_drop i.toNat mb.joints]
    rw [List.map_append, List.sum_append]
    exact Nat.le_add_right _ _
  · cases h

theorem tasks.PostureTask.postureTask_new_spec (mb : rbd.MultiBody) (q : List (List ℚ))
    (s : tasks.PostureTask) (h : tasks.PostureTask.new mb q = some s) :
    s.jacMat_ = tasks.PostureTask.identityFrom mb.nrDof
      (if (mb.joint 0).map (fun j => j.type) = some rbd.JointType.Free then 6 else 0) ∧
    s.jacDotMat_ = List.replicate mb.nrDof (List.replicate mb.nrDof 0) ∧
    s.eval_ = List.replicate mb.nrDof 0 := by
  unfold tasks.PostureTask.new at h
  simp only [Option.bind_eq_bind] at h
  split at h
  · cases hj : mb.joint 0 with
    | none => simp [hj] at h
    | some j0 =>
      simp only [hj, Option.some_bind] at h
      split at h
      · rename_i hfree
        split at h
        · cases h
          simp [hfree]
        · cases h
      · rename_i hfree
        cases h
        simp [hfree]
  · rename_i hn
    have hn0 : mb.nrDof = 0 := Nat.eq_zero_of_not_pos hn
    cases h
    simp [hn0, tasks.PostureTask.identityFrom]

theorem tasks.PostureTask.reachable_spec (S : sva.Lib) (mb : rbd.MultiBody)
    (s : tasks.PostureTask) (h : tasks.PostureTask.Reachable S mb s) :
    s.jacMat_ = tasks.PostureTask.identityFrom mb.nrDof
      (if (mb.joint 0).map (fun j => j.type) = some rbd.JointType.Free then 6 else 0) ∧
    s.jacDotMat_ = List.replicate mb.nrDof (List.replicate mb.nrDof 0) ∧
    s.eval_.length = mb.nrDof ∧
    ∀ p, mb.jointPosInDof 1 = some p → ∀ i, i < p → s.eval_[i]? = some 0 := by
  induction h with
  | new q s h =>
    obtain ⟨h1, h2, h3⟩ := tasks.PostureTask.postureTask_new_spec mb q s h
    refine ⟨h1, h2, by simp [h3], fun p hp i hi => ?_⟩
    have hle := tasks.PostureTask.jointPosInDof_le mb 1 p hp
    rw [h3, List.getElem?_replicate_of_lt (Nat.lt_of_lt_of_le hi hle)]
  | posture s q _ ih => exact ih
  | update s s1 mbc _ hu ih =>
    obtain ⟨h1, h2, h3, h4⟩ := ih
    unfold tasks.PostureTask.update at hu
    simp only [Option.bind_eq_bind] at hu
    cases hp : mb.jointPosInDof 1 with
    | none => simp [hp] at hu
    | some p0 =>
      simp only [hp, Option.some_bind] at hu
      cases hl : tasks.PostureTask.updateLoop S mb mbc s.q_
          (List.range' 1 (mb.nrJoints - 1)) p0 s.eval_ with
      | none => simp [hl] at hu
      | some ev =>
        simp only [hl, Option.some_bind, Option.some.injEq] at hu
        subst hu
        obtain ⟨a1, a2⟩ := tasks.PostureTask.updateLoop_spec S mb mbc _ _ _ _ _ hl
        refine ⟨h1, h2, a1.trans h3, fun p hp1 i hi => ?_⟩
        cases hp1
        exact (a2 i hi).trans (h4 p0 hp i hi)

/-- C14: in every state of a `PostureTask` of the robot `mb` reached through the
constructor, `posture(q)` and `update`, the Jacobian is the `nrDof x nrDof` identity,
except that when the root joint is a free flyer the diagonal entries of the rows 0 to 5
are zero as well, so that these rows are entirely zero; `jacDot` is the `nrDof x nrDof`
zero matrix; and `eval` has `nrDof` entries, those below `jointPosInDof(1)` being zero. -/
theorem tasks.PostureTask.root_joint_dropped (S : sva.Lib) (mb : rbd.MultiBody)
    (s : tasks.PostureTask) (h : tasks.PostureTask.Reachable S mb s) :
    (s.jac.length = mb.nrDof ∧ ∀ i j, i < mb.nrDof → j < mb.nrDof →
      tasks.PostureTask.coeff s.jac i j = some
        (if i = j ∧ ¬ ((mb.joint 0).map (fun j => j.type) = some rbd.JointType.Free ∧ i < 6)
          then 1 else 0)) ∧
    (s.jacDot.length = mb.nrDof ∧ ∀ i j, i < mb.nrDof → j < mb.nrDof →
      tasks.PostureTask.coeff s.jacDot i j = some 0) ∧
    (s.eval.length = mb.nrDof ∧
      ∀ p, mb.jointPosInDof 1 = some p → ∀ i, i < p → s.eval[i]? = some 0) := by
  obtain ⟨h1, h2, h3, h4⟩ := tasks.PostureTask.reachable_spec S mb s h
  refine ⟨⟨?_, fun i j hi hj => ?_⟩, ⟨?_, fun i j hi hj => ?_⟩, h3, h4⟩
  · simp [tasks.PostureTask.jac, h1, tasks.PostureTask.identityFrom]
  · rw [tasks.PostureTask.jac, h1, tasks.PostureTask.coeff_identityFrom _ _ _ _ hi hj]
    by_cases hf : (mb.joint 0).map (fun j => j.type) = some rbd.JointType.Free
    · simp only [hf, if_true, true_and, not_lt]
    · simp [hf]
  · simp [tasks.PostureTask.jacDot, h2]
  · rw [tasks.PostureTask.jacDot, h2, tasks.PostureTask.coeff_zero _ _ _ hi hj]

/-! ### SetPointTaskCommon, SetPointTask -/

theorem sample.floaterPosture_new :
    tasks.PostureTask.new sample.floater [[1, 0, 0, 0, 0, 0, 0], [5]] =
      some sample.floaterPosture := by
  decide

theorem sample.floaterPosture_update :
    tasks.PostureTask.update sample.svaLib sample.floaterPosture sample.floater
      sample.floaterConfig = some sample.floaterPostureUpdated := by
  simp [tasks.PostureTask.update, tasks.PostureTask.updateLoop, tasks.PostureTask.eval,
    tasks.PostureTask.setCoeff, rbd.MultiBody.jointPosInDof, rbd.MultiBody.joint, stdAt,
    rbd.MultiBody.nrJoints, sample.floater, sample.floaterPosture, sample.floaterConfig,
    rbd.Joint.ofType, rbd.JointType.dof, List.range', sample.floaterPostureUpdated]
  norm_num

/-- C16: for every dimension weight `W` without negative entry, every Jacobian `J` and
every task weight `τ`, the quadratic term of the cost assembly kernel is
`Q = τ² · Jᵗ W J`; it is symmetric, and positive semi-definite: `xᵗ Q x ≥ 0` for every
`x`. -/
theorem tasks.qp.SetPointTaskCommon.Q_symmetric_posSemidef {d n : Nat} (τ : ℚ)
    (W : Fin d → ℚ) (J : Matrix (Fin d) (Fin n) ℚ) (hW : ∀ i, 0 ≤ W i) :
    tasks.qp.SetPointTaskCommon.Q τ W J = τ ^ 2 • (J.transpose * Matrix.diagonal W * J) ∧
    (tasks.qp.SetPointTaskCommon.Q τ W J).transpose = tasks.qp.SetPointTaskCommon.Q τ W J ∧
    ∀ x : Fin n → ℚ,
      0 ≤ Matrix.dotProduct x ((tasks.qp.SetPointTaskCommon.Q τ W J).mulVec x) := by
  refine ⟨rfl, ?_, fun x => ?_⟩
  · simp only [tasks.qp.SetPointTaskCommon.Q, Matrix.transpose_smul, Matrix.transpose_mul,
      Matrix.diagonal_transpose, Matrix.transpose_transpose, Matrix.mul_assoc]
  · have h : Matrix.dotProduct x ((tasks.qp.SetPointTaskCommon.Q τ W J).mulVec x) =
        τ ^ 2 * ∑ i : Fin d, W i * ((J.mulVec x) i * (J.mulVec x) i) := by
      rw [tasks.qp.SetPointTaskCommon.Q, Matrix.smul_mulVec_assoc, Matrix.dotProduct_smul,
        smul_eq_mul, ← Matrix.mulVec_mulVec, ← Matrix.mulVec_mulVec, Matrix.dotProduct_mulVec,
        Matrix.vecMul_transpose]
      congr 1
      simp only [Matrix.dotProduct, Matrix.mulVec_diagonal]
      refine Finset.sum_congr rfl fun i _ => ?_
      ring
    rw [h]
    exact mul_nonneg (sq_nonneg τ) (Finset.sum_nonneg fun i _ =>
      mul_nonneg (hW i) (mul_self_nonneg _))

/-- C17: for the set-point law with stiffness `k`, error `e` and speed zero, the driving
acceleration target is exactly `k·e`: the damping term `2√k·speed` is zero. -/
theorem tasks.qp.SetPointTask.aTarget_zero_speed {d : Nat} (sqrt : ℚ → ℚ) (k : ℚ)
    (e : Fin d → ℚ) :
    tasks.qp.SetPointTask.aTarget sqrt k e 0 = k • e ∧
    (2 * sqrt k) • (0 : Fin d → ℚ) = 0 := by
  simp [tasks.qp.SetPointTask.aTarget]

/-- The statement of `tasks.PostureTask.root_joint_dropped` on the sample floater (a
free-flyer root, then a revolute joint at position 6), after an `update`: the entry
`(0, 0)` of the Jacobian is 0, the entry `(6, 6)` is 1, and the entry 5 of `eval` is 0. -/
theorem tasks.PostureTask.root_joint_dropped_witness :
    tasks.PostureTask.Reachable sample.svaLib sample.floater sample.floaterPostureUpdated ∧
    sample.floater.jointPosInDof 1 = some 6 ∧
    tasks.PostureTask.coeff sample.floaterPostureUpdated.jac 0 0 = some 0 ∧
    tasks.PostureTask.coeff sample.floaterPostureUpdated.jac 6 6 = some 1 ∧
    sample.floaterPostureUpdated.eval[5]? = some 0 :=
  have hr : tasks.PostureTask.Reachable sample.svaLib sample.floater
      sample.floaterPostureUpdated :=
    tasks.PostureTask.Reachable.update _ _ sample.floaterConfig
      (tasks.PostureTask.Reachable.new _ _ sample.floaterPosture_new)
      sample.floaterPosture_update
  have h := tasks.PostureTask.root_joint_dropped sample.svaLib sample.floater
    sample.floaterPostureUpdated hr
  have hp : sample.floater.jointPosInDof 1 = some 6 := by decide
  ⟨hr, hp, (h.1.2 0 0 (by decide) (by decide)).trans (by decide),
    (h.1.2 6 6 (by decide) (by decide)).trans (by decide), h.2.2.2 6 hp 5 (by decide)⟩

/-- The statement of `tasks.qp.SetPointTaskCommon.Q_symmetric_posSemidef` on the scenario
of one dimension and one degree of freedom with `J = [1]`, unit dimension weight and task
weight 1: `Q = [[1]]`. -/
theorem tasks.qp.SetPointTaskCommon.Q_symmetric_posSemidef_witness :
    (∀ i, 0 ≤ (![1] : Fin 1 → ℚ) i) ∧
    tasks.qp.SetPointTaskCommon.Q 1 ![1] !![1] = !![1] ∧
    (tasks.qp.SetPointTaskCommon.Q 1 ![1] !![1]).transpose =
      tasks.qp.SetPointTaskCommon.Q 1 ![1] !![1] :=
  have hW : ∀ i, 0 ≤ (![1] : Fin 1 → ℚ) i := fun i => by
    fin_cases i
    norm_num
  have h := tasks.qp.SetPointTaskCommon.Q_symmetric_posSemidef 1 ![1] !![1] hW
  ⟨hW, h.1.trans (by
    ext i j
    fin_cases i
    fin_cases j
    simp [Matrix.mul_apply]), h.2.1⟩

/-! ### JointsSelector -/

theorem rbd.MultiBody.dofBefore_succ (mb : rbd.MultiBody) (i : Nat) (j : rbd.Joint)
    (hj : mb.joints[i]? = some j) :
    ((mb.joints.take (i + 1)).map rbd.Joint.dof).sum =
      ((mb.joints.take i).map rbd.Joint.dof).sum + j.dof := by
  rw [List.take_succ, hj]
  simp

theorem rbd.MultiBody.dofBefore_mono (mb : rbd.MultiBody) (a b : Nat) (h : a ≤ b) :
    ((mb.joints.take a).map rbd.Joint.dof).sum ≤ ((mb.joints.take b).map rbd.Joint.dof).sum := by
  have h1 : mb.joints.take a = (mb.joints.take b).take a := by
    rw [List.take_take, Nat.min_eq_left h]
  rw [h1]
  conv_rhs => rw [← List.take_append_drop a (mb.joints.take b)]
  rw [List.map_append, List.sum_append]
  exact Nat.le_add_right _ _

theorem rbd.MultiBody.dofBefore_disjoint (mb : rbd.MultiBody) (i k : Nat) (j : rbd.Joint)
    (hj : mb.joints[i]? = some j) (h : i < k) :
    ((mb.joints.take i).map rbd.Joint.dof).sum + j.dof ≤
      ((mb.joints.take k).map rbd.Joint.dof).sum := by
  rw [← rbd.MultiBody.dofBefore_succ mb i j hj]
  exact rbd.MultiBody.dofBefore_mono mb (i + 1) k h

theorem rbd.MultiBody.index_unique (mb : rbd.MultiBody)
    (hnodup : (mb.joints.map fun joint => joint.id).Nodup) (i k : Nat) (j1 j2 : rbd.Joint)
    (h1 : mb.joints[i]? = some j1) (h2 : mb.joints[k]? = some j2) (hid : j1.id = j2.id) :
    i = k := by
  obtain ⟨hi, e1⟩ := List.getElem?_eq_some.1 h1
  obtain ⟨hk, e2⟩ := List.getElem?_eq_some.1 h2
  have hi1 : i < (mb.joints.map fun joint => joint.id).length := by simpa using hi
  have hk1 : k < (mb.joints.map fun joint => joint.id).length := by simpa using hk
  have e : (mb.joints.map fun joint => joint.id)[i] =
      (mb.joints.map fun joint => joint.id)[k] := by
    simp [e1, e2, hid]
  exact hnodup.getElem_inj_iff.1 e

theorem tasks.qp.JointsSelector.resolve_inv (mb : rbd.MultiBody) (id : Int)
    (sd : tasks.qp.SelectedData) (h : tasks.qp.JointsSelector.resolve mb id = .ok sd) :
    ∃ (i : Nat) (j : rbd.Joint), mb.joints[i]? = some j ∧ j.id = id ∧
      sd = ⟨(((mb.joints.take i).map rbd.Joint.dof).sum : Nat), j.dof⟩ := by
  unfold tasks.qp.JointsSelector.resolve rbd.MultiBody.jointIndexById at h
  simp only at h
  split at h
  · cases h
  · rename_i i hi
    split at hi
    · rename_i hlt
      cases hi
      have hp := List.findIdx_getElem (w := hlt)
      simp only [decide_eq_true_eq] at hp
      refine ⟨_, _, List.getElem?_eq_getElem hlt, hp, ?_⟩
      simp only [rbd.MultiBody.joint, stdAt_natCast, List.getElem?_eq_getElem hlt,
        rbd.MultiBody.jointPosInDof, rbd.MultiBody.nrJoints, Int.toNat_ofNat, Nat.cast_nonneg,
        true_and, hlt, if_true] at h
      cases h
      rfl
    · cases hi

theorem tasks.qp.JointsSelector.resolve_of_joint (mb : rbd.MultiBody)
    (hnodup : (mb.joints.map fun joint => joint.id).Nodup) (i : Nat) (j : rbd.Joint)
    (hj : mb.joints[i]? = some j) :
    tasks.qp.JointsSelector.resolve mb j.id =
      .ok ⟨(((mb.joints.take i).map rbd.Joint.dof).sum : Nat), j.dof⟩ := by
  have hex : ∃ x ∈ mb.joints, decide (x.id = j.id) = true :=
    ⟨j, List.getElem?_mem hj, by simp⟩
  have hlt := List.findIdx_lt_length_of_exists hex
  have hp := List.findIdx_getElem (w := hlt)
  simp only [decide_eq_true_eq] at hp
  have hidx := rbd.MultiBody.index_unique mb hnodup _ i _ j (List.getElem?_eq_getElem hlt) hj hp
  obtain ⟨hi, e1⟩ := List.getElem?_eq_some.1 hj
  simp only [tasks.qp.JointsSelector.resolve, rbd.MultiBody.jointIndexById, hidx, hi, if_true,
    rbd.MultiBody.joint, stdAt_natCast, hj, rbd.MultiBody.jointPosInDof,
    rbd.MultiBody.nrJoints, Int.toNat_ofNat, Nat.cast_nonneg, true_and]

theorem tasks.qp.JointsSelector.resolveAll_spec (mb : rbd.MultiBody) (ids : List Int)
    (h : ∀ id ∈ ids, ∃ sd, tasks.qp.JointsSelector.resolve mb id = .ok sd) :
    ∃ sel, tasks.qp.JointsSelector.resolveAll mb ids = .ok sel ∧
      ∀ sd, sd ∈ sel ↔ ∃ id ∈ ids, tasks.qp.JointsSelector.resolve mb id = .ok sd := by
  induction ids with
  | nil => exact ⟨[], rfl, by simp⟩
  | cons id ids ih =>
    obtain ⟨sd0, h0⟩ := h id (List.mem_cons_self _ _)
    obtain ⟨rest, h1, h2⟩ := ih fun x hx => h x (List.mem_cons_of_mem _ hx)
    refine ⟨sd0 :: rest, by simp [tasks.qp.JointsSelector.resolveAll, h0, h1], fun sd => ?_⟩
    simp only [List.mem_cons, h2, exists_eq_or_imp, h0, Except.ok.injEq]
    constructor
    · rintro (rfl | hx)
      · exact Or.inl rfl
      · exact Or.inr hx
    · rintro (rfl | hx)
      · exact Or.inl rfl
      · exact Or.inr hx

theorem tasks.qp.JointsSelector.selected_iff (sel : List tasks.qp.SelectedData) (col : Nat) :
    tasks.qp.JointsSelector.selected sel col = true ↔
      ∃ sd ∈ sel, sd.posInDof ≤ (col : Int) ∧ (col : Int) < sd.posInDof + sd.dof := by
  simp [tasks.qp.JointsSelector.selected, List.any_eq_true]

theorem tasks.qp.JointsSelector.new_masks (mbs : List rbd.MultiBody) (robotIndex : Int)
    (mb : rbd.MultiBody) (hl hl1 : tasks.qp.HighLevelTask) (ids : List Int)
    (hmb : stdAt mbs robotIndex = some mb)
    (hnodup : (mb.joints.map fun joint => joint.id).Nodup)
    (hres : ∀ id ∈ ids, ∃ joint ∈ mb.joints, joint.id = id) :
    ∃ s, tasks.qp.JointsSelector.new mbs robotIndex hl ids = some (.ok s) ∧
      ∀ (i : Nat) (joint : rbd.Joint) (pos col : Nat), mb.joints[i]? = some joint →
        mb.jointPosInDof i = some pos → pos ≤ col → col < pos + joint.dof →
        (joint.id ∈ ids → (s.update hl1).jac[col]? = hl1.jac[col]?) ∧
        (joint.id ∉ ids → (s.update hl1).jac[col]? =
          (hl1.jac[col]?).map fun v => List.replicate v.length 0) := by
  have hall : ∀ id ∈ ids, ∃ sd, tasks.qp.JointsSelector.resolve mb id = .ok sd := by
    intro id hid
    obtain ⟨joint, hmem, rfl⟩ := hres id hid
    obtain ⟨i, hi⟩ := List.getElem?_of_mem hmem
    exact ⟨_, tasks.qp.JointsSelector.resolve_of_joint mb hnodup i joint hi⟩
  obtain ⟨sel, hsel, hmemsel⟩ := tasks.qp.JointsSelector.resolveAll_spec mb ids hall
  refine ⟨⟨List.replicate mb.nrDof (List.replicate hl.dim.toNat 0), sel, hl⟩, by
    simp [tasks.qp.JointsSelector.new, hmb, hsel], ?_⟩
  intro i joint pos col hj hpos hle hlt
  have hposeq : pos = ((mb.joints.take i).map rbd.Joint.dof).sum := by
    unfold rbd.MultiBody.jointPosInDof at hpos
    split at hpos
    · simpa using hpos.symm
    · cases hpos
  simp only [tasks.qp.JointsSelector.update, tasks.qp.JointsSelector.jac,
    List.getElem?_mapIdx]
  constructor
  · intro hid
    have hs : tasks.qp.JointsSelector.selected sel col = true := by
      rw [tasks.qp.JointsSelector.selected_iff]
      refine ⟨_, (hmemsel _).2 ⟨joint.id, hid,
        tasks.qp.JointsSelector.resolve_of_joint mb hnodup i joint hj⟩, ?_, ?_⟩
      · simp only [← hposeq]
        exact_mod_cast hle
      · simp only [← hposeq]
        exact_mod_cast hlt
    simp only [hs, if_true]
    cases hl1.jac[col]? <;> rfl
  · intro hid
    have hs : tasks.qp.JointsSelector.selected sel col = false := by
      rw [Bool.eq_false_iff, Ne, tasks.qp.JointsSelector.selected_iff]
      rintro ⟨sd, hsd, hlo, hhi⟩
      obtain ⟨id, hidmem, hr⟩ := (hmemsel sd).1 hsd
      obtain ⟨k, j2, hk, hj2id, rfl⟩ := tasks.qp.JointsSelector.resolve_inv mb id sd hr
      have hne : i ≠ k := by
        rintro rfl
        rw [hj] at hk
        cases hk
        exact hid (hj2id ▸ hidmem)
      simp only at hlo hhi
      have hlo1 : ((mb.joints.take k).map rbd.Joint.dof).sum ≤ col := by exact_mod_cast hlo
      have hhi1 : col < ((mb.joints.take k).map rbd.Joint.dof).sum + j2.dof := by
        exact_mod_cast hhi
      rcases Nat.lt_or_gt_of_ne hne with hik | hki
      · have := rbd.MultiBody.dofBefore_disjoint mb i k joint hj hik
        omega
      · have := rbd.MultiBody.dofBefore_disjoint mb k i j2 hk hki
        omega
    simp only [hs]
    cases hl1.jac[col]? <;> rfl

/-- C18: for a robot whose joints carry distinct identifiers, every wrapped measurement
and every selection set whose identifiers are carried by joints of the robot, the
constructor of `JointsSelector` (and `ActiveJoints`) returns a selector, and after
`update` the Jacobian columns of the degrees of freedom of a joint that is not selected
are exactly zero, while those of a selected joint are the columns of the wrapped
provider.  The same holds for `UnactiveJoints`, where the selected joints are the ones
that are not listed. -/
theorem tasks.qp.JointsSelector.update_masks (mbs : List rbd.MultiBody) (robotIndex : Int)
    (mb : rbd.MultiBody) (hl hl1 : tasks.qp.HighLevelTask) (ids unactive : List Int)
    (hmb : stdAt mbs robotIndex = some mb)
    (hnodup : (mb.joints.map fun joint => joint.id).Nodup)
    (hres : ∀ id ∈ ids, ∃ joint ∈ mb.joints, joint.id = id) :
    (∃ s, tasks.qp.JointsSelector.new mbs robotIndex hl ids = some (.ok s) ∧
      tasks.qp.JointsSelector.ActiveJoints mbs robotIndex hl ids = some (.ok s) ∧
      ∀ (i : Nat) (joint : rbd.Joint) (pos col : Nat), mb.joints[i]? = some joint →
        mb.jointPosInDof i = some pos → pos ≤ col → col < pos + joint.dof →
        (joint.id ∈ ids → (s.update hl1).jac[col]? = hl1.jac[col]?) ∧
        (joint.id ∉ ids → (s.update hl1).jac[col]? =
          (hl1.jac[col]?).map fun v => List.replicate v.length 0)) ∧
    (∃ s, tasks.qp.JointsSelector.UnactiveJoints mbs robotIndex hl unactive = some (.ok s) ∧
      ∀ (i : Nat) (joint : rbd.Joint) (pos col : Nat), mb.joints[i]? = some joint →
        mb.jointPosInDof i = some pos → pos ≤ col → col < pos + joint.dof →
        (joint.id ∉ unactive → (s.update hl1).jac[col]? = hl1.jac[col]?) ∧
        (joint.id ∈ unactive → (s.update hl1).jac[col]? =
          (hl1.jac[col]?).map fun v => List.replicate v.length 0)) := by
  constructor
  · obtain ⟨s, h1, h2⟩ :=
      tasks.qp.JointsSelector.new_masks mbs robotIndex mb hl hl1 ids hmb hnodup hres
    exact ⟨s, h1, h1, h2⟩
  · obtain ⟨s, h1, h2⟩ := tasks.qp.JointsSelector.new_masks mbs robotIndex mb hl hl1
      ((mb.joints.map fun joint => joint.id).filter fun id => id ∉ unactive) hmb hnodup
      (fun id hid => by
        obtain ⟨joint, hj, rfl⟩ := List.mem_map.1 (List.mem_filter.1 hid).1
        exact ⟨joint, hj, rfl⟩)
    refine ⟨s, by
      simp only [tasks.qp.JointsSelector.UnactiveJoints, hmb, Option.bind_eq_bind,
        Option.some_bind]
      exact h1, ?_⟩
    intro i joint pos col hj hpos hle hlt
    obtain ⟨a, b⟩ := h2 i joint pos col hj hpos hle hlt
    have hmem : joint.id ∈ mb.joints.map fun joint => joint.id :=
      List.mem_map.2 ⟨joint, List.getElem?_mem hj, rfl⟩
    constructor
    · intro hu
      exact a (List.mem_filter.2 ⟨hmem, by simpa using hu⟩)
    · intro hu
      exact b fun hf => by
        have := (List.mem_filter.1 hf).2
        simp at this
        exact this hu

/-- The statement of `tasks.qp.JointsSelector.update_masks` on the sample arm with the
revolute joint (identifier 2, column 3) selected, and a wrapped Jacobian `[1 2 3 4]`: the
column 3 is kept, and the column 1, of the spherical joint, is zero. -/
theorem tasks.qp.JointsSelector.update_masks_witness :
    stdAt [sample.arm, sample.slider] 0 = some sample.arm ∧
    (sample.arm.joints.map fun joint => joint.id).Nodup ∧
    (∀ id ∈ [(2 : Int)], ∃ joint ∈ sample.arm.joints, joint.id = id) ∧
    ∃ s, tasks.qp.JointsSelector.new [sample.arm, sample.slider] 0 sample.measurement [2] =
        some (.ok s) ∧
      (s.update sample.measurement).jac[3]? = some [4] ∧
      (s.update sample.measurement).jac[1]? = some [0] :=
  have hnodup : (sample.arm.joints.map fun joint => joint.id).Nodup := by decide
  have hres : ∀ id ∈ [(2 : Int)], ∃ joint ∈ sample.arm.joints, joint.id = id := by
    intro id hid
    simp only [List.mem_singleton] at hid
    subst hid
    exact ⟨rbd.Joint.ofType .Rev 2, by decide, rfl⟩
  ⟨rfl, hnodup, hres,
    (tasks.qp.JointsSelector.update_masks [sample.arm, sample.slider] 0 sample.arm
      sample.measurement sample.measurement [2] [] rfl hnodup hres).1.imp fun s h =>
      ⟨h.1, ((h.2.2 2 (rbd.Joint.ofType .Rev 2) 3 3 rfl (by decide) (Nat.le_refl 3)
          (by decide)).1 (by decide)).trans rfl,
        ((h.2.2 1 (rbd.Joint.ofType .Spherical 1) 0 1 rfl (by decide) (by decide)
          (by decide)).2 (by decide)).trans rfl⟩⟩

/-! ### MultiRobotTransformTask: exchanging the two robots -/

theorem sva.PTransformd.mul_inv_self (X : sva.PTransformd)
    (h : X.rotation * X.rotation.transpose = 1) : X * X.inv = ⟨1, 0⟩ := by
  show sva.PTransformd.mk (X.rotation * X.inv.rotation)
    (X.inv.translation + X.inv.rotation.transpose.mulVec X.translation) = ⟨1, 0⟩
  simp [sva.PTransformd.inv, h]

theorem sva.PTransformd.ofRotation_one_mul (X : sva.PTransformd) :
    sva.PTransformd.ofRotation (1 : Matrix3d).transpose * X = X := by
  show sva.PTransformd.mk ((sva.PTransformd.ofRotation (1 : Matrix3d).transpose).rotation *
      X.rotation)
    (X.translation + X.rotation.transpose.mulVec
      (sva.PTransformd.ofRotation (1 : Matrix3d).transpose).translation) = X
  simp [sva.PTransformd.ofRotation]

theorem tasks.MultiRobotTransformTask.correctCol_zero (c : Vector6d) :
    tasks.MultiRobotTransformTask.correctCol ⟨0, 0⟩ c = c := by
  funext i
  fin_cases i <;>
    simp [tasks.MultiRobotTransformTask.correctCol, sva.MotionVecd.cross,
      sva.MotionVecd.vector, cross3]
  rfl

theorem tasks.MultiRobotTransformTask.update_blocks (S : sva.Lib) (R : rbd.Lib)
    (s : tasks.MultiRobotTransformTask) (mbs : List rbd.MultiBody)
    (mbcs : List rbd.MultiBodyConfig) (normalAccB : List (List sva.MotionVecd))
    (mb1 mb2 : rbd.MultiBody) (mbc1 mbc2 : rbd.MultiBodyConfig)
    (X_0_r1b X_0_r2b : sva.PTransformd) (nB1 nB2 : List sva.MotionVecd)
    (full0 full1 : Matrix6Xd)
    (hmb1 : stdAt mbs s.r1Index_ = some mb1) (hmb2 : stdAt mbs s.r2Index_ = some mb2)
    (hmbc1 : stdAt mbcs s.r1Index_ = some mbc1) (hmbc2 : stdAt mbcs s.r2Index_ = some mbc2)
    (hX1 : stdAt mbc1.bodyPosW s.r1BodyIndex_ = some X_0_r1b)
    (hX2 : stdAt mbc2.bodyPosW s.r2BodyIndex_ = some X_0_r2b)
    (hn1 : stdAt normalAccB s.r1Index_ = some nB1)
    (hn2 : stdAt normalAccB s.r2Index_ = some nB2)
    (hfull : s.fullJacMat_ = [full0, full1])
    (hdof : (R.jacobianAt s.jacR1B_ mb1 mbc1 (s.X_r1b_r1s_ * X_0_r1b)).length =
      s.jacR1B_.dof) :
    ∃ s1, tasks.MultiRobotTransformTask.update S R s mbs mbcs normalAccB = some s1 ∧
      s1.jac 0 = some (R.fullJacobian 6 s.jacR1B_ mb1
        ((R.jacobianAt s.jacR1B_ mb1 mbc1 (s.X_r1b_r1s_ * X_0_r1b)).map
          (tasks.MultiRobotTransformTask.correctCol (S.transformVelocity
            ((s.X_r2b_r2s_ * X_0_r2b) * (s.X_r1b_r1s_ * X_0_r1b).inv)))) full0) ∧
      s1.jac 1 = some (R.fullJacobian 6 s.jacR2B_ mb2
        ((R.jacobianAt s.jacR2B_ mb2 mbc2
          (sva.PTransformd.ofRotation
            ((s.X_r2b_r2s_ * X_0_r2b) * (s.X_r1b_r1s_ * X_0_r1b).inv).rotation.transpose *
            (s.X_r2b_r2s_ * X_0_r2b))).map fun c => -c) full1) := by
  have hloop := tasks.MultiRobotTransformTask.correctLoop_all
    (S.transformVelocity ((s.X_r2b_r2s_ * X_0_r2b) * (s.X_r1b_r1s_ * X_0_r1b).inv))
    (R.jacobianAt s.jacR1B_ mb1 mbc1 (s.X_r1b_r1s_ * X_0_r1b))
  rw [hdof] at hloop
  refine ⟨_, by
    simp only [tasks.MultiRobotTransformTask.update, hmb1, hmb2, hmbc1, hmbc2, hX1, hX2, hn1,
      hn2, hfull, hloop, Option.bind_eq_bind, Option.some_bind, List.getElem?_cons_zero,
      List.getElem?_cons_succ]
    rfl, ?_, ?_⟩
  · simp [tasks.MultiRobotTransformTask.jac, stdAt]
  · simp [tasks.MultiRobotTransformTask.jac, stdAt]

theorem tasks.MultiRobotTransformTask.new_fields (R : rbd.Lib)
    (mem : tasks.MultiRobotTransformTask) (mbs : List rbd.MultiBody)
    (r1Index r2Index r1BodyId r2BodyId : Int) (X_r1b_r1s X_r2b_r2s : sva.PTransformd)
    (mb1 mb2 : rbd.MultiBody) (k1 k2 : Int)
    (hmb1 : stdAt mbs r1Index = some mb1) (hmb2 : stdAt mbs r2Index = some mb2)
    (hb1 : mb1.bodyIndexById r1BodyId = some k1)
    (hb2 : mb2.bodyIndexById r2BodyId = some k2) :
    ∃ s, tasks.MultiRobotTransformTask.new R mem mbs r1Index r2Index r1BodyId r2BodyId
        X_r1b_r1s X_r2b_r2s = some s ∧
      s.r1Index_ = r1Index ∧ s.r2Index_ = r2Index ∧
      s.r1BodyIndex_ = k1 ∧ s.r2BodyIndex_ = k2 ∧
      s.X_r1b_r1s_ = X_r1b_r1s ∧ s.X_r2b_r2s_ = X_r2b_r2s ∧
      s.jacR1B_ = R.newJacobian mb1 r1BodyId 0 ∧ s.jacR2B_ = R.newJacobian mb2 r2BodyId 0 ∧
      s.fullJacMat_ = [List.replicate mb1.nrDof 0, List.replicate mb2.nrDof 0] :=
  ⟨_, by
    simp only [tasks.MultiRobotTransformTask.new, hmb1, hmb2, hb1, hb2, Option.bind_eq_bind,
      Option.some_bind]
    rfl, rfl, rfl, rfl, rfl, rfl, rfl, rfl, rfl, rfl⟩

/-- C15, amended: let the task be constructed on two robots and again with the two
robots, their bodies and their surface offsets exchanged, and let both be updated in the
same configuration.  When the two surface frames coincide in the world and are rotations
(the rotation vector of the identity being zero and the full-layout mapping into a zero
matrix commuting with negation), both updates return and the block of a robot when it is
listed second, `jac(1)`, is the negation of its block when it is listed first, `jac(0)`;
this holds for both robots. -/
theorem tasks.MultiRobotTransformTask.swap_negates_coincident (S : sva.Lib) (R : rbd.Lib)
    (mem mem1 : tasks.MultiRobotTransformTask) (mbs : List rbd.MultiBody)
    (r1Index r2Index r1BodyId r2BodyId : Int) (X_r1b_r1s X_r2b_r2s : sva.PTransformd)
    (mbcs : List rbd.MultiBodyConfig) (normalAccB : List (List sva.MotionVecd))
    (mb1 mb2 : rbd.MultiBody) (k1 k2 : Int) (mbc1 mbc2 : rbd.MultiBodyConfig)
    (X_0_r1b X_0_r2b : sva.PTransformd) (nB1 nB2 : List sva.MotionVecd)
    (hmb1 : stdAt mbs r1Index = some mb1) (hmb2 : stdAt mbs r2Index = some mb2)
    (hb1 : mb1.bodyIndexById r1BodyId = some k1)
    (hb2 : mb2.bodyIndexById r2BodyId = some k2)
    (hmbc1 : stdAt mbcs r1Index = some mbc1) (hmbc2 : stdAt mbcs r2Index = some mbc2)
    (hX1 : stdAt mbc1.bodyPosW k1 = some X_0_r1b)
    (hX2 : stdAt mbc2.bodyPosW k2 = some X_0_r2b)
    (hn1 : stdAt normalAccB r1Index = some nB1)
    (hn2 : stdAt normalAccB r2Index = some nB2)
    (hdof1 : (R.jacobianAt (R.newJacobian mb1 r1BodyId 0) mb1 mbc1
      (X_r1b_r1s * X_0_r1b)).length = (R.newJacobian mb1 r1BodyId 0).dof)
    (hdof2 : (R.jacobianAt (R.newJacobian mb2 r2BodyId 0) mb2 mbc2
      (X_r2b_r2s * X_0_r2b)).length = (R.newJacobian mb2 r2BodyId 0).dof)
    (hsame : X_r1b_r1s * X_0_r1b = X_r2b_r2s * X_0_r2b)
    (horth : (X_r1b_r1s * X_0_r1b).rotation * (X_r1b_r1s * X_0_r1b).rotation.transpose = 1)
    (hrv : S.rotationVelocity 1 = 0)
    (hneg : ∀ (jac : rbd.Jacobian) (mb : rbd.MultiBody) (J : Matrix6Xd),
      R.fullJacobian 6 jac mb (J.map fun c => -c) (List.replicate mb.nrDof 0) =
        (R.fullJacobian 6 jac mb J (List.replicate mb.nrDof 0)).map fun c => -c) :
    ∃ s s1 t t1,
      tasks.MultiRobotTransformTask.new R mem mbs r1Index r2Index r1BodyId r2BodyId
        X_r1b_r1s X_r2b_r2s = some s ∧
      tasks.MultiRobotTransformTask.new R mem1 mbs r2Index r1Index r2BodyId r1BodyId
        X_r2b_r2s X_r1b_r1s = some s1 ∧
      tasks.MultiRobotTransformTask.update S R s mbs mbcs normalAccB = some t ∧
      tasks.MultiRobotTransformTask.update S R s1 mbs mbcs normalAccB = some t1 ∧
      t1.jac 1 = (t.jac 0).map (fun m => m.map fun c => -c) ∧
      t1.jac 0 = (t.jac 1).map (fun m => m.map fun c => -c) := by
  obtain ⟨s, hs, a1, a2, a3, a4, a5, a6, a7, a8, a9⟩ :=
    tasks.MultiRobotTransformTask.new_fields R mem mbs r1Index r2Index r1BodyId r2BodyId
      X_r1b_r1s X_r2b_r2s mb1 mb2 k1 k2 hmb1 hmb2 hb1 hb2
  obtain ⟨s1, hs1, b1, b2, b3, b4, b5, b6, b7, b8, b9⟩ :=
    tasks.MultiRobotTransformTask.new_fields R mem1 mbs r2Index r1Index r2BodyId r1BodyId
      X_r2b_r2s X_r1b_r1s mb2 mb1 k2 k1 hmb2 hmb1 hb2 hb1
  obtain ⟨t, ht, h0, h1⟩ := tasks.MultiRobotTransformTask.update_blocks S R s mbs mbcs
    normalAccB mb1 mb2 mbc1 mbc2 X_0_r1b X_0_r2b nB1 nB2 _ _ (a1 ▸ hmb1) (a2 ▸ hmb2)
    (a1 ▸ hmbc1) (a2 ▸ hmbc2) (a3 ▸ hX1) (a4 ▸ hX2) (a1 ▸ hn1) (a2 ▸ hn2) a9
    (by rw [a5, a7]; exact hdof1)
  obtain ⟨t1, ht1, k0, k1⟩ := tasks.MultiRobotTransformTask.update_blocks S R s1 mbs mbcs
    normalAccB mb2 mb1 mbc2 mbc1 X_0_r2b X_0_r1b nB2 nB1 _ _ (b1 ▸ hmb2) (b2 ▸ hmb1)
    (b1 ▸ hmbc2) (b2 ▸ hmbc1) (b3 ▸ hX2) (b4 ▸ hX1) (b1 ▸ hn2) (b2 ▸ hn1) b9
    (by rw [b5, b7]; exact hdof2)
  have hz : S.transformVelocity ⟨1, 0⟩ = ⟨0, 0⟩ := by
    simp [sva.Lib.transformVelocity, hrv]
  have hself := sva.PTransformd.mul_inv_self (X_r1b_r1s * X_0_r1b) horth
  have hmap : ∀ J : Matrix6Xd,
      J.map (tasks.MultiRobotTransformTask.correctCol ⟨0, 0⟩) = J := fun J => by
    rw [show tasks.MultiRobotTransformTask.correctCol ⟨0, 0⟩ = id from
      funext tasks.MultiRobotTransformTask.correctCol_zero, List.map_id]
  have hnn : ∀ J : Matrix6Xd, (J.map fun c => -c).map (fun c => -c) = J := fun J => by
    simp
  rw [a5, a6, a7, ← hsame, hself, hz, hmap] at h0
  rw [a5, a6, a8, ← hsame, hself, sva.PTransformd.ofRotation_one_mul] at h1
  rw [b5, b6, b7, ← hsame, hself, hz, hmap] at k0
  rw [b5, b6, b8, ← hsame, hself, sva.PTransformd.ofRotation_one_mul] at k1
  refine ⟨s, s1, t, t1, hs, hs1, ht, ht1, ?_, ?_⟩
  · rw [k1, h0, Option.map_some', hneg]
  · rw [k0, h1, Option.map_some', hneg, hnn]

theorem sva.PTransformd.mk_mul_mk (E1 E2 : Matrix3d) (r1 r2 : Vector3d) :
    (⟨E1, r1⟩ * ⟨E2, r2⟩ : sva.PTransformd) = ⟨E1 * E2, r2 + E2.transpose.mulVec r1⟩ :=
  rfl

theorem sample.spinColumn_one (r : Vector3d) :
    sample.spinColumn ⟨1, r⟩ = ![0, 0, 1, -(r 1), r 0, 0] := by
  funext i
  fin_cases i <;> simp [sample.spinColumn, sva.MotionVecd.vector, cross3]

/-- C15, as stated, fails: two turrets, the body of the first at `(1, 0, 0)` and the body
of the second at the origin, the surfaces being the body frames.  The block of the first
turret is the column `(0, 0, 1, 0, 0, 0)` when it is listed first and
`(0, 0, -1, 0, -1, 0)` when it is listed second, which is not the negation. -/
theorem tasks.MultiRobotTransformTask.swap_not_negated :
    ∃ s s1 t t1,
      tasks.MultiRobotTransformTask.new sample.spinLib sample.multiRobotTransformTask
        [sample.turret, sample.turret] 0 1 1 1 sample.identity sample.identity = some s ∧
      tasks.MultiRobotTransformTask.new sample.spinLib sample.multiRobotTransformTask
        [sample.turret, sample.turret] 1 0 1 1 sample.identity sample.identity = some s1 ∧
      tasks.MultiRobotTransformTask.update sample.svaLib sample.spinLib s
        [sample.turret, sample.turret]
        [sample.turretConfig ![1, 0, 0], sample.turretConfig 0] [[], []] = some t ∧
      tasks.MultiRobotTransformTask.update sample.svaLib sample.spinLib s1
        [sample.turret, sample.turret]
        [sample.turretConfig ![1, 0, 0], sample.turretConfig 0] [[], []] = some t1 ∧
      t.jac 0 = some [![0, 0, 1, 0, 0, 0]] ∧
      t1.jac 1 = some [![0, 0, -1, 0, -1, 0]] ∧
      t1.jac 1 ≠ (t.jac 0).map (fun m => m.map fun c => -c) := by
  obtain ⟨s, hs, a1, a2, a3, a4, a5, a6, a7, a8, a9⟩ :=
    tasks.MultiRobotTransformTask.new_fields sample.spinLib sample.multiRobotTransformTask
      [sample.turret, sample.turret] 0 1 1 1 sample.identity sample.identity
      sample.turret sample.turret 1 1 rfl rfl rfl rfl
  obtain ⟨s1, hs1, b1, b2, b3, b4, b5, b6, b7, b8, b9⟩ :=
    tasks.MultiRobotTransformTask.new_fields sample.spinLib sample.multiRobotTransformTask
      [sample.turret, sample.turret] 1 0 1 1 sample.identity sample.identity
      sample.turret sample.turret 1 1 rfl rfl rfl rfl
  obtain ⟨t, ht, h0, -⟩ := tasks.MultiRobotTransformTask.update_blocks sample.svaLib
    sample.spinLib s [sample.turret, sample.turret]
    [sample.turretConfig ![1, 0, 0], sample.turretConfig 0] [[], []] sample.turret
    sample.turret (sample.turretConfig ![1, 0, 0]) (sample.turretConfig 0)
    (sva.PTransformd.ofTranslation ![1, 0, 0]) (sva.PTransformd.ofTranslation 0) [] []
    _ _ (by rw [a1]; rfl) (by rw [a2]; rfl) (by rw [a1]; rfl) (by rw [a2]; rfl)
    (by rw [a3]; rfl) (by rw [a4]; rfl) (by rw [a1]; rfl) (by rw [a2]; rfl) a9
    (by rw [a7]; rfl)
  obtain ⟨t1, ht1, -, k1⟩ := tasks.MultiRobotTransformTask.update_blocks sample.svaLib
    sample.spinLib s1 [sample.turret, sample.turret]
    [sample.turretConfig ![1, 0, 0], sample.turretConfig 0] [[], []] sample.turret
    sample.turret (sample.turretConfig 0) (sample.turretConfig ![1, 0, 0])
    (sva.PTransformd.ofTranslation 0) (sva.PTransformd.ofTranslation ![1, 0, 0]) [] []
    _ _ (by rw [b1]; rfl) (by rw [b2]; rfl) (by rw [b1]; rfl) (by rw [b2]; rfl)
    (by rw [b3]; rfl) (by rw [b4]; rfl) (by rw [b1]; rfl) (by rw [b2]; rfl) b9
    (by rw [b7]; rfl)
  have hjac : sample.spinLib.newJacobian sample.turret 1 0 =
      ⟨[0, 1], sva.PTransformd.ofTranslation 0, 1⟩ := by decide
  have e0 : t.jac 0 = some [![0, 0, 1, 0, 0, 0]] := by
    rw [h0, a5, a6, a7, hjac]
    simp [sample.spinLib, sample.rbdLib, sample.spinColumn_one,
      tasks.MultiRobotTransformTask.correctCol, sva.Lib.transformVelocity, sample.svaLib,
      sva.PTransformd.inv, sva.PTransformd.mk_mul_mk,
      sample.identity, sva.PTransformd.ofTranslation, sva.MotionVecd.cross,
      sva.MotionVecd.vector, cross3]
    funext i
    fin_cases i <;> rfl
  have e1 : t1.jac 1 = some [![0, 0, -1, 0, -1, 0]] := by
    rw [k1, b5, b6, b8, hjac]
    simp [sample.spinLib, sample.rbdLib, sample.spinColumn_one,
      sva.PTransformd.inv, sva.PTransformd.mk_mul_mk,
      sample.identity, sva.PTransformd.ofTranslation, sva.PTransformd.ofRotation]
  refine ⟨s, s1, t, t1, hs, hs1, ht, ht1, e0, e1, ?_⟩
  rw [e0, e1]
  intro h
  simp only [Option.map_some', List.map_cons, List.map_nil, Option.some.injEq,
    List.cons.injEq, and_true] at h
  have h4 := congrFun h 4
  simp at h4

/-- The statement of `tasks.MultiRobotTransformTask.swap_negates_coincident` on two
turrets whose bodies both sit at `(1, 0, 0)`, the surfaces being the body frames. -/
theorem tasks.MultiRobotTransformTask.swap_negates_coincident_witness :
    stdAt [sample.turret, sample.turret] 0 = some sample.turret ∧
    stdAt [sample.turret, sample.turret] 1 = some sample.turret ∧
    sample.turret.bodyIndexById 1 = some 1 ∧
    stdAt [sample.turretConfig ![1, 0, 0], sample.turretConfig ![1, 0, 0]] 0 =
      some (sample.turretConfig ![1, 0, 0]) ∧
    stdAt [sample.turretConfig ![1, 0, 0], sample.turretConfig ![1, 0, 0]] 1 =
      some (sample.turretConfig ![1, 0, 0]) ∧
    stdAt (sample.turretConfig ![1, 0, 0]).bodyPosW 1 =
      some (sva.PTransformd.ofTranslation ![1, 0, 0]) ∧
    stdAt [([] : List sva.MotionVecd), []] 0 = some [] ∧
    stdAt [([] : List sva.MotionVecd), []] 1 = some [] ∧
    (sample.spinLib.jacobianAt (sample.spinLib.newJacobian sample.turret 1 0) sample.turret
      (sample.turretConfig ![1, 0, 0])
      (sample.identity * sva.PTransformd.ofTranslation ![1, 0, 0])).length =
      (sample.spinLib.newJacobian sample.turret 1 0).dof ∧
    (sample.identity * sva.PTransformd.ofTranslation ![1, 0, 0]).rotation *
      (sample.identity * sva.PTransformd.ofTranslation ![1, 0, 0]).rotation.transpose = 1 ∧
    sample.svaLib.rotationVelocity 1 = 0 ∧
    (∀ (jac : rbd.Jacobian) (mb : rbd.MultiBody) (J : Matrix6Xd),
      sample.spinLib.fullJacobian 6 jac mb (J.map fun c => -c) (List.replicate mb.nrDof 0) =
        (sample.spinLib.fullJacobian 6 jac mb J (List.replicate mb.nrDof 0)).map
          fun c => -c) ∧
    ∃ s s1 t t1,
      tasks.MultiRobotTransformTask.new sample.spinLib sample.multiRobotTransformTask
        [sample.turret, sample.turret] 0 1 1 1 sample.identity sample.identity = some s ∧
      tasks.MultiRobotTransformTask.new sample.spinLib sample.multiRobotTransformTask
        [sample.turret, sample.turret] 1 0 1 1 sample.identity sample.identity = some s1 ∧
      tasks.MultiRobotTransformTask.update sample.svaLib sample.spinLib s
        [sample.turret, sample.turret]
        [sample.turretConfig ![1, 0, 0], sample.turretConfig ![1, 0, 0]] [[], []] = some t ∧
      tasks.MultiRobotTransformTask.update sample.svaLib sample.spinLib s1
        [sample.turret, sample.turret]
        [sample.turretConfig ![1, 0, 0], sample.turretConfig ![1, 0, 0]] [[], []] =
        some t1 ∧
      t1.jac 1 = (t.jac 0).map (fun m => m.map fun c => -c) ∧
      t1.jac 0 = (t.jac 1).map (fun m => m.map fun c => -c) :=
  have horth : (sample.identity * sva.PTransformd.ofTranslation ![1, 0, 0]).rotation *
      (sample.identity * sva.PTransformd.ofTranslation ![1, 0, 0]).rotation.transpose =
      1 := by
    simp [sva.PTransformd.mul_rotation, sample.identity, sva.PTransformd.ofTranslation]
  ⟨rfl, rfl, rfl, rfl, rfl, rfl, rfl, rfl, rfl, horth, rfl, fun _ _ _ => rfl,
    tasks.MultiRobotTransformTask.swap_negates_coincident sample.svaLib sample.spinLib
      sample.multiRobotTransformTask sample.multiRobotTransformTask
      [sample.turret, sample.turret] 0 1 1 1 sample.identity sample.identity
      [sample.turretConfig ![1, 0, 0], sample.turretConfig ![1, 0, 0]] [[], []]
      sample.turret sample.turret 1 1 (sample.turretConfig ![1, 0, 0])
      (sample.turretConfig ![1, 0, 0]) (sva.PTransformd.ofTranslation ![1, 0, 0])
      (sva.PTransformd.ofTranslation ![1, 0, 0]) [] [] rfl rfl rfl rfl rfl rfl rfl rfl rfl
      rfl rfl rfl rfl horth rfl (fun _ _ _ => rfl)⟩

/-! ### OrientationTrackingTask -/

theorem tasks.OrientationTrackingTask.trackingLoop_spec (mb : rbd.MultiBody)
    (ids acc : List Int) (h : ∀ id ∈ ids, (mb.jointIndexById id).isSome) :
    ∃ T, tasks.OrientationTrackingTask.trackingLoop mb ids acc = some T ∧
      ∀ i, i ∈ T ↔ i ∈ acc ∨ ∃ id ∈ ids, mb.jointIndexById id = some i := by
  induction ids generalizing acc with
  | nil => exact ⟨acc, rfl, by simp⟩
  | cons id ids ih =>
    obtain ⟨i0, hi0⟩ := Option.isSome_iff_exists.1 (h id (List.mem_cons_self _ _))
    obtain ⟨T, hT, hmem⟩ := ih (if i0 ∈ acc then acc else acc ++ [i0])
      fun x hx => h x (List.mem_cons_of_mem _ hx)
    refine ⟨T, by simp [tasks.OrientationTrackingTask.trackingLoop, hi0, hT], fun i => ?_⟩
    rw [hmem]
    constructor
    · rintro (hi | ⟨x, hx, hxi⟩)
      · by_cases hc : i0 ∈ acc
        · rw [if_pos hc] at hi
          exact Or.inl hi
        · rw [if_neg hc, List.mem_append, List.mem_singleton] at hi
          rcases hi with hi | rfl
          · exact Or.inl hi
          · exact Or.inr ⟨id, List.mem_cons_self _ _, hi0⟩
      · exact Or.inr ⟨x, List.mem_cons_of_mem _ hx, hxi⟩
    · rintro (hi | ⟨x, hx, hxi⟩)
      · left
        by_cases hc : i0 ∈ acc
        · rw [if_pos hc]; exact hi
        · rw [if_neg hc]; exact List.mem_append_left _ hi
      · rcases List.mem_cons.1 hx with rfl | hx
        · left
          have e : i0 = i := Option.some.inj (hi0.symm.trans hxi)
          rw [e]
          by_cases hc : i ∈ acc
          · rw [if_pos hc]; exact hc
          · rw [if_neg hc]; exact List.mem_append_right _ (List.mem_singleton_self _)
        · exact Or.inr ⟨x, hx, hxi⟩

theorem tasks.OrientationTrackingTask.zeroLoop_spec (mb : rbd.MultiBody) (T : List Int)
    (is : List Int) (js : List rbd.Joint)
    (hjs : List.Forall₂ (fun i j => mb.joint i = some j) is js) (p : Int) (z : List Int) :
    ∃ zs, tasks.OrientationTrackingTask.zeroLoop mb T is p z = some (z ++ zs) ∧
      zs.Pairwise (fun a b => a < b) ∧
      (∀ c ∈ zs, p ≤ c ∧ c < p + ((js.map rbd.Joint.dof).sum : Nat)) ∧
      (∀ c ∈ zs, ∃ (k : Nat) (i : Int) (j : rbd.Joint), is[k]? = some i ∧ js[k]? = some j ∧
        i ∉ T ∧ p + (((js.take k).map rbd.Joint.dof).sum : Nat) ≤ c ∧
        c < p + (((js.take k).map rbd.Joint.dof).sum : Nat) + (j.dof : Nat)) ∧
      ∀ (k : Nat) (i : Int) (j : rbd.Joint), is[k]? = some i → js[k]? = some j → ∀ c : Int,
        p + (((js.take k).map rbd.Joint.dof).sum : Nat) ≤ c →
        c < p + (((js.take k).map rbd.Joint.dof).sum : Nat) + (j.dof : Nat) →
        (c ∈ zs ↔ i ∉ T) := by
  induction hjs generalizing p z with
  | nil =>
    refine ⟨[], by simp [tasks.OrientationTrackingTask.zeroLoop], List.Pairwise.nil,
      by simp, by simp, by simp⟩
  | @cons i j is js hij _ ih =>
    obtain ⟨zs, hz, hsorted, hbound, hfrom, hiff⟩ := ih (p + j.dof)
      (if i ∈ T then z else z ++ List.map (fun x : Nat => p + (x : Int)) (List.range j.dof))
    have hblock : ∀ c : Int, c ∈ List.map (fun x : Nat => p + (x : Int)) (List.range j.dof) ↔
        p ≤ c ∧ c < p + (j.dof : Nat) := by
      intro c
      simp only [List.mem_map, List.mem_range]
      constructor
      · rintro ⟨x, hx, rfl⟩
        omega
      · rintro ⟨h1, h2⟩
        exact ⟨(c - p).toNat, by omega, by omega⟩
    have hblockSorted : (List.map (fun x : Nat => p + (x : Int))
        (List.range j.dof)).Pairwise (fun a b => a < b) := by
      rw [List.pairwise_map]
      exact (List.pairwise_lt_range j.dof).imp fun h => by omega
    by_cases hT : i ∈ T
    · rw [if_pos hT] at hz
      refine ⟨zs, by simp [tasks.OrientationTrackingTask.zeroLoop, hij, hT, hz], hsorted,
        ?_, ?_, ?_⟩
      · intro c hc
        obtain ⟨h1, h2⟩ := hbound c hc
        simp only [List.map_cons, List.sum_cons, Nat.cast_add]
        omega
      · intro c hc
        obtain ⟨k, i1, j1, h1, h2, h3, h4, h5⟩ := hfrom c hc
        refine ⟨k + 1, i1, j1, by simpa using h1, by simpa using h2, h3, ?_, ?_⟩
        · simp only [List.take_succ_cons, List.map_cons, List.sum_cons, Nat.cast_add]
          omega
        · simp only [List.take_succ_cons, List.map_cons, List.sum_cons, Nat.cast_add]
          omega
      · intro k i1 j1 h1 h2 c h4 h5
        cases k with
        | zero =>
          simp only [List.getElem?_cons_zero, Option.some.injEq] at h1 h2
          subst h1 h2
          simp only [List.take_zero, List.map_nil, List.sum_nil, Nat.cast_zero, add_zero]
            at h4 h5
          constructor
          · intro hc
            have := (hbound c hc).1
            omega
          · intro hn
            exact absurd hT hn
        | succ k =>
          simp only [List.getElem?_cons_succ] at h1 h2
          simp only [List.take_succ_cons, List.map_cons, List.sum_cons, Nat.cast_add]
            at h4 h5
          exact hiff k i1 j1 h1 h2 c (by omega) (by omega)
    · rw [if_neg hT, List.append_assoc] at hz
      refine ⟨List.map (fun x : Nat => p + (x : Int)) (List.range j.dof) ++ zs,
        by simp [tasks.OrientationTrackingTask.zeroLoop, hij, hT, hz], ?_, ?_, ?_, ?_⟩
      · rw [List.pairwise_append]
        refine ⟨hblockSorted, hsorted, fun a ha b hb => ?_⟩
        have h1 := ((hblock a).1 ha).2
        have h2 := (hbound b hb).1
        omega
      · intro c hc
        simp only [List.map_cons, List.sum_cons, Nat.cast_add]
        rcases List.mem_append.1 hc with hc | hc
        · have := (hblock c).1 hc
          omega
        · have := hbound c hc
          omega
      · intro c hc
        rcases List.mem_append.1 hc with hc | hc
        · have := (hblock c).1 hc
          exact ⟨0, i, j, List.getElem?_cons_zero, List.getElem?_cons_zero, hT,
            by simpa using this.1, by simpa using this.2⟩
        · obtain ⟨k, i1, j1, h1, h2, h3, h4, h5⟩ := hfrom c hc
          refine ⟨k + 1, i1, j1, by simpa using h1, by simpa using h2, h3, ?_, ?_⟩
          · simp only [List.take_succ_cons, List.map_cons, List.sum_cons, Nat.cast_add]
            omega
          · simp only [List.take_succ_cons, List.map_cons, List.sum_cons, Nat.cast_add]
            omega
      · intro k i1 j1 h1 h2 c h4 h5
        cases k with
        | zero =>
          simp only [List.getElem?_cons_zero, Option.some.injEq] at h1 h2
          subst h1 h2
          simp only [List.take_zero, List.map_nil, List.sum_nil, Nat.cast_zero, add_zero]
            at h4 h5
          exact ⟨fun _ => hT, fun _ =>
            List.mem_append_left _ ((hblock c).2 ⟨h4, h5⟩)⟩
        | succ k =>
          simp only [List.getElem?_cons_succ] at h1 h2
          simp only [List.take_succ_cons, List.map_cons, List.sum_cons, Nat.cast_add]
            at h4 h5
          rw [List.mem_append, ← hiff k i1 j1 h1 h2 c (by omega) (by omega)]
          constructor
          · rintro (hc | hc)
            · have := ((hblock c).1 hc).2
              omega
            · exact hc
          · exact Or.inr

theorem forall₂_filterMap_eq {α β : Type} (f : α → Option β) (xs : List α) (ys : List β)
    (h : List.Forall₂ (fun x y => f x = some y) xs ys) : xs.filterMap f = ys := by
  induction h with
  | nil => rfl
  | cons hxy _ ih => simp [List.filterMap_cons, hxy, ih]

theorem tasks.OrientationTrackingTask.orientationTracking_new_spec (R : rbd.Lib)
    (mem : tasks.OrientationTrackingTask) (mb : rbd.MultiBody) (bodyId : Int)
    (bodyPoint bodyAxis : Vector3d) (trackingJointsId : List Int) (trackedPoint : Vector3d)
    (bodyIndex : Int) (joints : List rbd.Joint)
    (hbody : mb.bodyIndexById bodyId = some bodyIndex)
    (htrack : ∀ id ∈ trackingJointsId, (mb.jointIndexById id).isSome)
    (hpath : List.Forall₂ (fun i joint => mb.joint i = some joint) (R.jointsPath mb bodyId)
      joints) :
    ∃ s, tasks.OrientationTrackingTask.new R mem mb bodyId bodyPoint bodyAxis
        trackingJointsId trackedPoint = some s ∧
      s.bodyIndex_ = bodyIndex ∧ s.jac_ = R.newJacobian mb bodyId 0 ∧
      s.jac_.dof = (joints.map rbd.Joint.dof).sum ∧
      s.shortJacMat_.length = (joints.map rbd.Joint.dof).sum ∧
      s.zeroJacIndex_.Pairwise (fun a b => a < b) ∧
      (∀ c ∈ s.zeroJacIndex_, 0 ≤ c ∧ c < ((joints.map rbd.Joint.dof).sum : Nat)) ∧
      (∀ c ∈ s.zeroJacIndex_, ∃ (k : Nat) (i : Int) (joint : rbd.Joint),
        (R.jointsPath mb bodyId)[k]? = some i ∧ joints[k]? = some joint ∧
        (∀ id ∈ trackingJointsId, mb.jointIndexById id ≠ some i) ∧
        (((joints.take k).map rbd.Joint.dof).sum : Nat) ≤ c ∧
        c < (((joints.take k).map rbd.Joint.dof).sum : Nat) + (joint.dof : Nat)) ∧
      ∀ (k : Nat) (i : Int) (joint : rbd.Joint), (R.jointsPath mb bodyId)[k]? = some i →
        joints[k]? = some joint → ∀ c : Int,
        (((joints.take k).map rbd.Joint.dof).sum : Nat) ≤ c →
        c < (((joints.take k).map rbd.Joint.dof).sum : Nat) + (joint.dof : Nat) →
        (c ∈ s.zeroJacIndex_ ↔ ∀ id ∈ trackingJointsId, mb.jointIndexById id ≠ some i) := by
  obtain ⟨T, hT, hmem⟩ :=
    tasks.OrientationTrackingTask.trackingLoop_spec mb trackingJointsId [] htrack
  have hun : ∀ i, i ∉ T ↔ ∀ id ∈ trackingJointsId, mb.jointIndexById id ≠ some i := by
    intro i
    rw [hmem]
    simp
  have hpath1 : List.Forall₂ (fun i joint => mb.joint i = some joint)
      (R.newJacobian mb bodyId 0).jointsPath joints := hpath
  obtain ⟨zs, hz, hsorted, hbound, hfrom, hiff⟩ :=
    tasks.OrientationTrackingTask.zeroLoop_spec mb T _ joints hpath1 0 []
  have hdof : (R.newJacobian mb bodyId 0).dof = (joints.map rbd.Joint.dof).sum := by
    show (((R.jointsPath mb bodyId).filterMap mb.joint).map rbd.Joint.dof).sum = _
    rw [forall₂_filterMap_eq mb.joint _ _ hpath]
  refine ⟨_, by
    simp only [tasks.OrientationTrackingTask.new, hbody, hT, hz, Option.bind_eq_bind,
      Option.some_bind, List.nil_append]
    rfl, rfl, rfl, hdof, ?_, hsorted, ?_, ?_, ?_⟩
  · simp [tasks.OrientationTrackingTask.sizedCols, hdof]
  · intro c hc
    simpa using hbound c hc
  · intro c hc
    obtain ⟨k, i, j, h1, h2, h3, h4, h5⟩ := hfrom c hc
    exact ⟨k, i, j, h1, h2, (hun i).1 h3, by simpa using h4, by simpa using h5⟩
  · intro k i joint h1 h2 c h4 h5
    rw [← hun i]
    exact hiff k i joint h1 h2 c (by simpa using h4) (by simpa using h5)

/-- C21: when the body and the tracking joints are known to the robot and the joints of
the path are joints of the robot, the constructor of `OrientationTrackingTask` returns,
and `zeroJacIndex_` holds exactly the columns `c` of the Jacobian of the path that lie in
the columns of a joint of the path whose index is not the index of a tracking joint; all
of them satisfy `0 <= c < sum of the dofs of the joints of the path`, and the list is
strictly increasing, hence without duplicates. -/
theorem tasks.OrientationTrackingTask.zeroJacIndex_spec (R : rbd.Lib)
    (mem : tasks.OrientationTrackingTask) (mb : rbd.MultiBody) (bodyId : Int)
    (bodyPoint bodyAxis : Vector3d) (trackingJointsId : List Int) (trackedPoint : Vector3d)
    (bodyIndex : Int) (joints : List rbd.Joint)
    (hbody : mb.bodyIndexById bodyId = some bodyIndex)
    (htrack : ∀ id ∈ trackingJointsId, (mb.jointIndexById id).isSome)
    (hpath : List.Forall₂ (fun i joint => mb.joint i = some joint) (R.jointsPath mb bodyId)
      joints) :
    ∃ s, tasks.OrientationTrackingTask.new R mem mb bodyId bodyPoint bodyAxis
        trackingJointsId trackedPoint = some s ∧
      s.jac_.dof = (joints.map rbd.Joint.dof).sum ∧
      (∀ c : Int, c ∈ s.zeroJacIndex_ ↔
        ∃ (k : Nat) (i : Int) (joint : rbd.Joint),
          (R.jointsPath mb bodyId)[k]? = some i ∧ joints[k]? = some joint ∧
          (∀ id ∈ trackingJointsId, mb.jointIndexById id ≠ some i) ∧
          (((joints.take k).map rbd.Joint.dof).sum : Nat) ≤ c ∧
          c < (((joints.take k).map rbd.Joint.dof).sum : Nat) + (joint.dof : Nat)) ∧
      (∀ c ∈ s.zeroJacIndex_, 0 ≤ c ∧ c < (s.jac_.dof : Nat)) ∧
      s.zeroJacIndex_.Pairwise (fun a b => a < b) ∧ s.zeroJacIndex_.Nodup := by
  obtain ⟨s, hs, -, -, hdof, -, hsorted, hbound, hfrom, hiff⟩ :=
    tasks.OrientationTrackingTask.orientationTracking_new_spec R mem mb bodyId bodyPoint
      bodyAxis trackingJointsId trackedPoint bodyIndex joints hbody htrack hpath
  refine ⟨s, hs, hdof, fun c => ⟨hfrom c, ?_⟩, ?_, hsorted,
    hsorted.imp fun h => ne_of_lt h⟩
  · rintro ⟨k, i, joint, h1, h2, h3, h4, h5⟩
    exact (hiff k i joint h1 h2 c h4 h5).2 h3
  · intro c hc
    rw [hdof]
    exact hbound c hc

/-- The statement of `tasks.OrientationTrackingTask.zeroJacIndex_spec` on the sample arm,
whose path to the last body is the fixed root, the spherical joint (columns 0 to 2) and
the revolute joint (column 3): when the revolute joint is the tracking joint, the
columns 0, 1 and 2 are listed. -/
theorem tasks.OrientationTrackingTask.zeroJacIndex_spec_witness :
    sample.arm.bodyIndexById 2 = some 2 ∧
    (∀ id ∈ [(2 : Int)], (sample.arm.jointIndexById id).isSome) ∧
    List.Forall₂ (fun i joint => sample.arm.joint i = some joint)
      (sample.countLib.jointsPath sample.arm 2) sample.arm.joints ∧
    ∃ s, tasks.OrientationTrackingTask.new sample.countLib sample.orientationTrackingTask
        sample.arm 2 0 ![0, 0, 1] [2] ![1, 1, 1] = some s ∧
      s.zeroJacIndex_ = [0, 1, 2] ∧
      s.zeroJacIndex_.Pairwise (fun a b => a < b) :=
  have hpath : List.Forall₂ (fun i joint => sample.arm.joint i = some joint)
      (sample.countLib.jointsPath sample.arm 2) sample.arm.joints :=
    .cons rfl (.cons rfl (.cons rfl .nil))
  have h := tasks.OrientationTrackingTask.zeroJacIndex_spec sample.countLib
    sample.orientationTrackingTask sample.arm 2 0 ![0, 0, 1] [2] ![1, 1, 1] 2
    sample.arm.joints (by decide) (by decide) hpath
  ⟨by decide, by decide, hpath, h.imp fun s hs =>
    ⟨hs.1, by
      have e : tasks.OrientationTrackingTask.new sample.countLib
          sample.orientationTrackingTask sample.arm 2 0 ![0, 0, 1] [2] ![1, 1, 1] =
          some s := hs.1
      have e1 : (tasks.OrientationTrackingTask.new sample.countLib
          sample.orientationTrackingTask sample.arm 2 0 ![0, 0, 1] [2] ![1, 1, 1]).map
          (fun t => t.zeroJacIndex_) = some [0, 1, 2] := by decide
      rw [e] at e1
      exact Option.some.inj e1, hs.2.2.2.2.1⟩⟩

theorem tasks.OrientationTrackingTask.foldlM_setColZero {r : Nat} (zs : List Int)
    (m : MatrixNXd r) (h : ∀ c ∈ zs, 0 ≤ c ∧ c.toNat < m.length) :
    ∃ m1, zs.foldlM tasks.OrientationTrackingTask.setColZero m = some m1 ∧
      m1.length = m.length ∧
      ∀ c : Nat, m1[c]? = if (c : Int) ∈ zs ∧ c < m.length then some 0 else m[c]? := by
  induction zs generalizing m with
  | nil => exact ⟨m, rfl, rfl, fun c => by simp⟩
  | cons z zs ih =>
    obtain ⟨hz0, hzl⟩ := h z (List.mem_cons_self _ _)
    obtain ⟨m1, h1, h2, h3⟩ := ih (m.set z.toNat 0) fun c hc => by
      rw [List.length_set]
      exact h c (List.mem_cons_of_mem _ hc)
    refine ⟨m1, ?_, by rw [h2, List.length_set], fun c => ?_⟩
    · rw [List.foldlM_cons]
      simp [tasks.OrientationTrackingTask.setColZero, hz0, hzl, h1]
    · rw [h3 c, List.length_set, List.getElem?_set]
      by_cases hc : (c : Int) ∈ zs ∧ c < m.length
      · rw [if_pos hc, if_pos ⟨List.mem_cons_of_mem _ hc.1, hc.2⟩]
      · rw [if_neg hc]
        by_cases hcz : (c : Int) = z
        · have hzc : z.toNat = c := by omega
          have hcl : c < m.length := hzc ▸ hzl
          rw [if_pos hzc, if_pos hzl, if_pos ⟨hcz ▸ List.mem_cons_self _ _, hcl⟩]
        · have hzc : z.toNat ≠ c := by omega
          rw [if_neg hzc, if_neg]
          rintro ⟨hmem, hl⟩
          rcases List.mem_cons.1 hmem with e | e
          · exact hcz e
          · exact hc ⟨e, hl⟩

theorem tasks.OrientationTrackingTask.zeroJacobian_spec {r : Nat}
    (s : tasks.OrientationTrackingTask) (m : MatrixNXd r)
    (h : ∀ c ∈ s.zeroJacIndex_, 0 ≤ c ∧ c < (m.length : Nat)) :
    ∃ m1, s.zeroJacobian m = some m1 ∧ m1.length = m.length ∧
      (∀ c : Nat, c < m.length →
        ((c : Int) ∈ s.zeroJacIndex_ → m1[c]? = some 0) ∧
        ((c : Int) ∉ s.zeroJacIndex_ → m1[c]? = m[c]?)) ∧
      s.zeroJacobian m1 = some m1 := by
  have h0 : ∀ c ∈ s.zeroJacIndex_, 0 ≤ c ∧ c.toNat < m.length := fun c hc => by
    have := h c hc
    omega
  obtain ⟨m1, h1, h2, h3⟩ :=
    tasks.OrientationTrackingTask.foldlM_setColZero s.zeroJacIndex_ m h0
  obtain ⟨m2, k1, k2, k3⟩ :=
    tasks.OrientationTrackingTask.foldlM_setColZero s.zeroJacIndex_ m1 (h2 ▸ h0)
  refine ⟨m1, h1, h2, fun c hc => ⟨fun hmem => ?_, fun hmem => ?_⟩, ?_⟩
  · rw [h3 c, if_pos ⟨hmem, hc⟩]
  · rw [h3 c, if_neg fun hh => hmem hh.1]
  · show s.zeroJacIndex_.foldlM tasks.OrientationTrackingTask.setColZero m1 = some m1
    rw [k1]
    congr 1
    refine List.ext_getElem? fun c => ?_
    rw [k3 c, h2]
    by_cases hc : (c : Int) ∈ s.zeroJacIndex_ ∧ c < m.length
    · rw [if_pos hc, h3 c, if_pos hc]
    · rw [if_neg hc]

theorem rbd.Joint.dofBefore_le (joints : List rbd.Joint) (k : Nat) (joint : rbd.Joint)
    (h : joints[k]? = some joint) :
    ((joints.take k).map rbd.Joint.dof).sum + joint.dof ≤ (joints.map rbd.Joint.dof).sum := by
  have hk : k < joints.length := (List.getElem?_eq_some.1 h).1
  have := rbd.MultiBody.dofBefore_disjoint ⟨[], joints⟩ k joints.length joint h hk
  simpa using this

theorem tasks.OrientationTrackingTask.masked_columns (s : tasks.OrientationTrackingTask)
    (J : Matrix6Xd) (mb : rbd.MultiBody) (bodyId : Int) (R : rbd.Lib)
    (trackingJointsId : List Int) (joints : List rbd.Joint)
    (hlen : s.shortJacMat_.length = (joints.map rbd.Joint.dof).sum)
    (hJ : J.length = (joints.map rbd.Joint.dof).sum)
    (hbound : ∀ c ∈ s.zeroJacIndex_, 0 ≤ c ∧ c < ((joints.map rbd.Joint.dof).sum : Nat))
    (hiff : ∀ (k : Nat) (i : Int) (joint : rbd.Joint), (R.jointsPath mb bodyId)[k]? = some i →
      joints[k]? = some joint → ∀ c : Int,
      (((joints.take k).map rbd.Joint.dof).sum : Nat) ≤ c →
      c < (((joints.take k).map rbd.Joint.dof).sum : Nat) + (joint.dof : Nat) →
      (c ∈ s.zeroJacIndex_ ↔ ∀ id ∈ trackingJointsId, mb.jointIndexById id ≠ some i)) :
    ∃ m1, s.zeroJacobian (MatrixNXd.topRows J s.shortJacMat_.length) = some m1 ∧
      m1.length = (joints.map rbd.Joint.dof).sum ∧
      ∀ (k : Nat) (i : Int) (joint : rbd.Joint) (c : Nat),
        (R.jointsPath mb bodyId)[k]? = some i → joints[k]? = some joint →
        ((joints.take k).map rbd.Joint.dof).sum ≤ c →
        c < ((joints.take k).map rbd.Joint.dof).sum + joint.dof →
        ((∀ id ∈ trackingJointsId, mb.jointIndexById id ≠ some i) → m1[c]? = some 0) ∧
        ((∃ id ∈ trackingJointsId, mb.jointIndexById id = some i) →
          m1[c]? = (J[c]?).map fun col => ![col 0, col 1, col 2]) := by
  have hm : (MatrixNXd.topRows J s.shortJacMat_.length).length =
      (joints.map rbd.Joint.dof).sum := by
    simp [MatrixNXd.topRows, hlen, hJ]
  obtain ⟨m1, h1, h2, h3, -⟩ := tasks.OrientationTrackingTask.zeroJacobian_spec s
    (MatrixNXd.topRows J s.shortJacMat_.length) (by rw [hm]; exact hbound)
  refine ⟨m1, h1, h2.trans hm, fun k i joint c hi hj hlo hhi => ?_⟩
  have hle := rbd.Joint.dofBefore_le joints k joint hj
  have hc : c < (MatrixNXd.topRows J s.shortJacMat_.length).length := by
    rw [hm]
    omega
  have hmem := hiff k i joint hi hj (c : Int) (by exact_mod_cast hlo) (by exact_mod_cast hhi)
  obtain ⟨a, b⟩ := h3 c hc
  refine ⟨fun hun => a (hmem.2 hun), fun ⟨id, hid, hres⟩ => ?_⟩
  rw [b fun hin => hmem.1 hin id hid hres]
  simp only [MatrixNXd.topRows, List.getElem?_map, List.getElem?_take, hlen]
  rw [if_pos (by omega)]

/-- C22: let a task be constructed (body and tracking joints known to the robot, joints of
the path being joints of the robot) and let `s` be any state with the constructor's
`bodyIndex_`, `jac_`, `zeroJacIndex_` and number of columns of `shortJacMat_`, which no
method changes.  On every matrix with at least `jac_.dof()` columns `zeroJacobian`
returns; it sets the columns listed in `zeroJacIndex_` to zero, leaves the other columns
unchanged, and applied again changes nothing.  When the Jacobian (its derivative) of the
path has `jac_.dof()` columns, `update` (`updateDot`) returns and keeps these members; in
the short Jacobian it leaves, every column of a joint of the path that is not a tracking
joint is zero, and every column of a tracking joint is the first three rows of the same
column of `jac_.jacobian(mb, mbc)` (of `jac_.jacobianDot(mb, mbc)`). -/
theorem tasks.OrientationTrackingTask.zeroJacobian_masks (S : sva.Lib) (E : Eigen.Lib)
    (R : rbd.Lib) (mem : tasks.OrientationTrackingTask) (mb : rbd.MultiBody) (bodyId : Int)
    (bodyPoint bodyAxis : Vector3d) (trackingJointsId : List Int) (trackedPoint : Vector3d)
    (bodyIndex : Int) (joints : List rbd.Joint) (mbc : rbd.MultiBodyConfig)
    (bodyTf : sva.PTransformd)
    (hbody : mb.bodyIndexById bodyId = some bodyIndex)
    (htrack : ∀ id ∈ trackingJointsId, (mb.jointIndexById id).isSome)
    (hpath : List.Forall₂ (fun i joint => mb.joint i = some joint) (R.jointsPath mb bodyId)
      joints)
    (hpose : stdAt mbc.bodyPosW bodyIndex = some bodyTf)
    (hjac : (R.jacobian (R.newJacobian mb bodyId 0) mb mbc).length =
      (joints.map rbd.Joint.dof).sum)
    (hjacDot : (R.jacobianDot (R.newJacobian mb bodyId 0) mb mbc).length =
      (joints.map rbd.Joint.dof).sum) :
    ∃ s0, tasks.OrientationTrackingTask.new R mem mb bodyId bodyPoint bodyAxis
        trackingJointsId trackedPoint = some s0 ∧
      ∀ s : tasks.OrientationTrackingTask, s.bodyIndex_ = s0.bodyIndex_ → s.jac_ = s0.jac_ →
        s.zeroJacIndex_ = s0.zeroJacIndex_ → s.shortJacMat_.length = s0.jac_.dof →
        (∀ (r : Nat) (m : MatrixNXd r), s.jac_.dof ≤ m.length →
          ∃ m1, s.zeroJacobian m = some m1 ∧ m1.length = m.length ∧
            (∀ c : Nat, c < m.length →
              ((c : Int) ∈ s.zeroJacIndex_ → m1[c]? = some 0) ∧
              ((c : Int) ∉ s.zeroJacIndex_ → m1[c]? = m[c]?)) ∧
            s.zeroJacobian m1 = some m1) ∧
        (∃ s1, tasks.OrientationTrackingTask.update S E R s mb mbc = some s1 ∧
          s1.bodyIndex_ = s0.bodyIndex_ ∧ s1.jac_ = s0.jac_ ∧
          s1.zeroJacIndex_ = s0.zeroJacIndex_ ∧ s1.shortJacMat_.length = s0.jac_.dof ∧
          ∀ (k : Nat) (i : Int) (joint : rbd.Joint) (c : Nat),
            (R.jointsPath mb bodyId)[k]? = some i → joints[k]? = some joint →
            ((joints.take k).map rbd.Joint.dof).sum ≤ c →
            c < ((joints.take k).map rbd.Joint.dof).sum + joint.dof →
            ((∀ id ∈ trackingJointsId, mb.jointIndexById id ≠ some i) →
              s1.shortJacMat_[c]? = some 0) ∧
            ((∃ id ∈ trackingJointsId, mb.jointIndexById id = some i) →
              s1.shortJacMat_[c]? =
                ((R.jacobian s.jac_ mb mbc)[c]?).map fun col => ![col 0, col 1, col 2])) ∧
        (∃ s1, tasks.OrientationTrackingTask.updateDot R s mb mbc = some s1 ∧
          s1.bodyIndex_ = s0.bodyIndex_ ∧ s1.jac_ = s0.jac_ ∧
          s1.zeroJacIndex_ = s0.zeroJacIndex_ ∧ s1.shortJacMat_.length = s0.jac_.dof ∧
          ∀ (k : Nat) (i : Int) (joint : rbd.Joint) (c : Nat),
            (R.jointsPath mb bodyId)[k]? = some i → joints[k]? = some joint →
            ((joints.take k).map rbd.Joint.dof).sum ≤ c →
            c < ((joints.take k).map rbd.Joint.dof).sum + joint.dof →
            ((∀ id ∈ trackingJointsId, mb.jointIndexById id ≠ some i) →
              s1.shortJacMat_[c]? = some 0) ∧
            ((∃ id ∈ trackingJointsId, mb.jointIndexById id = some i) →
              s1.shortJacMat_[c]? =
                ((R.jacobianDot s.jac_ mb mbc)[c]?).map fun col =>
                  ![col 0, col 1, col 2])) := by
  obtain ⟨s0, hs0, hbi, hj0, hdof, -, -, hbound, -, hiff⟩ :=
    tasks.OrientationTrackingTask.orientationTracking_new_spec R mem mb bodyId bodyPoint
      bodyAxis trackingJointsId trackedPoint bodyIndex joints hbody htrack hpath
  refine ⟨s0, hs0, fun s e1 e2 e3 e4 => ⟨fun r m hm => ?_, ?_, ?_⟩⟩
  · refine tasks.OrientationTrackingTask.zeroJacobian_spec s m fun c hc => ?_
    have := hbound c (e3 ▸ hc)
    rw [e2, hdof] at hm
    omega
  · obtain ⟨m1, h1, h2, h3⟩ := tasks.OrientationTrackingTask.masked_columns s
      (R.jacobian s.jac_ mb mbc) mb bodyId R trackingJointsId joints (e4.trans hdof)
      (by rw [e2, hj0]; exact hjac) (e3 ▸ hbound) (e3 ▸ hiff)
    obtain ⟨s1, hs1, f1, f2, f3, f4⟩ : ∃ s1,
        tasks.OrientationTrackingTask.update S E R s mb mbc = some s1 ∧
        s1.shortJacMat_ = m1 ∧ s1.bodyIndex_ = s.bodyIndex_ ∧ s1.jac_ = s.jac_ ∧
        s1.zeroJacIndex_ = s.zeroJacIndex_ :=
      ⟨{ s with
          eval_ := S.rotationError bodyTf.rotation
            (E.fromTwoVectorsInverse
              (E.normalized (bodyTf.rotation.transpose.mulVec s.bodyAxis_))
              (E.normalized (s.trackedPoint_ - (s.bodyPoint_ * bodyTf).translation)) *
              bodyTf.rotation)
          shortJacMat_ := m1
          jacMat_ := R.fullJacobian 3 s.jac_ mb m1 s.jacMat_ }, by
        simp only [tasks.OrientationTrackingTask.update, e1, hbi, hpose, h1,
          Option.bind_eq_bind, Option.some_bind], rfl, rfl, rfl, rfl⟩
    refine ⟨s1, hs1, f2.trans e1, f3.trans e2, f4.trans e3, ?_, ?_⟩
    · rw [f1]
      exact h2.trans hdof.symm
    · rw [f1]
      exact h3
  · obtain ⟨m1, h1, h2, h3⟩ := tasks.OrientationTrackingTask.masked_columns s
      (R.jacobianDot s.jac_ mb mbc) mb bodyId R trackingJointsId joints (e4.trans hdof)
      (by rw [e2, hj0]; exact hjacDot) (e3 ▸ hbound) (e3 ▸ hiff)
    obtain ⟨s1, hs1, f1, f2, f3, f4⟩ : ∃ s1,
        tasks.OrientationTrackingTask.updateDot R s mb mbc = some s1 ∧
        s1.shortJacMat_ = m1 ∧ s1.bodyIndex_ = s.bodyIndex_ ∧ s1.jac_ = s.jac_ ∧
        s1.zeroJacIndex_ = s.zeroJacIndex_ :=
      ⟨{ s with
          shortJacMat_ := m1
          jacDotMat_ := R.fullJacobian 3 s.jac_ mb m1 s.jacDotMat_ }, by
        simp only [tasks.OrientationTrackingTask.updateDot, h1, Option.bind_eq_bind,
          Option.some_bind], rfl, rfl, rfl, rfl⟩
    refine ⟨s1, hs1, f2.trans e1, f3.trans e2, f4.trans e3, ?_, ?_⟩
    · rw [f1]
      exact h2.trans hdof.symm
    · rw [f1]
      exact h3

theorem sample.armTracking_new :
    tasks.OrientationTrackingTask.new sample.countLib sample.orientationTrackingTask
      sample.arm 2 0 ![0, 0, 1] [2] ![1, 1, 1] = some sample.armTracking := by
  decide

/-- The statement of `tasks.OrientationTrackingTask.zeroJacobian_masks` on the sample arm
with the revolute joint as tracking joint: after `update` the column 0 of the short
Jacobian, a column of the spherical joint, is zero, and the column 3, the column of the
revolute joint, is the column `(4, 4, 4)` of the Jacobian of the path. -/
theorem tasks.OrientationTrackingTask.zeroJacobian_masks_witness :
    sample.arm.bodyIndexById 2 = some 2 ∧
    (∀ id ∈ [(2 : Int)], (sample.arm.jointIndexById id).isSome) ∧
    List.Forall₂ (fun i joint => sample.arm.joint i = some joint)
      (sample.countLib.jointsPath sample.arm 2) sample.arm.joints ∧
    stdAt sample.armConfig.bodyPosW 2 = some sample.shift ∧
    (sample.countLib.jacobian (sample.countLib.newJacobian sample.arm 2 0) sample.arm
      sample.armConfig).length = (sample.arm.joints.map rbd.Joint.dof).sum ∧
    (sample.countLib.jacobianDot (sample.countLib.newJacobian sample.arm 2 0) sample.arm
      sample.armConfig).length = (sample.arm.joints.map rbd.Joint.dof).sum ∧
    ∃ s1, tasks.OrientationTrackingTask.update sample.svaLib sample.eigenLib sample.countLib
        sample.armTracking sample.arm sample.armConfig = some s1 ∧
      s1.shortJacMat_[0]? = some 0 ∧ s1.shortJacMat_[3]? = some ![4, 4, 4] :=
  have hpath : List.Forall₂ (fun i joint => sample.arm.joint i = some joint)
      (sample.countLib.jointsPath sample.arm 2) sample.arm.joints :=
    .cons rfl (.cons rfl (.cons rfl .nil))
  have h := tasks.OrientationTrackingTask.zeroJacobian_masks sample.svaLib sample.eigenLib
    sample.countLib sample.orientationTrackingTask sample.arm 2 0 ![0, 0, 1] [2] ![1, 1, 1] 2
    sample.arm.joints sample.armConfig sample.shift (by decide) (by decide) hpath rfl
    (by decide) (by decide)
  ⟨by decide, by decide, hpath, rfl, by decide, by decide, by
    obtain ⟨s0, hs0, H⟩ := h
    rw [sample.armTracking_new] at hs0
    cases hs0
    obtain ⟨-, ⟨s1, hs1, -, -, -, -, hcols⟩, -⟩ := H sample.armTracking rfl rfl rfl rfl
    refine ⟨s1, hs1, ?_, ?_⟩
    · exact (hcols 1 1 (rbd.Joint.ofType .Spherical 1) 0 rfl rfl (by decide) (by decide)).1
        (by decide)
    · rw [(hcols 2 2 (rbd.Joint.ofType .Rev 2) 3 rfl rfl (by decide) (by decide)).2
        ⟨2, by simp, by decide⟩]
      simp [sample.countLib, sample.armTracking, List.range_succ]
      funext i
      fin_cases i <;> norm_num⟩

/-! ### PostureTask: range of the accesses of `update` -/

theorem tasks.PostureTask.updateLoop_returns (S : sva.Lib) (mb : rbd.MultiBody)
    (mbc : rbd.MultiBodyConfig) (q_ : List (List ℚ)) (n : Nat) :
    ∀ (a pos : Nat) (eval : VectorXd), a + n ≤ mb.nrJoints →
      pos ≤ ((mb.joints.take a).map rbd.Joint.dof).sum → eval.length = mb.nrDof →
      (∀ (i : Nat) (joint : rbd.Joint), mb.joints[i]? = some joint →
        (joint.dof = 1 → ∃ qi x ci y, q_[i]? = some qi ∧ qi[0]? = some x ∧
          mbc.q[i]? = some ci ∧ ci[0]? = some y) ∧
        (joint.dof = 4 → ∃ qi w x y z Xj, q_[i]? = some qi ∧ qi[0]? = some w ∧
          qi[1]? = some x ∧ qi[2]? = some y ∧ qi[3]? = some z ∧
          mbc.jointConfig[i]? = some Xj)) →
      ∃ eval1, tasks.PostureTask.updateLoop S mb mbc q_ (List.range' a n) pos eval =
        some eval1 := by
  induction n with
  | zero =>
    intro a pos eval _ _ _ _
    exact ⟨eval, rfl⟩
  | succ n ih =>
    intro a pos eval ha hpos hlen hq
    have hal : a < mb.joints.length := by
      unfold rbd.MultiBody.nrJoints at ha
      omega
    have hj : mb.joints[a]? = some mb.joints[a] := List.getElem?_eq_getElem hal
    have hjoint : mb.joint (a : Int) = some mb.joints[a] := by
      rw [rbd.MultiBody.joint, stdAt_natCast, hj]
    have hsucc := rbd.MultiBody.dofBefore_succ mb a _ hj
    have htot : ((mb.joints.take (a + 1)).map rbd.Joint.dof).sum ≤ mb.nrDof := by
      have := rbd.MultiBody.dofBefore_mono mb (a + 1) mb.joints.length hal
      simpa [rbd.MultiBody.nrDof] using this
    obtain ⟨hq1, hq4⟩ := hq a _ hj
    rw [List.range'_succ]
    simp only [tasks.PostureTask.updateLoop, hjoint, Option.bind_eq_bind, Option.some_bind]
    by_cases h1 : mb.joints[a].dof = 1
    · obtain ⟨qi, x, ci, y, e1, e2, e3, e4⟩ := hq1 h1
      have hset : tasks.PostureTask.setCoeff eval pos (x - y) = some (eval.set pos (x - y)) := by
        rw [tasks.PostureTask.setCoeff, if_pos (by omega)]
      simp only [if_pos h1, e1, e2, e3, e4, hset, Option.some_bind]
      exact ih (a + 1) (pos + 1) _ (by omega) (by omega) (by simp [hlen]) hq
    · by_cases h4 : mb.joints[a].dof = 4
      · obtain ⟨qi, w, x, y, z, Xj, e1, e2, e3, e4, e5, e6⟩ := hq4 h4
        have hset : ∀ err, tasks.PostureTask.setSegment3 eval pos err =
            some (((eval.set pos (err 0)).set (pos + 1) (err 1)).set (pos + 2) (err 2)) := by
          intro err
          rw [tasks.PostureTask.setSegment3, if_pos (by omega)]
        simp only [if_neg h1, if_pos h4, e1, e2, e3, e4, e5, e6, hset, Option.some_bind]
        exact ih (a + 1) (pos + 3) _ (by omega) (by omega) (by simp [hlen]) hq
      · simp only [if_neg h1, if_neg h4]
        exact ih (a + 1) pos _ (by omega) (by omega) hlen hq

theorem tasks.PostureTask.update_returns (S : sva.Lib) (s : tasks.PostureTask)
    (mb : rbd.MultiBody) (mbc : rbd.MultiBodyConfig) (hn : 2 ≤ mb.nrJoints)
    (hlen : s.eval_.length = mb.nrDof)
    (hq : ∀ (i : Nat) (joint : rbd.Joint), mb.joints[i]? = some joint →
      (joint.dof = 1 → ∃ qi x ci y, s.q_[i]? = some qi ∧ qi[0]? = some x ∧
        mbc.q[i]? = some ci ∧ ci[0]? = some y) ∧
      (joint.dof = 4 → ∃ qi w x y z Xj, s.q_[i]? = some qi ∧ qi[0]? = some w ∧
        qi[1]? = some x ∧ qi[2]? = some y ∧ qi[3]? = some z ∧
        mbc.jointConfig[i]? = some Xj)) :
    ∃ pos s1, mb.jointPosInDof 1 = some pos ∧
      tasks.PostureTask.update S s mb mbc = some s1 := by
  have hp : mb.jointPosInDof 1 = some ((mb.joints.take 1).map rbd.Joint.dof).sum := by
    rw [rbd.MultiBody.jointPosInDof, if_pos ⟨by decide, by simpa using hn⟩]
    rfl
  obtain ⟨eval1, h1⟩ := tasks.PostureTask.updateLoop_returns S mb mbc s.q_ (mb.nrJoints - 1)
    1 ((mb.joints.take 1).map rbd.Joint.dof).sum s.eval_ (by omega) (Nat.le_refl _) hlen hq
  exact ⟨_, { s with eval_ := eval1 }, hp, by
    simp only [tasks.PostureTask.update, hp, h1, Option.bind_eq_bind, Option.some_bind]⟩

/-- C23, on a robot with the root joint only (a free flyer): the posture and the
configuration have one entry of seven parameters for that joint, the constructor returns,
yet `update` reads `jointPosInDof(1)`, which is outside the table of the single joint, so
the call makes an out-of-range access although its loop runs no iteration.  For every
robot with at least two joints, an error vector of `nrDof` entries and well-sized entries
of the posture and of the configuration, `jointPosInDof(1)` is defined and `update`
returns, every write being inside the error vector. -/
theorem tasks.PostureTask.update_root_only_out_of_range :
    (sample.rootOnly.nrJoints = 1 ∧
      tasks.PostureTask.new sample.rootOnly [[1, 0, 0, 0, 0, 0, 0]] =
        some ⟨[[1, 0, 0, 0, 0, 0, 0]], List.replicate 6 0, tasks.PostureTask.identityFrom 6 6,
          List.replicate 6 (List.replicate 6 0)⟩ ∧
      sample.rootOnlyConfig.q = [[1, 0, 0, 0, 0, 0, 0]] ∧
      sample.rootOnly.jointPosInDof 1 = none ∧
      tasks.PostureTask.update sample.svaLib
        ⟨[[1, 0, 0, 0, 0, 0, 0]], List.replicate 6 0, tasks.PostureTask.identityFrom 6 6,
          List.replicate 6 (List.replicate 6 0)⟩ sample.rootOnly sample.rootOnlyConfig =
        none) ∧
    ∀ (S : sva.Lib) (s : tasks.PostureTask) (mb : rbd.MultiBody) (mbc : rbd.MultiBodyConfig),
      2 ≤ mb.nrJoints → s.eval_.length = mb.nrDof →
      (∀ (i : Nat) (joint : rbd.Joint), mb.joints[i]? = some joint →
        (joint.dof = 1 → ∃ qi x ci y, s.q_[i]? = some qi ∧ qi[0]? = some x ∧
          mbc.q[i]? = some ci ∧ ci[0]? = some y) ∧
        (joint.dof = 4 → ∃ qi w x y z Xj, s.q_[i]? = some qi ∧ qi[0]? = some w ∧
          qi[1]? = some x ∧ qi[2]? = some y ∧ qi[3]? = some z ∧
          mbc.jointConfig[i]? = some Xj)) →
      ∃ pos s1, mb.jointPosInDof 1 = some pos ∧
        tasks.PostureTask.update S s mb mbc = some s1 :=
  ⟨⟨rfl, by decide, rfl, by decide, by decide⟩,
    fun S s mb mbc hn hlen hq => tasks.PostureTask.update_returns S s mb mbc hn hlen hq⟩

/-! ### MultiCoMTask: the `update` overloads -/

theorem tasks.MultiCoMTask.updateWith_returns (R : rbd.Lib) (mbs : List rbd.MultiBody)
    (mbcs : List rbd.MultiBodyConfig)
    (comOf : Int → rbd.MultiBody → rbd.MultiBodyConfig → Option Vector3d)
    (accOf : rbd.CoMJacobian → Int → rbd.MultiBody → rbd.MultiBodyConfig → Option Vector3d)
    (s : tasks.MultiCoMTask)
    (hw : s.robotsWeight_.length = s.robotIndexes_.length)
    (hjac : s.jac_.length = s.robotIndexes_.length)
    (hjacMat : s.jacMat_.length = s.robotIndexes_.length)
    (hcs : ∀ r ∈ s.robotIndexes_, ∃ mb mbc c, stdAt mbs r = some mb ∧
      stdAt mbcs r = some mbc ∧ comOf r mb mbc = some c ∧
      ∀ jac, ∃ a, accOf jac r mb mbc = some a) :
    ∃ s1, tasks.MultiCoMTask.updateWith R mbs mbcs comOf accOf s = some s1 := by
  unfold tasks.MultiCoMTask.updateWith
  obtain ⟨s1, h1, -⟩ := foldlM_range_inv (tasks.MultiCoMTask.updateStep R mbs mbcs comOf accOf)
    (fun _ t => t.robotIndexes_ = s.robotIndexes_ ∧ t.robotsWeight_ = s.robotsWeight_ ∧
      t.jac_ = s.jac_ ∧ t.jacMat_.length = s.jacMat_.length)
    s.robotIndexes_.length { s with eval_ := s.com_, speed_ := 0, normalAcc_ := 0 }
    ⟨rfl, rfl, rfl, rfl⟩ (by
      rintro i t hi ⟨h2, h3, h4, h5⟩
      have hri : s.robotIndexes_[i]? = some s.robotIndexes_[i] := List.getElem?_eq_getElem hi
      obtain ⟨mb, mbc, c, hmb, hmbc, hc, hacc⟩ := hcs _ (List.getElem?_mem hri)
      have hwi : i < s.robotsWeight_.length := hw ▸ hi
      have hji : i < s.jac_.length := hjac ▸ hi
      obtain ⟨a, ha⟩ := hacc s.jac_[i]
      have hmi : i < t.jacMat_.length := by rw [h5, hjacMat]; exact hi
      refine ⟨_, by
        simp only [tasks.MultiCoMTask.updateStep, h2, h3, h4, hri, hmb, hmbc, hc, ha,
          List.getElem?_eq_getElem hwi, List.getElem?_eq_getElem hji,
          List.getElem?_eq_getElem hmi, Option.bind_eq_bind, Option.some_bind]; rfl, ?_⟩
      exact ⟨rfl, rfl, rfl, by simp [h5]⟩)
  exact ⟨s1, h1⟩

theorem tasks.MultiCoMTask.updateWith_congr (R : rbd.Lib) (mbs : List rbd.MultiBody)
    (mbcs : List rbd.MultiBodyConfig)
    (comOf1 comOf2 : Int → rbd.MultiBody → rbd.MultiBodyConfig → Option Vector3d)
    (accOf : rbd.CoMJacobian → Int → rbd.MultiBody → rbd.MultiBodyConfig → Option Vector3d)
    (s : tasks.MultiCoMTask)
    (h : ∀ r ∈ s.robotIndexes_, ∀ mb mbc, stdAt mbs r = some mb → stdAt mbcs r = some mbc →
      comOf1 r mb mbc = comOf2 r mb mbc) :
    tasks.MultiCoMTask.updateWith R mbs mbcs comOf1 accOf s =
      tasks.MultiCoMTask.updateWith R mbs mbcs comOf2 accOf s := by
  unfold tasks.MultiCoMTask.updateWith
  have hrel := foldlM_range_rel (tasks.MultiCoMTask.updateStep R mbs mbcs comOf1 accOf)
    (tasks.MultiCoMTask.updateStep R mbs mbcs comOf2 accOf)
    (fun _ a b => a = b ∧ a.robotIndexes_ = s.robotIndexes_) s.robotIndexes_.length
    { s with eval_ := s.com_, speed_ := 0, normalAcc_ := 0 }
    { s with eval_ := s.com_, speed_ := 0, normalAcc_ := 0 } ⟨rfl, rfl⟩ (by
      rintro i a b _ ⟨rfl, hidx⟩
      have heq : tasks.MultiCoMTask.updateStep R mbs mbcs comOf1 accOf a i =
          tasks.MultiCoMTask.updateStep R mbs mbcs comOf2 accOf a i := by
        unfold tasks.MultiCoMTask.updateStep
        cases hr : a.robotIndexes_[i]? with
        | none => rfl
        | some r =>
          cases hmb : stdAt mbs r with
          | none => simp [hmb]
          | some mb =>
            cases hmbc : stdAt mbcs r with
            | none => simp [hmb, hmbc]
            | some mbc =>
              have hmem : r ∈ s.robotIndexes_ := hidx ▸ List.getElem?_mem hr
              simp only [Option.bind_eq_bind, Option.some_bind, hmb, hmbc, h r hmem mb mbc hmb hmbc]
      rw [← heq]
      cases hs : tasks.MultiCoMTask.updateStep R mbs mbcs comOf1 accOf a i with
      | none => exact Option.Rel.none
      | some a1 =>
        refine Option.Rel.some ⟨rfl, ?_⟩
        unfold tasks.MultiCoMTask.updateStep at hs
        simp only [Option.bind_eq_bind, Option.bind_eq_some] at hs
        obtain ⟨_, _, _, _, _, _, _, _, _, _, _, _, _, _, _, _, hs⟩ := hs
        cases hs
        exact hidx)
  generalize (List.range s.robotIndexes_.length).foldlM
    (tasks.MultiCoMTask.updateStep R mbs mbcs comOf1 accOf)
    { s with eval_ := s.com_, speed_ := 0, normalAcc_ := 0 } = x at hrel
  generalize (List.range s.robotIndexes_.length).foldlM
    (tasks.MultiCoMTask.updateStep R mbs mbcs comOf2 accOf)
    { s with eval_ := s.com_, speed_ := 0, normalAcc_ := 0 } = y at hrel
  cases hrel with
  | none => rfl
  | some hq => rw [hq.1]

/-- C24: when `coms[r]` is `computeCoM(mbs[r], mbcs[r])` for every listed robot index `r`,
`update(mbs, mbcs, normalAccB)` and `update(mbs, mbcs, coms, normalAccB)`, started from
the same state, end in the same state: `eval`, `speed`, `normalAcc` and the Jacobians of
the robots are identical.  When moreover the state has one weight, one Jacobian object
and one Jacobian matrix per listed robot and every listed robot index is in range of
`mbs`, `mbcs` and `normalAccB`, both overloads return. -/
theorem tasks.MultiCoMTask.update_overloads_agree (R : rbd.Lib) (s : tasks.MultiCoMTask)
    (mbs : List rbd.MultiBody) (mbcs : List rbd.MultiBodyConfig) (coms : List Vector3d)
    (normalAccB : List (List sva.MotionVecd))
    (hcoms : ∀ r ∈ s.robotIndexes_, ∀ mb mbc, stdAt mbs r = some mb →
      stdAt mbcs r = some mbc → stdAt coms r = some (R.computeCoM mb mbc)) :
    tasks.MultiCoMTask.updateB R s mbs mbcs normalAccB =
      tasks.MultiCoMTask.updateComs R s mbs mbcs coms normalAccB ∧
    (s.robotsWeight_.length = s.robotIndexes_.length →
      s.jac_.length = s.robotIndexes_.length → s.jacMat_.length = s.robotIndexes_.length →
      (∀ r ∈ s.robotIndexes_, 0 ≤ r ∧ r.toNat < mbs.length ∧ r.toNat < mbcs.length ∧
        r.toNat < normalAccB.length) →
      ∃ t, tasks.MultiCoMTask.updateB R s mbs mbcs normalAccB = some t ∧
        tasks.MultiCoMTask.updateComs R s mbs mbcs coms normalAccB = some t) := by
  have heq : tasks.MultiCoMTask.updateB R s mbs mbcs normalAccB =
      tasks.MultiCoMTask.updateComs R s mbs mbcs coms normalAccB :=
    tasks.MultiCoMTask.updateWith_congr R mbs mbcs _ _ _ s fun r hr mb mbc hmb hmbc =>
      (hcoms r hr mb mbc hmb hmbc).symm
  refine ⟨heq, fun hw hjac hjacMat hr => ?_⟩
  obtain ⟨t, ht⟩ := tasks.MultiCoMTask.updateWith_returns R mbs mbcs
    (fun _ mb mbc => some (R.computeCoM mb mbc))
    (fun jac r mb mbc => do
      let nB ← stdAt normalAccB r
      some (R.comNormalAccelerationB jac mb mbc nB)) s hw hjac hjacMat (by
      intro r hmem
      obtain ⟨h0, hb1, hb2, hb3⟩ := hr r hmem
      obtain ⟨mb, hmb⟩ := stdAt_isSome mbs r h0 hb1
      obtain ⟨mbc, hmbc⟩ := stdAt_isSome mbcs r h0 hb2
      obtain ⟨nB, hnB⟩ := stdAt_isSome normalAccB r h0 hb3
      exact ⟨mb, mbc, _, hmb, hmbc, rfl, fun jac =>
        ⟨R.comNormalAccelerationB jac mb mbc nB, by simp [hnB]⟩⟩)
  have ht1 : tasks.MultiCoMTask.updateB R s mbs mbcs normalAccB = some t := ht
  exact ⟨t, ht1, heq ▸ ht1⟩

/-- The statement of `tasks.MultiCoMTask.update_overloads_agree` on the sample arm and
slider, with `coms` the centres of mass `computeCoM` returns for them: both overloads
return the same state. -/
theorem tasks.MultiCoMTask.update_overloads_agree_witness :
    (∀ r ∈ sample.multiCoMTask.robotIndexes_, ∀ mb mbc,
      stdAt [sample.arm, sample.slider] r = some mb →
      stdAt [sample.armConfig, sample.sliderConfig] r = some mbc →
      stdAt [sample.rbdLib.computeCoM sample.arm sample.armConfig,
        sample.rbdLib.computeCoM sample.slider sample.sliderConfig] r =
        some (sample.rbdLib.computeCoM mb mbc)) ∧
    ∃ t, tasks.MultiCoMTask.updateB sample.rbdLib sample.multiCoMTask
        [sample.arm, sample.slider] [sample.armConfig, sample.sliderConfig] [[], []] =
        some t ∧
      tasks.MultiCoMTask.updateComs sample.rbdLib sample.multiCoMTask
        [sample.arm, sample.slider] [sample.armConfig, sample.sliderConfig]
        [sample.rbdLib.computeCoM sample.arm sample.armConfig,
          sample.rbdLib.computeCoM sample.slider sample.sliderConfig] [[], []] = some t :=
  have hcoms : ∀ r ∈ sample.multiCoMTask.robotIndexes_, ∀ mb mbc,
      stdAt [sample.arm, sample.slider] r = some mb →
      stdAt [sample.armConfig, sample.sliderConfig] r = some mbc →
      stdAt [sample.rbdLib.computeCoM sample.arm sample.armConfig,
        sample.rbdLib.computeCoM sample.slider sample.sliderConfig] r =
        some (sample.rbdLib.computeCoM mb mbc) := by
    intro r hr mb mbc h1 h2
    have hr1 : r = 0 ∨ r = 1 := by simpa [sample.multiCoMTask] using hr
    rcases hr1 with rfl | rfl
    · cases h1
      cases h2
      rfl
    · cases h1
      cases h2
      rfl
  ⟨hcoms, (tasks.MultiCoMTask.update_overloads_agree sample.rbdLib sample.multiCoMTask
    [sample.arm, sample.slider] [sample.armConfig, sample.sliderConfig]
    [sample.rbdLib.computeCoM sample.arm sample.armConfig,
      sample.rbdLib.computeCoM sample.slider sample.sliderConfig] [[], []] hcoms).2
    rfl rfl rfl (by decide)⟩

theorem stdAt_nonneg {α : Type} (v : List α) (i : Int) (x : α) (h : stdAt v i = some x) :
    0 ≤ i := by
  unfold stdAt at h
  split at h
  · assumption
  · cases h

theorem tasks.MultiCoMTask.zipWith_replicate_sum (W : List ℚ) (c : Vector3d) :
    (List.zipWith (fun (w : ℚ) (c : Vector3d) => w • c) W (List.replicate W.length c)).sum =
      W.sum • c := by
  induction W with
  | nil => simp
  | cons w W ih =>
    simp only [List.length_cons, List.replicate_succ, List.zipWith_cons_cons, List.sum_cons, ih,
      add_smul]

theorem tasks.MultiCoMTask.updateWith_same_com (R : rbd.Lib) (mbs : List rbd.MultiBody)
    (mbcs : List rbd.MultiBodyConfig)
    (comOf : Int → rbd.MultiBody → rbd.MultiBodyConfig → Option Vector3d)
    (accOf : rbd.CoMJacobian → Int → rbd.MultiBody → rbd.MultiBodyConfig → Option Vector3d)
    (s : tasks.MultiCoMTask) (c : Vector3d)
    (hw : s.robotsWeight_.length = s.robotIndexes_.length)
    (hjac : s.jac_.length = s.robotIndexes_.length)
    (hjacMat : s.jacMat_.length = s.robotIndexes_.length)
    (hsum : s.robotsWeight_.sum = 1)
    (hcs : ∀ r ∈ s.robotIndexes_, ∃ mb mbc, stdAt mbs r = some mb ∧
      stdAt mbcs r = some mbc ∧ comOf r mb mbc = some c ∧
      ∀ jac, ∃ a, accOf jac r mb mbc = some a) :
    ∃ s1, tasks.MultiCoMTask.updateWith R mbs mbcs comOf accOf s = some s1 ∧
      s1.eval_ = s.com_ - c := by
  obtain ⟨s1, h1, -, -, -, -, -, h2⟩ := tasks.MultiCoMTask.updateWith_eval R mbs mbcs comOf
    accOf s (List.replicate s.robotsWeight_.length c) hw hjac hjacMat (by simp [hw]) (by
      intro i hi
      have hri : s.robotIndexes_[i]? = some s.robotIndexes_[i] := List.getElem?_eq_getElem hi
      obtain ⟨mb, mbc, hmb, hmbc, hc, hacc⟩ := hcs _ (List.getElem?_mem hri)
      refine ⟨_, mb, mbc, c, hri, hmb, hmbc, hc, ?_, hacc⟩
      rw [List.getElem?_replicate, if_pos (hw ▸ hi)])
  refine ⟨s1, h1, ?_⟩
  rw [h2, tasks.MultiCoMTask.zipWith_replicate_sum, hsum, one_smul]

theorem tasks.MultiCoMTask.weights_sum_one (ms : List rbd.MultiBody)
    (h : (ms.map tasks.MultiCoMTask.robotMass).sum ≠ 0) :
    (ms.map fun mb => tasks.MultiCoMTask.robotMass mb /
      (ms.map tasks.MultiCoMTask.robotMass).sum).sum = 1 := by
  have e := tasks.MultiCoMTask.sum_div (ms.map tasks.MultiCoMTask.robotMass)
    (ms.map tasks.MultiCoMTask.robotMass).sum
  rw [List.map_map] at e
  rw [show (fun mb : rbd.MultiBody => tasks.MultiCoMTask.robotMass mb /
      (ms.map tasks.MultiCoMTask.robotMass).sum) =
      (fun x => x / (ms.map tasks.MultiCoMTask.robotMass).sum) ∘
        tasks.MultiCoMTask.robotMass from rfl, e]
  exact div_self h

theorem tasks.MultiCoMTask.listed_lookup (mbs : List rbd.MultiBody)
    (mbcs : List rbd.MultiBodyConfig) (robotIndexes : List Int) (ms : List rbd.MultiBody)
    (hms : List.Forall₂ (fun r mb => stdAt mbs r = some mb) robotIndexes ms)
    (hcfg : ∀ r ∈ robotIndexes, r.toNat < mbcs.length) (r : Int) (hr : r ∈ robotIndexes) :
    ∃ mb mbc, stdAt mbs r = some mb ∧ stdAt mbcs r = some mbc := by
  obtain ⟨i, hi, rfl⟩ := List.getElem_of_mem hr
  obtain ⟨r1, mb, h1, -, h3⟩ := tasks.MultiCoMTask.forall₂_lookup mbs _ _ hms i hi
  rw [List.getElem?_eq_getElem hi] at h1
  cases h1
  obtain ⟨mbc, hmbc⟩ := stdAt_isSome mbcs _ (stdAt_nonneg _ _ _ h3) (hcfg _ hr)
  exact ⟨mb, mbc, h3, hmbc⟩

/-- C25, amended: in exact arithmetic, let the task be constructed on listed robots `ms`
whose total mass is not zero, every listed robot index being in range of `mbcs`.  If
`computeCoM` gives the same point `c` for every listed robot, `update(mbs, mbcs)` returns
with `eval() = com_ - c`, and so does `update(mbs, mbcs, normalAccB)` when the listed
indexes are in range of `normalAccB`; if `coms[r]` is `c` for every listed robot, so does
`update(mbs, mbcs, coms, normalAccB)`; in each case `eval()` is zero when `c` is the
target.  For a single listed robot the weight is 1 and after `update(mbs, mbcs)` `eval()`
is the error `com_ - com` that a `CoMTask` with the same target computes for that
robot. -/
theorem tasks.MultiCoMTask.eval_same_com (R : rbd.Lib) (mem : tasks.MultiCoMTask)
    (mbs : List rbd.MultiBody) (robotIndexes : List Int) (com : Vector3d)
    (ms : List rbd.MultiBody) (mbcs : List rbd.MultiBodyConfig) (coms : List Vector3d)
    (normalAccB : List (List sva.MotionVecd)) (c : Vector3d)
    (hms : List.Forall₂ (fun r mb => stdAt mbs r = some mb) robotIndexes ms)
    (hmass : (ms.map tasks.MultiCoMTask.robotMass).sum ≠ 0)
    (hcfg : ∀ r ∈ robotIndexes, r.toNat < mbcs.length) :
    ∃ s, tasks.MultiCoMTask.new mem mbs robotIndexes com = some s ∧
      ((∀ r ∈ robotIndexes, ∀ mb mbc, stdAt mbs r = some mb → stdAt mbcs r = some mbc →
          R.computeCoM mb mbc = c) →
        (∃ s1, tasks.MultiCoMTask.update R s mbs mbcs = some s1 ∧ s1.eval = com - c ∧
          (c = com → s1.eval = 0)) ∧
        ((∀ r ∈ robotIndexes, r.toNat < normalAccB.length) →
          ∃ s1, tasks.MultiCoMTask.updateB R s mbs mbcs normalAccB = some s1 ∧
            s1.eval = com - c ∧ (c = com → s1.eval = 0))) ∧
      ((∀ r ∈ robotIndexes, stdAt coms r = some c) →
        (∀ r ∈ robotIndexes, r.toNat < normalAccB.length) →
        ∃ s1, tasks.MultiCoMTask.updateComs R s mbs mbcs coms normalAccB = some s1 ∧
          s1.eval = com - c ∧ (c = com → s1.eval = 0)) ∧
      ∀ (r : Int) (mb : rbd.MultiBody) (mbc : rbd.MultiBodyConfig) (memC : tasks.CoMTask),
        robotIndexes = [r] → stdAt mbs r = some mb → stdAt mbcs r = some mbc →
        s.robotsWeight_ = [1] ∧
        ∃ s1, tasks.MultiCoMTask.update R s mbs mbcs = some s1 ∧
          s1.eval = (tasks.CoMTask.update R (tasks.CoMTask.new memC mb com) mb mbc).eval := by
  obtain ⟨s, hs, h1, h2, h3, h4, h5, -⟩ :=
    tasks.MultiCoMTask.new_spec mem mbs robotIndexes com ms hms
  have hw : s.robotsWeight_.length = s.robotIndexes_.length := by
    rw [h3, h2, List.length_map, hms.length_eq]
  have hjac : s.jac_.length = s.robotIndexes_.length := by rw [h4, h2]
  have hsum : s.robotsWeight_.sum = 1 := by
    rw [h3]
    exact tasks.MultiCoMTask.weights_sum_one ms hmass
  have hzero : ∀ (s1 : tasks.MultiCoMTask) (d : Vector3d), s1.eval_ = s.com_ - d →
      s1.eval = com - d ∧ (d = com → s1.eval = 0) := by
    intro s1 d he
    have e : s1.eval = com - d := by rw [tasks.MultiCoMTask.eval, he, h1]
    exact ⟨e, fun hd => by rw [e, hd, sub_self]⟩
  have hplain : ∀ d : Vector3d, (∀ r ∈ robotIndexes, ∀ mb mbc, stdAt mbs r = some mb →
      stdAt mbcs r = some mbc → R.computeCoM mb mbc = d) →
      ∃ s1, tasks.MultiCoMTask.update R s mbs mbcs = some s1 ∧ s1.eval_ = s.com_ - d := by
    intro d hc
    exact tasks.MultiCoMTask.updateWith_same_com R mbs mbcs _ _ s d hw hjac h5 hsum
      fun r hr => by
        obtain ⟨mb, mbc, hmb, hmbc⟩ := tasks.MultiCoMTask.listed_lookup mbs mbcs
          robotIndexes ms hms hcfg r (h2 ▸ hr)
        exact ⟨mb, mbc, hmb, hmbc, congrArg some (hc r (h2 ▸ hr) mb mbc hmb hmbc),
          fun jac => ⟨_, rfl⟩⟩
  refine ⟨s, hs, fun hc => ⟨?_, fun hn => ?_⟩, fun hcoms hn => ?_, ?_⟩
  · obtain ⟨s1, hu, he⟩ := hplain c hc
    exact ⟨s1, hu, hzero s1 c he⟩
  · obtain ⟨s1, hu, he⟩ := tasks.MultiCoMTask.updateWith_same_com R mbs mbcs
      (fun _ mb mbc => some (R.computeCoM mb mbc))
      (fun jac r mb mbc => do
        let nB ← stdAt normalAccB r
        some (R.comNormalAccelerationB jac mb mbc nB)) s c hw hjac h5 hsum
      fun r hr => by
        obtain ⟨mb, mbc, hmb, hmbc⟩ := tasks.MultiCoMTask.listed_lookup mbs mbcs
          robotIndexes ms hms hcfg r (h2 ▸ hr)
        obtain ⟨nB, hnB⟩ := stdAt_isSome normalAccB r (stdAt_nonneg _ _ _ hmb)
          (hn r (h2 ▸ hr))
        exact ⟨mb, mbc, hmb, hmbc, congrArg some (hc r (h2 ▸ hr) mb mbc hmb hmbc),
          fun jac => ⟨R.comNormalAccelerationB jac mb mbc nB, by simp [hnB]⟩⟩
    exact ⟨s1, hu, hzero s1 c he⟩
  · obtain ⟨s1, hu, he⟩ := tasks.MultiCoMTask.updateWith_same_com R mbs mbcs
      (fun r _ _ => stdAt coms r)
      (fun jac r mb mbc => do
        let nB ← stdAt normalAccB r
        some (R.comNormalAccelerationB jac mb mbc nB)) s c hw hjac h5 hsum
      fun r hr => by
        obtain ⟨mb, mbc, hmb, hmbc⟩ := tasks.MultiCoMTask.listed_lookup mbs mbcs
          robotIndexes ms hms hcfg r (h2 ▸ hr)
        obtain ⟨nB, hnB⟩ := stdAt_isSome normalAccB r (stdAt_nonneg _ _ _ hmb)
          (hn r (h2 ▸ hr))
        exact ⟨mb, mbc, hmb, hmbc, hcoms r (h2 ▸ hr),
          fun jac => ⟨R.comNormalAccelerationB jac mb mbc nB, by simp [hnB]⟩⟩
    exact ⟨s1, hu, hzero s1 c he⟩
  · intro r mb mbc memC hidx hmb hmbc
    subst hidx
    obtain ⟨s1, hu, he⟩ := hplain (R.computeCoM mb mbc) fun r1 hr1 mb1 mbc1 e1 e2 => by
      rw [List.mem_singleton] at hr1
      subst hr1
      rw [hmb] at e1
      rw [hmbc] at e2
      cases e1
      cases e2
      rfl
    refine ⟨?_, s1, hu, ?_⟩
    · cases hms with
      | cons hhead htail =>
        cases htail
        rw [h3]
        simp only [List.map_cons, List.map_nil, List.sum_cons, List.sum_nil, add_zero] at hmass ⊢
        rw [div_self hmass]
    · rw [tasks.MultiCoMTask.eval, he, h1]
      rfl

/-- The statement of `tasks.MultiCoMTask.eval_same_com` on the sample arm (mass 4) and
slider (mass 8), whose weights are `1/3` and `2/3`, with target `(1, 1, 1)`: when both
centres of mass are `(1, 2, 3)`, `update(mbs, mbcs)` leaves the error `(0, -1, -2)`, and
so does `update(mbs, mbcs, coms, normalAccB)` when both entries of `coms` are
`(1, 2, 3)`. -/
theorem tasks.MultiCoMTask.eval_same_com_witness :
    List.Forall₂ (fun r mb => stdAt [sample.arm, sample.slider] r = some mb) [0, 1]
      [sample.arm, sample.slider] ∧
    ([sample.arm, sample.slider].map tasks.MultiCoMTask.robotMass).sum ≠ 0 ∧
    (∀ r ∈ [(0 : Int), 1],
      r.toNat < [sample.armConfigShifted, sample.sliderConfigShifted].length) ∧
    (∀ r ∈ [(0 : Int), 1], ∀ mb mbc, stdAt [sample.arm, sample.slider] r = some mb →
      stdAt [sample.armConfigShifted, sample.sliderConfigShifted] r = some mbc →
      sample.rbdLib.computeCoM mb mbc = ![1, 2, 3]) ∧
    (∀ r ∈ [(0 : Int), 1], stdAt [(![1, 2, 3] : Vector3d), ![1, 2, 3]] r = some ![1, 2, 3]) ∧
    (∀ r ∈ [(0 : Int), 1], r.toNat < [([] : List sva.MotionVecd), []].length) ∧
    ∃ s, tasks.MultiCoMTask.new sample.multiCoMTask [sample.arm, sample.slider] [0, 1]
        ![1, 1, 1] = some s ∧
      s.robotsWeight_ = [1 / 3, 2 / 3] ∧
      (∃ s1, tasks.MultiCoMTask.update sample.rbdLib s [sample.arm, sample.slider]
          [sample.armConfigShifted, sample.sliderConfigShifted] = some s1 ∧
        s1.eval = ![0, -1, -2]) ∧
      ∃ s1, tasks.MultiCoMTask.updateComs sample.rbdLib s [sample.arm, sample.slider]
          [sample.armConfigShifted, sample.sliderConfigShifted] [![1, 2, 3], ![1, 2, 3]]
          [[], []] = some s1 ∧
        s1.eval = ![0, -1, -2] :=
  have hmass : ([sample.arm, sample.slider].map tasks.MultiCoMTask.robotMass).sum ≠ 0 := by
    norm_num [tasks.MultiCoMTask.robotMass, sample.arm, sample.slider]
  have hc : ∀ r ∈ [(0 : Int), 1], ∀ mb mbc, stdAt [sample.arm, sample.slider] r = some mb →
      stdAt [sample.armConfigShifted, sample.sliderConfigShifted] r = some mbc →
      sample.rbdLib.computeCoM mb mbc = ![1, 2, 3] := by
    intro r hr mb mbc h1 h2
    have hr1 : r = 0 ∨ r = 1 := by simpa using hr
    rcases hr1 with rfl | rfl
    · cases h1
      cases h2
      rfl
    · cases h1
      cases h2
      rfl
  have hcoms : ∀ r ∈ [(0 : Int), 1],
      stdAt [(![1, 2, 3] : Vector3d), ![1, 2, 3]] r = some ![1, 2, 3] := by
    intro r hr
    have hr1 : r = 0 ∨ r = 1 := by simpa using hr
    rcases hr1 with rfl | rfl <;> rfl
  have hw : ∀ s, tasks.MultiCoMTask.new sample.multiCoMTask [sample.arm, sample.slider]
      [0, 1] ![1, 1, 1] = some s → s.robotsWeight_ = [1 / 3, 2 / 3] := by
    intro s hs
    obtain ⟨t, ht, -, -, h3, -⟩ := tasks.MultiCoMTask.new_spec sample.multiCoMTask
      [sample.arm, sample.slider] [0, 1] ![1, 1, 1] [sample.arm, sample.slider]
      (.cons rfl (.cons rfl .nil))
    rw [hs] at ht
    cases ht
    rw [h3]
    norm_num [tasks.MultiCoMTask.robotMass, sample.arm, sample.slider]
  ⟨.cons rfl (.cons rfl .nil), hmass, by decide, hc, hcoms, by decide,
    (tasks.MultiCoMTask.eval_same_com sample.rbdLib sample.multiCoMTask
      [sample.arm, sample.slider] [0, 1] ![1, 1, 1] [sample.arm, sample.slider]
      [sample.armConfigShifted, sample.sliderConfigShifted] [![1, 2, 3], ![1, 2, 3]]
      [[], []] ![1, 2, 3] (.cons rfl (.cons rfl .nil)) hmass (by decide)).imp fun s h =>
      ⟨h.1, hw s h.1,
        (h.2.1 hc).1.imp fun _ h1 => ⟨h1.1, h1.2.1.trans (by
          funext i
          fin_cases i <;> norm_num)⟩,
        (h.2.2.1 hcoms (by decide)).imp fun _ h1 => ⟨h1.1, h1.2.1.trans (by
          funext i
          fin_cases i <;> norm_num)⟩⟩⟩

/-! ### MultiCoMTask in `double` arithmetic -/

theorem tasks.MultiCoMTask.massLoopRounded_id (mbs : List rbd.MultiBody) (rs : List Int)
    (w : List ℚ) (t : ℚ) :
    tasks.MultiCoMTask.massLoopRounded id mbs rs w t = tasks.MultiCoMTask.massLoop mbs rs w t := by
  induction rs generalizing w t with
  | nil => rfl
  | cons r rs ih =>
    simp only [tasks.MultiCoMTask.massLoopRounded, tasks.MultiCoMTask.massLoop, ih]
    rfl

theorem tasks.MultiCoMTask.updateStepRounded_id (R : rbd.Lib) (mbs : List rbd.MultiBody)
    (mbcs : List rbd.MultiBodyConfig)
    (comOf : Int → rbd.MultiBody → rbd.MultiBodyConfig → Option Vector3d)
    (accOf : rbd.CoMJacobian → Int → rbd.MultiBody → rbd.MultiBodyConfig → Option Vector3d) :
    tasks.MultiCoMTask.updateStepRounded id R mbs mbcs comOf accOf =
      tasks.MultiCoMTask.updateStep R mbs mbcs comOf accOf := by
  funext s i
  have h : ∀ (c : Vector3d) (w : ℚ),
      (fun k => id (s.eval_ k - id (c k * w))) = s.eval_ - w • c := by
    intro c w
    funext k
    simp [mul_comm]
  simp only [tasks.MultiCoMTask.updateStepRounded, tasks.MultiCoMTask.updateStep, h]
  rfl

/-- The embedding in rounded arithmetic is the embedding in exact arithmetic when nothing
is rounded: with the identity for `fl`, the constructor and
`update(mbs, mbcs, coms, normalAccB)` are the functions `new` and `updateComs`. -/
theorem tasks.MultiCoMTask.rounded_id (R : rbd.Lib) (mem s : tasks.MultiCoMTask)
    (mbs : List rbd.MultiBody) (robotIndexes : List Int) (com : Vector3d)
    (mbcs : List rbd.MultiBodyConfig) (coms : List Vector3d)
    (normalAccB : List (List sva.MotionVecd)) :
    tasks.MultiCoMTask.newRounded id mem mbs robotIndexes com =
      tasks.MultiCoMTask.new mem mbs robotIndexes com ∧
    tasks.MultiCoMTask.updateComsRounded id R s mbs mbcs coms normalAccB =
      tasks.MultiCoMTask.updateComs R s mbs mbcs coms normalAccB := by
  constructor
  · simp only [tasks.MultiCoMTask.newRounded, tasks.MultiCoMTask.new,
      tasks.MultiCoMTask.computeRobotsWeightRounded, tasks.MultiCoMTask.computeRobotsWeight,
      tasks.MultiCoMTask.massLoopRounded_id]
    rfl
  · simp only [tasks.MultiCoMTask.updateComsRounded, tasks.MultiCoMTask.updateComs,
      tasks.MultiCoMTask.updateWithRounded, tasks.MultiCoMTask.updateWith,
      tasks.MultiCoMTask.updateStepRounded_id]

/-- C25, as stated, fails in the arithmetic of the code: two listed robots of masses 4 and
8 (total mass 12), target `(1, 1, 1)` and both centres of mass at that target.  In
`double` arithmetic the constructor stores the weights `fl(4/12)` and `fl(8/12)`, and
`update(mbs, mbcs, coms, normalAccB)` leaves `eval() = (2⁻⁵³, 2⁻⁵³, 2⁻⁵³)`, which is not
`com_ - c = 0`. -/
theorem tasks.MultiCoMTask.eval_same_com_rounding :
    (([sample.arm, sample.slider].map tasks.MultiCoMTask.robotMass).sum = 12 ∧
      tasks.MultiCoMTask.robotMass sample.arm = 4 ∧
      tasks.MultiCoMTask.robotMass sample.slider = 8) ∧
    tasks.MultiCoMTask.newRounded Double.round sample.multiCoMTask [sample.arm, sample.slider]
      [0, 1] ![1, 1, 1] = some sample.multiCoMTaskDouble ∧
    (∀ r ∈ sample.multiCoMTaskDouble.robotIndexes_,
      stdAt [(![1, 1, 1] : Vector3d), ![1, 1, 1]] r = some sample.multiCoMTaskDouble.com_) ∧
    ∃ s1, tasks.MultiCoMTask.updateComsRounded Double.round sample.rbdLib
        sample.multiCoMTaskDouble [sample.arm, sample.slider]
        [sample.armConfig, sample.sliderConfig] [![1, 1, 1], ![1, 1, 1]] [[], []] = some s1 ∧
      s1.eval = ![1 / 2 ^ 53, 1 / 2 ^ 53, 1 / 2 ^ 53] ∧
      s1.eval ≠ sample.multiCoMTaskDouble.com_ - ![1, 1, 1] := by
  have hmass : ([sample.arm, sample.slider].map tasks.MultiCoMTask.robotMass).sum = 12 ∧
      tasks.MultiCoMTask.robotMass sample.arm = 4 ∧
      tasks.MultiCoMTask.robotMass sample.slider = 8 := by
    decide!
  have hnew : tasks.MultiCoMTask.newRounded Double.round sample.multiCoMTask
      [sample.arm, sample.slider] [0, 1] ![1, 1, 1] = some sample.multiCoMTaskDouble := by
    decide!
  have hgen : ∀ fl : ℚ → ℚ, (tasks.MultiCoMTask.updateComsRounded fl sample.rbdLib
      sample.multiCoMTaskDouble [sample.arm, sample.slider]
      [sample.armConfig, sample.sliderConfig] [![1, 1, 1], ![1, 1, 1]] [[], []]).map
      (fun s1 => s1.eval) = some (fun _ =>
        fl (fl (1 - fl (1 * (6004799503160661 / 2 ^ 54))) -
          fl (1 * (6004799503160661 / 2 ^ 53)))) := by
    intro fl
    simp [tasks.MultiCoMTask.updateComsRounded, tasks.MultiCoMTask.updateWithRounded,
      tasks.MultiCoMTask.updateStepRounded, sample.multiCoMTaskDouble, stdAt,
      List.range_succ, tasks.MultiCoMTask.eval]
    funext k
    fin_cases k <;> simp
  have hfl : Double.round (Double.round (1 - Double.round (1 * (6004799503160661 / 2 ^ 54))) -
      Double.round (1 * (6004799503160661 / 2 ^ 53))) = 1 / 2 ^ 53 := by
    decide!
  have hup := hgen Double.round
  rw [hfl] at hup
  obtain ⟨s1, hs1, he⟩ := Option.map_eq_some'.1 hup
  refine ⟨hmass, hnew, by decide, s1, hs1, ?_, ?_⟩
  · rw [he]
    funext k
    fin_cases k <;> rfl
  · rw [he]
    intro h
    have h0 := congrFun h 0
    simp [sample.multiCoMTaskDouble] at h0
